import Mathlib

/-!
# Video streaming simulator: embedding and verified properties

Shallow embedding of `src/src/simulator.cpp`.

Conventions of the embedding.
* A C++ `int` is an `Int`. Signed overflow is undefined behaviour in C++, so
  the embedding describes runs whose intermediate values fit in an `int`.
  Where a statement depends on the range of `int`, the range is explicit:
  `simulatePlaybackInt` is the run whose clock is a 32-bit `int`, `fitsInt`
  bounds the operands of the bandwidth arithmetic, and draws of `rand()` are
  bounded by `RAND_MAX` where a statement needs a draw to exist.
* `/` and `%` on `int` truncate towards zero: `Int.tdiv` and `Int.tmod`.
  A division or modulo by zero is a fault: the function returns `none`.
* `rand()` is a sequence `rand : Nat → Nat` of non-negative draws together
  with the number of draws already consumed.
* `double` arithmetic in `displayStatistics` is exact arithmetic over `ℚ`.
* Console output is not modelled.
-/

namespace Simulator

/-- Structure `VideoChunk` of the source. -/
structure VideoChunk where
  chunk_id : Int
  bitrate : Int
  size_kb : Int
  duration_ms : Int
  requested_time : Int
  received_time : Int
  played_time : Int
  is_downloaded : Bool
  deriving DecidableEq, Repr

/-- The vector `bitrates = {480, 720, 1080, 2160}` both policies declare. -/
def bitrates : List Int := [480, 720, 1080, 2160]

/-- The loop `for (int i = n - 1; i >= 0; i--) if (bitrates[i] <= bandwidth &&
bitrates[i] <= max_bitrate) return bitrates[i];` with `n` the number of
indices still to visit: `some r` when the loop returns `r`, `none` when it
falls through. -/
def scanDown (bandwidth max_bitrate : Int) : Nat → Option Int
  | 0 => none
  | i + 1 =>
    if bitrates.getD i 0 ≤ bandwidth ∧ bitrates.getD i 0 ≤ max_bitrate then
      some (bitrates.getD i 0)
    else scanDown bandwidth max_bitrate i

namespace AlwaysBestFit

/-- Method `AlwaysBestFit::selectBitrate`. -/
def selectBitrate (buffer_level bandwidth min_bitrate max_bitrate : Int) : Int :=
  match scanDown bandwidth max_bitrate bitrates.length with
  | some r => r
  | none => min_bitrate

end AlwaysBestFit

namespace BufferBasedAdaptation

/-- Method `BufferBasedAdaptation::selectBitrate`. -/
def selectBitrate (buffer_level bandwidth min_bitrate max_bitrate : Int) : Int :=
  let CRITICAL_BUFFER : Int := 3000
  let LOW_BUFFER : Int := 10000
  let NORMAL_BUFFER : Int := 20000
  if buffer_level < CRITICAL_BUFFER then 480
  else if buffer_level < LOW_BUFFER then 720
  else if buffer_level < NORMAL_BUFFER then 1080
  else
    match scanDown bandwidth max_bitrate bitrates.length with
    | some r => r
    | none => max_bitrate

end BufferBasedAdaptation

/-- The two implementations of the abstract class `AdaptiveBitrateAlgorithm`. -/
inductive AdaptiveBitrateAlgorithm where
  | alwaysBestFit
  | bufferBasedAdaptation
  deriving DecidableEq, Repr

/-- Virtual dispatch of `selectBitrate`. -/
def AdaptiveBitrateAlgorithm.selectBitrate (a : AdaptiveBitrateAlgorithm)
    (buffer_level bandwidth min_bitrate max_bitrate : Int) : Int :=
  match a with
  | .alwaysBestFit =>
    AlwaysBestFit.selectBitrate buffer_level bandwidth min_bitrate max_bitrate
  | .bufferBasedAdaptation =>
    BufferBasedAdaptation.selectBitrate buffer_level bandwidth min_bitrate max_bitrate

/-- Class `NetworkSimulator`. -/
structure NetworkSimulator where
  current_bandwidth : Int
  min_bandwidth : Int
  max_bandwidth : Int
  fluctuation_rate : Int
  deriving DecidableEq, Repr

namespace NetworkSimulator

/-- Constructor `NetworkSimulator(min_bw, max_bw, fluct)`. -/
def new (min_bw max_bw fluct : Int) : NetworkSimulator :=
  { current_bandwidth := min_bw, min_bandwidth := min_bw,
    max_bandwidth := max_bw, fluctuation_rate := fluct }

/-- Method `simulateBandwidth`. The result is the returned value, the new
state of the object and the new number of consumed draws; `none` is the
modulo by zero of `rand() % (fluctuation_rate * 2)`. -/
def simulateBandwidth (rand : Nat → Nat) (rand_calls : Nat) (net : NetworkSimulator)
    (current_time : Int) : Option (Int × NetworkSimulator × Nat) :=
  if current_time.tmod 1000 = 0 then
    if net.fluctuation_rate * 2 = 0 then none
    else
      let change := ((rand rand_calls : Int).tmod (net.fluctuation_rate * 2))
        - net.fluctuation_rate
      let updated := max net.min_bandwidth
        (min net.max_bandwidth (net.current_bandwidth + change))
      some (updated, { net with current_bandwidth := updated }, rand_calls + 1)
  else some (net.current_bandwidth, net, rand_calls)

/-- Method `getBandwidth`. -/
def getBandwidth (net : NetworkSimulator) : Int := net.current_bandwidth

/-- Method `setBandwidth`. -/
def setBandwidth (net : NetworkSimulator) (bw : Int) : NetworkSimulator :=
  { net with current_bandwidth := bw }

/-- Method `setParameters`. -/
def setParameters (_net : NetworkSimulator) (min_bw max_bw fluct : Int) :
    NetworkSimulator :=
  { min_bandwidth := min_bw, max_bandwidth := max_bw,
    fluctuation_rate := fluct, current_bandwidth := min_bw }

end NetworkSimulator

/-- Class `VideoStreamingEngine`. The queue `buffer` is a list with its front
at the head; the pointer `network` is the state of the object it points to. -/
structure VideoStreamingEngine where
  buffer : List VideoChunk
  streaming_history : List VideoChunk
  buffer_capacity_ms : Int
  current_buffer_level : Int
  total_time_played : Int
  rebuffer_count : Int
  rebuffer_time_ms : Int
  network : NetworkSimulator
  abr_algorithm : AdaptiveBitrateAlgorithm
  deriving DecidableEq, Repr

namespace VideoStreamingEngine

/-- Constructor `VideoStreamingEngine(buffer_cap, net, algo)`. -/
def new (buffer_cap : Int) (net : NetworkSimulator) (algo : AdaptiveBitrateAlgorithm) :
    VideoStreamingEngine :=
  { buffer := [], streaming_history := [], buffer_capacity_ms := buffer_cap,
    current_buffer_level := 0, total_time_played := 0, rebuffer_count := 0,
    rebuffer_time_ms := 0, network := net, abr_algorithm := algo }

/-- Method `calculateChunkSize`. -/
def calculateChunkSize (bitrate duration_ms : Int) : Int :=
  (bitrate * duration_ms).tdiv 8000

/-- Method `downloadChunk`; `none` is the division by zero of
`(chunk_size * 8) / (bandwidth / 1000)`. -/
def downloadChunk (e : VideoStreamingEngine) (chunk_id current_time selected_bitrate : Int) :
    Option VideoChunk :=
  let chunk_size := calculateChunkSize selected_bitrate 2000
  let bandwidth := e.network.getBandwidth
  if bandwidth.tdiv 1000 = 0 then none
  else
    let download_time := (chunk_size * 8).tdiv (bandwidth.tdiv 1000)
    some { chunk_id := chunk_id, bitrate := selected_bitrate, size_kb := chunk_size,
           duration_ms := 2000, requested_time := current_time,
           received_time := current_time + download_time, played_time := 0,
           is_downloaded := true }

end VideoStreamingEngine

/-- The engine together with the local variables of `simulatePlayback` and
the number of draws `rand()` has produced so far. -/
structure PlaybackState where
  engine : VideoStreamingEngine
  current_time : Int
  next_chunk_to_request : Int
  next_chunk_to_play : Int
  rand_calls : Nat
  deriving DecidableEq, Repr

/-- The block "Request new chunks if buffer not full" of the loop body. -/
def requestStep (chunks_needed bandwidth : Int) (s : PlaybackState) : Option PlaybackState :=
  if s.next_chunk_to_request ≤ chunks_needed ∧
      s.engine.current_buffer_level < s.engine.buffer_capacity_ms then
    let selected_bitrate := s.engine.abr_algorithm.selectBitrate
      s.engine.current_buffer_level bandwidth 480 2160
    match s.engine.downloadChunk s.next_chunk_to_request s.current_time selected_bitrate with
    | none => none
    | some chunk =>
      if chunk.received_time ≤ s.current_time + 100 then
        some { s with
          engine := { s.engine with
            buffer := s.engine.buffer ++ [chunk]
            current_buffer_level := s.engine.current_buffer_level + chunk.duration_ms
            streaming_history := s.engine.streaming_history ++ [chunk] }
          next_chunk_to_request := s.next_chunk_to_request + 1 }
      else some s
  else some s

/-- The block "Play chunk if available" of the loop body. -/
def playStep (s : PlaybackState) : PlaybackState :=
  match s.engine.buffer with
  | [] => s
  | played :: rest =>
    if s.current_time.tmod 2000 = 0 then
      { s with
        engine := { s.engine with
          buffer := rest
          current_buffer_level := s.engine.current_buffer_level - played.duration_ms
          total_time_played := s.engine.total_time_played + played.duration_ms }
        next_chunk_to_play := s.next_chunk_to_play + 1 }
    else s

/-- The block "Rebuffer detection" of the loop body. -/
def rebufferStep (chunks_needed : Int) (s : PlaybackState) : PlaybackState :=
  if s.engine.buffer = [] ∧ s.next_chunk_to_request ≤ chunks_needed then
    { s with
      engine := { s.engine with
        rebuffer_count := s.engine.rebuffer_count + 1
        rebuffer_time_ms := s.engine.rebuffer_time_ms + 500 } }
  else s

/-- The call `network->simulateBandwidth(current_time)` that opens the loop
body: the sampled bandwidth and the state with the network updated. -/
def sampleStep (rand : Nat → Nat) (s : PlaybackState) : Option (Int × PlaybackState) :=
  match s.engine.network.simulateBandwidth rand s.rand_calls s.current_time with
  | none => none
  | some (bandwidth, net, calls) =>
    some (bandwidth, { s with engine := { s.engine with network := net }, rand_calls := calls })

/-- One iteration of the `while` loop of `simulatePlayback`. -/
def simulationStep (rand : Nat → Nat) (chunks_needed : Int) (s : PlaybackState) :
    Option PlaybackState :=
  match sampleStep rand s with
  | none => none
  | some (bandwidth, s0) =>
    match requestStep chunks_needed bandwidth s0 with
    | none => none
    | some s1 =>
      let s3 := rebufferStep chunks_needed (playStep s1)
      some { s3 with current_time := s3.current_time + 100 }

/-- The state after at most `k` iterations of
`while (current_time < simulation_duration_ms)`. -/
def simulateSteps (rand : Nat → Nat) (simulation_duration_ms chunks_needed : Int) :
    Nat → PlaybackState → Option PlaybackState
  | 0, s => some s
  | k + 1, s =>
    if s.current_time < simulation_duration_ms then
      match simulationStep rand chunks_needed s with
      | none => none
      | some s1 => simulateSteps rand simulation_duration_ms chunks_needed k s1
    else some s

/-- The local variables of `simulatePlayback` at loop entry. -/
def enterPlayback (e : VideoStreamingEngine) (rand_calls : Nat) : PlaybackState :=
  { engine := e, current_time := 0, next_chunk_to_request := 1,
    next_chunk_to_play := 1, rand_calls := rand_calls }

/-- A number of iterations after which the loop of `simulatePlayback` has
left: the clock starts at 0 and gains 100 per iteration. -/
def stepBound (simulation_duration_ms : Int) : Nat :=
  ((simulation_duration_ms + 99).tdiv 100).toNat

/-- Method `simulatePlayback` over an unbounded clock: the state in which the
loop is left, or `none` when an iteration divides by zero. For durations of at
most 2147483600 ms it is the run of the source (`simulatePlaybackInt_eq`); for
longer ones the clock of the source overflows (`simulatePlaybackInt`). -/
def simulatePlayback (rand : Nat → Nat) (rand_calls : Nat) (e : VideoStreamingEngine)
    (simulation_duration_ms chunks_needed : Int) : Option PlaybackState :=
  simulateSteps rand simulation_duration_ms chunks_needed
    (stepBound simulation_duration_ms) (enterPlayback e rand_calls)

/-- What `displayStatistics` prints under "SUMMARY METRICS". -/
structure Statistics where
  average_bitrate : ℚ
  min_bitrate : Int
  max_bitrate : Int
  total_data_mb : ℚ
  rebuffer_count : Int
  rebuffer_time_ms : Int
  quality_score : ℚ
  deriving DecidableEq, Repr

/-- The accumulators `avg_bitrate`, `min_bitrate`, `max_bitrate`, `total_data`
of `displayStatistics`. -/
structure Accumulators where
  avg_bitrate : ℚ
  min_bitrate : Int
  max_bitrate : Int
  total_data : Int
  deriving DecidableEq, Repr

/-- Body of `for (const auto& chunk : streaming_history)` in `displayStatistics`. -/
def accumulate (a : Accumulators) (chunk : VideoChunk) : Accumulators :=
  { avg_bitrate := a.avg_bitrate + (chunk.bitrate : ℚ)
    min_bitrate := min a.min_bitrate chunk.bitrate
    max_bitrate := max a.max_bitrate chunk.bitrate
    total_data := a.total_data + chunk.size_kb }

/-- Method `displayStatistics`: `none` is the early return after
"No streaming data available.". -/
def VideoStreamingEngine.displayStatistics (e : VideoStreamingEngine) : Option Statistics :=
  match e.streaming_history with
  | [] => none
  | first :: rest =>
    let start : Accumulators :=
      { avg_bitrate := 0, min_bitrate := first.bitrate,
        max_bitrate := first.bitrate, total_data := 0 }
    let a := (first :: rest).foldl accumulate start
    let quality_score : ℚ := (a.avg_bitrate / 2160) * 100
    let quality_score : ℚ :=
      if e.rebuffer_count > 0 then quality_score - ((e.rebuffer_count * 10 : Int) : ℚ)
      else quality_score
    let quality_score : ℚ := max 0 quality_score
    some { average_bitrate := a.avg_bitrate / ((first :: rest).length : ℚ)
           min_bitrate := a.min_bitrate
           max_bitrate := a.max_bitrate
           total_data_mb := (a.total_data : ℚ) / 1024
           rebuffer_count := e.rebuffer_count
           rebuffer_time_ms := e.rebuffer_time_ms
           quality_score := quality_score }

/-- A sequence of calls `simulateBandwidth(t)`, one for each time of the list
in order: the state of the object and the number of consumed draws after the
last call. -/
def simulateBandwidthCalls (rand : Nat → Nat) :
    Nat → NetworkSimulator → List Int → Option (NetworkSimulator × Nat)
  | rand_calls, net, [] => some (net, rand_calls)
  | rand_calls, net, t :: ts =>
    match net.simulateBandwidth rand rand_calls t with
    | none => none
    | some (_, net1, calls1) => simulateBandwidthCalls rand calls1 net1 ts

/-- The bookkeeping of the engine agrees with its containers: the buffer level
is the total duration of the queued chunks, played time plus buffer level is
the total admitted duration, every chunk lasts 2000 ms, and each recorded
rebuffer has cost 500 ms. -/
def Accounted (e : VideoStreamingEngine) : Prop :=
  e.current_buffer_level = 2000 * (e.buffer.length : Int) ∧
  e.total_time_played + e.current_buffer_level = 2000 * (e.streaming_history.length : Int) ∧
  (∀ c ∈ e.streaming_history, c.duration_ms = 2000) ∧
  (∀ c ∈ e.buffer, c.duration_ms = 2000) ∧
  e.rebuffer_time_ms = 500 * e.rebuffer_count

/-- Played time against admitted duration: the played time is at most the
total duration of the chunks of the history, with equality exactly when the
buffer is empty, and played time plus buffer level is 2000 ms per chunk of the
history. -/
def PlayedWithinAdmitted (e : VideoStreamingEngine) : Prop :=
  e.total_time_played ≤ (e.streaming_history.map (fun c => c.duration_ms)).sum ∧
  (e.total_time_played = (e.streaming_history.map (fun c => c.duration_ms)).sum ↔
    e.buffer = []) ∧
  e.total_time_played + e.current_buffer_level = 2000 * (e.streaming_history.length : Int)

/-- The state at the start of iteration `j` of an Always-Best-Fit run at a
constant 5000 kbps with capacity 30000 in which nothing has been admitted and
every earlier iteration has recorded a rebuffer. -/
def stalledState (fluct : Int) (j rand_calls : Nat) : PlaybackState :=
  { engine :=
      { buffer := [], streaming_history := [], buffer_capacity_ms := 30000,
        current_buffer_level := 0, total_time_played := 0,
        rebuffer_count := (j : Int), rebuffer_time_ms := 500 * (j : Int),
        network := { current_bandwidth := 5000, min_bandwidth := 5000,
                     max_bandwidth := 5000, fluctuation_rate := fluct },
        abr_algorithm := AdaptiveBitrateAlgorithm.alwaysBestFit },
    current_time := 100 * (j : Int), next_chunk_to_request := 1,
    next_chunk_to_play := 1, rand_calls := rand_calls }

/-- The quality score as the specification words it:
`(meanBitrate / 2160) × 100 − 10 × rebufferCount`, floored at 0, with
`meanBitrate` the sum of the bitrates of the history divided by the number of
its chunks. -/
def specQualityScore (history : List VideoChunk) (rebuffer_count : Int) : ℚ :=
  let meanBitrate : ℚ :=
    (((history.map (fun c => c.bitrate)).sum : Int) : ℚ) / (history.length : ℚ)
  max 0 ((meanBitrate / 2160) * 100 - 10 * (rebuffer_count : ℚ))

/-- The expression `(rand() % (fluctuation_rate * 2)) - fluctuation_rate` of
`simulateBandwidth`, for a draw of `rand()`, a value from 0 to `RAND_MAX`. -/
def bandwidthChange (fluctuation_rate : Int) (draw : Nat) : Int :=
  ((draw : Int).tmod (fluctuation_rate * 2)) - fluctuation_rate

/-- What `runSimulation` does with its two engines: the state in which each
run left its loop, the second engine as it is constructed, and the network and
draw counter the caller gets back. A run that is not selected is `none`. -/
structure SimulationRuns where
  engine1 : Option PlaybackState
  engine2_start : Option VideoStreamingEngine
  engine2 : Option PlaybackState
  network : NetworkSimulator
  rand_calls : Nat
  deriving DecidableEq, Repr

/-- Function `runSimulation`; `none` when a run divides by zero. The output of
`displayStatistics` is not part of the result. -/
def runSimulation (rand : Nat → Nat) (rand_calls : Nat) (network : NetworkSimulator)
    (buffer_capacity simulation_time total_chunks algorithm_choice : Int) :
    Option SimulationRuns :=
  let first : Option (Option PlaybackState × NetworkSimulator × Nat) :=
    if algorithm_choice = 1 ∨ algorithm_choice = 3 then
      match simulatePlayback rand rand_calls
          (VideoStreamingEngine.new buffer_capacity network
            AdaptiveBitrateAlgorithm.alwaysBestFit) simulation_time total_chunks with
      | none => none
      | some s1 => some (some s1, s1.engine.network, s1.rand_calls)
    else some (none, network, rand_calls)
  match first with
  | none => none
  | some (engine1, network1, calls1) =>
    if algorithm_choice = 2 ∨ algorithm_choice = 3 then
      let network2 := network1.setBandwidth network1.getBandwidth
      let engine2_start := VideoStreamingEngine.new buffer_capacity network2
        AdaptiveBitrateAlgorithm.bufferBasedAdaptation
      match simulatePlayback rand calls1 engine2_start simulation_time total_chunks with
      | none => none
      | some s2 =>
        some { engine1 := engine1, engine2_start := some engine2_start, engine2 := some s2,
               network := s2.engine.network, rand_calls := s2.rand_calls }
    else
      some { engine1 := engine1, engine2_start := none, engine2 := none,
             network := network1, rand_calls := calls1 }

/-- The chunk the playback block takes from the front of the buffer (the local
`played`), when it plays one. -/
def playedChunk (s : PlaybackState) : Option VideoChunk :=
  match s.engine.buffer with
  | [] => none
  | played :: _ => if s.current_time.tmod 2000 = 0 then some played else none

/-- The chunk played in the iteration that starts in state `s`, when the
iteration is reached and plays one. -/
def playedInStep (rand : Nat → Nat) (simulation_duration_ms chunks_needed : Int)
    (s : PlaybackState) : Option VideoChunk :=
  if s.current_time < simulation_duration_ms then
    match sampleStep rand s with
    | none => none
    | some (bandwidth, s0) =>
      match requestStep chunks_needed bandwidth s0 with
      | none => none
      | some sr => playedChunk sr
  else none

/-- The chunks played during the first `k` iterations of the loop started in
`s`, in the order in which they are played. -/
def playedDuring (rand : Nat → Nat) (simulation_duration_ms chunks_needed : Int)
    (s : PlaybackState) : Nat → List VideoChunk
  | 0 => []
  | k + 1 =>
    playedDuring rand simulation_duration_ms chunks_needed s k ++
      (match simulateSteps rand simulation_duration_ms chunks_needed k s with
       | none => []
       | some sk => (playedInStep rand simulation_duration_ms chunks_needed sk).toList)

/-- The download duration as the specification words it: the size in kilobits
over the bandwidth in kilobits per second, expressed in milliseconds and
rounded down. -/
def specDownloadTime (size_kb bandwidth : Int) : Int :=
  (size_kb * 8 * 1000) / bandwidth

/-- A chunk as `downloadChunk` sizes it inside a run: 2000 ms long, of a
ladder bitrate, with `size_kb = bitrate * duration_ms / 8000`. -/
def WellSized (c : VideoChunk) : Prop :=
  c.duration_ms = 2000 ∧ c.size_kb = (c.bitrate * c.duration_ms).tdiv 8000 ∧
  c.bitrate ∈ bitrates

/-- The chunk ids `1, 2, ..., n` in order. -/
def chunkIds (n : Nat) : List Int :=
  (List.range n).map (fun (i : Nat) => (i : Int) + 1)

/-- A network on which `downloadChunk` and `simulateBandwidth` cannot divide
by zero: ordered bounds from 1000 kbps up, the current bandwidth within them,
and a non-zero fluctuation rate. -/
def FaultFree (net : NetworkSimulator) : Prop :=
  1000 ≤ net.min_bandwidth ∧ net.min_bandwidth ≤ net.max_bandwidth ∧
  net.min_bandwidth ≤ net.current_bandwidth ∧
  net.current_bandwidth ≤ net.max_bandwidth ∧ net.fluctuation_rate ≠ 0

/-- The largest value of the 32-bit `int` of the source. -/
def INT_MAX : Int := 2147483647

/-- The value is one a 32-bit `int` holds. -/
def fitsInt (x : Int) : Prop := -2147483648 ≤ x ∧ x ≤ INT_MAX

/-- One iteration of the `while` loop of `simulatePlayback` with the clock a
32-bit `int`: when `current_time += 100` leaves the range of `int` (signed
overflow, undefined behaviour) the iteration has no result. -/
def simulationStepInt (rand : Nat → Nat) (chunks_needed : Int) (s : PlaybackState) :
    Option PlaybackState :=
  match simulationStep rand chunks_needed s with
  | none => none
  | some s1 => if s1.current_time ≤ INT_MAX then some s1 else none

/-- The state after at most `k` iterations of
`while (current_time < simulation_duration_ms)` with the clock a 32-bit
`int`. -/
def simulateStepsInt (rand : Nat → Nat) (simulation_duration_ms chunks_needed : Int) :
    Nat → PlaybackState → Option PlaybackState
  | 0, s => some s
  | k + 1, s =>
    if s.current_time < simulation_duration_ms then
      match simulationStepInt rand chunks_needed s with
      | none => none
      | some s1 => simulateStepsInt rand simulation_duration_ms chunks_needed k s1
    else some s

/-- Method `simulatePlayback` with the clock a 32-bit `int`: the state in
which the loop is left, or `none` when an iteration divides by zero or
overflows the clock. -/
def simulatePlaybackInt (rand : Nat → Nat) (rand_calls : Nat) (e : VideoStreamingEngine)
    (simulation_duration_ms chunks_needed : Int) : Option PlaybackState :=
  simulateStepsInt rand simulation_duration_ms chunks_needed
    (stepBound simulation_duration_ms) (enterPlayback e rand_calls)

/-! ## Bitrate policies -/

/-- When the downward scan returns a rung, it is the largest rung of the
ladder that is at most the bandwidth and at most `max_bitrate`. -/
theorem scanDown_some (bandwidth max_bitrate r : Int)
    (h : scanDown bandwidth max_bitrate bitrates.length = some r) :
    r ∈ bitrates ∧ r ≤ bandwidth ∧ r ≤ max_bitrate ∧
      ∀ x ∈ bitrates, x ≤ bandwidth → x ≤ max_bitrate → x ≤ r := by
  simp only [bitrates, List.length, scanDown, List.getD] at h
  simp at h
  simp only [bitrates, List.mem_cons, List.mem_singleton, List.not_mem_nil, or_false,
    forall_eq_or_imp, forall_eq]
  split_ifs at h <;> simp at h <;> subst h <;> omega

/-- When the downward scan falls through, no rung fits. -/
theorem scanDown_none (bandwidth max_bitrate : Int)
    (h : scanDown bandwidth max_bitrate bitrates.length = none) :
    ∀ x ∈ bitrates, ¬ (x ≤ bandwidth ∧ x ≤ max_bitrate) := by
  simp only [bitrates, List.length, scanDown, List.getD] at h
  simp at h
  simp only [bitrates, List.mem_cons, List.mem_singleton, List.not_mem_nil, or_false,
    forall_eq_or_imp, forall_eq]
  split_ifs at h; omega

/-- C1: `AlwaysBestFit::selectBitrate` returns the largest rung of
{480, 720, 1080, 2160} that is at most `bandwidth` and at most `max_bitrate`
when such a rung exists, and `min_bitrate` otherwise; bandwidth 400 with
min 480 and max 2160 gives 480, bandwidth 5000 gives 2160. -/
theorem alwaysBestFit_selects_largest_fitting_rung
    (buffer_level bandwidth min_bitrate max_bitrate : Int) :
    ((∃ r ∈ bitrates, r ≤ bandwidth ∧ r ≤ max_bitrate) →
      AlwaysBestFit.selectBitrate buffer_level bandwidth min_bitrate max_bitrate ∈ bitrates ∧
      AlwaysBestFit.selectBitrate buffer_level bandwidth min_bitrate max_bitrate ≤ bandwidth ∧
      AlwaysBestFit.selectBitrate buffer_level bandwidth min_bitrate max_bitrate ≤ max_bitrate ∧
      ∀ x ∈ bitrates, x ≤ bandwidth → x ≤ max_bitrate →
        x ≤ AlwaysBestFit.selectBitrate buffer_level bandwidth min_bitrate max_bitrate) ∧
    ((¬ ∃ r ∈ bitrates, r ≤ bandwidth ∧ r ≤ max_bitrate) →
      AlwaysBestFit.selectBitrate buffer_level bandwidth min_bitrate max_bitrate = min_bitrate) ∧
    AlwaysBestFit.selectBitrate buffer_level 400 480 2160 = 480 ∧
    AlwaysBestFit.selectBitrate buffer_level 5000 480 2160 = 2160 := by
  refine ⟨?_, ?_, by simp [AlwaysBestFit.selectBitrate, scanDown, bitrates],
    by simp [AlwaysBestFit.selectBitrate, scanDown, bitrates]⟩
  · rintro ⟨r, hr, hb, hm⟩
    unfold AlwaysBestFit.selectBitrate
    cases h : scanDown bandwidth max_bitrate bitrates.length with
    | none => exact absurd ⟨hb, hm⟩ (scanDown_none _ _ h r hr)
    | some q => exact scanDown_some _ _ q h
  · intro hno
    unfold AlwaysBestFit.selectBitrate
    cases h : scanDown bandwidth max_bitrate bitrates.length with
    | none => rfl
    | some q =>
      obtain ⟨h1, h2, h3, _⟩ := scanDown_some _ _ q h
      exact absurd ⟨q, h1, h2, h3⟩ hno

/-- C2: `BufferBasedAdaptation::selectBitrate` returns 480 below 3000 ms of
buffer, 720 in [3000, 10000), 1080 in [10000, 20000), and from 20000 ms on the
largest rung that is at most `bandwidth` and at most `max_bitrate`, or
`max_bitrate` when no rung fits; at buffer level 0 the result is 480 whatever
the bandwidth. -/
theorem bufferBased_selectBitrate_regimes
    (buffer_level bandwidth min_bitrate max_bitrate : Int) :
    (buffer_level < 3000 →
      BufferBasedAdaptation.selectBitrate buffer_level bandwidth min_bitrate max_bitrate = 480) ∧
    (3000 ≤ buffer_level → buffer_level < 10000 →
      BufferBasedAdaptation.selectBitrate buffer_level bandwidth min_bitrate max_bitrate = 720) ∧
    (10000 ≤ buffer_level → buffer_level < 20000 →
      BufferBasedAdaptation.selectBitrate buffer_level bandwidth min_bitrate max_bitrate = 1080) ∧
    (20000 ≤ buffer_level →
      ((∃ r ∈ bitrates, r ≤ bandwidth ∧ r ≤ max_bitrate) →
        BufferBasedAdaptation.selectBitrate buffer_level bandwidth min_bitrate max_bitrate
          ∈ bitrates ∧
        BufferBasedAdaptation.selectBitrate buffer_level bandwidth min_bitrate max_bitrate
          ≤ bandwidth ∧
        BufferBasedAdaptation.selectBitrate buffer_level bandwidth min_bitrate max_bitrate
          ≤ max_bitrate ∧
        ∀ x ∈ bitrates, x ≤ bandwidth → x ≤ max_bitrate →
          x ≤ BufferBasedAdaptation.selectBitrate buffer_level bandwidth min_bitrate
            max_bitrate) ∧
      ((¬ ∃ r ∈ bitrates, r ≤ bandwidth ∧ r ≤ max_bitrate) →
        BufferBasedAdaptation.selectBitrate buffer_level bandwidth min_bitrate max_bitrate
          = max_bitrate)) ∧
    BufferBasedAdaptation.selectBitrate 0 bandwidth min_bitrate max_bitrate = 480 := by
  refine ⟨?_, ?_, ?_, ?_, by simp [BufferBasedAdaptation.selectBitrate]⟩
  · intro h
    simp [BufferBasedAdaptation.selectBitrate, h]
  · intro h1 h2
    simp [BufferBasedAdaptation.selectBitrate, h2, not_lt.mpr h1]
  · intro h1 h2
    have h3 : ¬ buffer_level < 3000 := by omega
    have h4 : ¬ buffer_level < 10000 := by omega
    simp [BufferBasedAdaptation.selectBitrate, h2, h3, h4]
  · intro h1
    have h3 : ¬ buffer_level < 3000 := by omega
    have h4 : ¬ buffer_level < 10000 := by omega
    have h5 : ¬ buffer_level < 20000 := by omega
    simp only [BufferBasedAdaptation.selectBitrate, h3, h4, h5, if_false]
    constructor
    · rintro ⟨r, hr, hb, hm⟩
      cases h : scanDown bandwidth max_bitrate bitrates.length with
      | none => exact absurd ⟨hb, hm⟩ (scanDown_none _ _ h r hr)
      | some q => exact scanDown_some _ _ q h
    · intro hno
      cases h : scanDown bandwidth max_bitrate bitrates.length with
      | none => rfl
      | some q =>
        obtain ⟨h1, h2, h3, _⟩ := scanDown_some _ _ q h
        exact absurd ⟨q, h1, h2, h3⟩ hno

/-! ## Bandwidth model -/

/-- The perturbation `rand() % (fluct * 2) - fluct` lies in `[-fluct, fluct)`. -/
theorem change_bounds (r : Nat) (fluct : Int) (hf : 0 < fluct) :
    -fluct ≤ (r : Int).tmod (fluct * 2) - fluct ∧ (r : Int).tmod (fluct * 2) - fluct < fluct := by
  have h0 : 0 ≤ (r : Int).tmod (fluct * 2) := Int.tmod_nonneg _ (Int.ofNat_nonneg r)
  have h1 : (r : Int).tmod (fluct * 2) < fluct * 2 := Int.tmod_lt_of_pos _ (by omega)
  constructor <;> omega

/-- C3: under the Mobile LTE preset (min 500, max 3000, fluct 400, capacity
30000, duration 60000, 30 chunks), for either policy and every sequence of
draws, the bandwidth sampled at clock 0 lies in [500, 1000), so
`bandwidth / 1000` is 0 and `downloadChunk` divides by zero in the first step:
`simulatePlayback` faults. -/
theorem mobile_lte_first_step_divides_by_zero (rand : Nat → Nat) (rand_calls : Nat)
    (algo : AdaptiveBitrateAlgorithm) :
    (∃ bandwidth s0,
      sampleStep rand (enterPlayback (VideoStreamingEngine.new 30000
        (NetworkSimulator.new 500 3000 400) algo) rand_calls) = some (bandwidth, s0) ∧
      500 ≤ bandwidth ∧ bandwidth < 1000 ∧ bandwidth.tdiv 1000 = 0 ∧
      s0.engine.network.getBandwidth = bandwidth ∧
      s0.engine.downloadChunk 1 0 (algo.selectBitrate 0 bandwidth 480 2160) = none ∧
      requestStep 30 bandwidth s0 = none) ∧
    simulatePlayback rand rand_calls (VideoStreamingEngine.new 30000
      (NetworkSimulator.new 500 3000 400) algo) 60000 30 = none := by
  obtain ⟨hlo, hhi⟩ := change_bounds (rand rand_calls) 400 (by decide)
  set change : Int := (rand rand_calls : Int).tmod (400 * 2) - 400 with hchange
  have hb1 : 500 ≤ max (500 : Int) (min 3000 (500 + change)) := le_max_left _ _
  have hb2 : max (500 : Int) (min 3000 (500 + change)) < 1000 := by
    rw [max_lt_iff]; exact ⟨by decide, lt_of_le_of_lt (min_le_right _ _) (by omega)⟩
  have hdiv : (max (500 : Int) (min 3000 (500 + change))).tdiv 1000 = 0 :=
    Int.tdiv_eq_zero_of_lt (by omega) hb2
  have hsample : sampleStep rand (enterPlayback (VideoStreamingEngine.new 30000
        (NetworkSimulator.new 500 3000 400) algo) rand_calls) =
      some (max (500 : Int) (min 3000 (500 + change)),
        { enterPlayback (VideoStreamingEngine.new 30000
            (NetworkSimulator.new 500 3000 400) algo) rand_calls with
          engine := { VideoStreamingEngine.new 30000 (NetworkSimulator.new 500 3000 400) algo with
            network := { NetworkSimulator.new 500 3000 400 with
              current_bandwidth := max (500 : Int) (min 3000 (500 + change)) } }
          rand_calls := rand_calls + 1 }) := by
    simp [sampleStep, NetworkSimulator.simulateBandwidth, enterPlayback,
      VideoStreamingEngine.new, NetworkSimulator.new, hchange]
  have hreq : requestStep 30 (max (500 : Int) (min 3000 (500 + change)))
      { enterPlayback (VideoStreamingEngine.new 30000
            (NetworkSimulator.new 500 3000 400) algo) rand_calls with
          engine := { VideoStreamingEngine.new 30000 (NetworkSimulator.new 500 3000 400) algo with
            network := { NetworkSimulator.new 500 3000 400 with
              current_bandwidth := max (500 : Int) (min 3000 (500 + change)) } }
          rand_calls := rand_calls + 1 } = none := by
    simp [requestStep, enterPlayback, VideoStreamingEngine.new, NetworkSimulator.new,
      VideoStreamingEngine.downloadChunk, NetworkSimulator.getBandwidth, hdiv]
  refine ⟨⟨_, _, hsample, hb1, hb2, hdiv, rfl, ?_, hreq⟩, ?_⟩
  · simp [VideoStreamingEngine.downloadChunk, NetworkSimulator.getBandwidth,
      VideoStreamingEngine.new, hdiv]
  · have hfuel : stepBound 60000 = 599 + 1 := by decide
    rw [simulatePlayback, hfuel, simulateSteps]
    have hlt : (enterPlayback (VideoStreamingEngine.new 30000
        (NetworkSimulator.new 500 3000 400) algo) rand_calls).current_time < 60000 := by
      simp [enterPlayback]
    rw [if_pos hlt, simulationStep, hsample]
    simp only [hreq]


/-- One call of `simulateBandwidth` on an object with ordered bounds, a
positive fluctuation rate and a current bandwidth within the bounds: the call
succeeds, keeps the parameters, leaves the current bandwidth within the bounds
and returns it. -/
theorem simulateBandwidth_keeps_bounds (rand : Nat → Nat) (rand_calls : Nat)
    (net : NetworkSimulator) (t : Int)
    (hmm : net.min_bandwidth ≤ net.max_bandwidth) (hf : 0 < net.fluctuation_rate)
    (hlo : net.min_bandwidth ≤ net.current_bandwidth)
    (hhi : net.current_bandwidth ≤ net.max_bandwidth) :
    ∃ v net1 calls1, net.simulateBandwidth rand rand_calls t = some (v, net1, calls1) ∧
      net1.min_bandwidth = net.min_bandwidth ∧ net1.max_bandwidth = net.max_bandwidth ∧
      net1.fluctuation_rate = net.fluctuation_rate ∧
      net1.min_bandwidth ≤ net1.current_bandwidth ∧
      net1.current_bandwidth ≤ net1.max_bandwidth ∧ v = net1.current_bandwidth := by
  unfold NetworkSimulator.simulateBandwidth
  by_cases ht : t.tmod 1000 = 0
  · have hne : ¬ net.fluctuation_rate * 2 = 0 := by omega
    simp only [ht, hne, if_true, if_false]
    exact ⟨_, _, _, rfl, rfl, rfl, rfl, le_max_left _ _,
      max_le hmm (min_le_left _ _), rfl⟩
  · simp only [ht, if_false]
    exact ⟨_, _, _, rfl, rfl, rfl, rfl, hlo, hhi, rfl⟩

/-- Any sequence of calls of `simulateBandwidth` on such an object succeeds and
keeps the parameters and the bounds. -/
theorem simulateBandwidthCalls_keeps_bounds (rand : Nat → Nat) (ts : List Int) :
    ∀ (rand_calls : Nat) (net : NetworkSimulator),
      net.min_bandwidth ≤ net.max_bandwidth → 0 < net.fluctuation_rate →
      net.min_bandwidth ≤ net.current_bandwidth →
      net.current_bandwidth ≤ net.max_bandwidth →
      ∃ net1 calls1, simulateBandwidthCalls rand rand_calls net ts = some (net1, calls1) ∧
        net1.min_bandwidth = net.min_bandwidth ∧ net1.max_bandwidth = net.max_bandwidth ∧
        net1.fluctuation_rate = net.fluctuation_rate ∧
        net1.min_bandwidth ≤ net1.current_bandwidth ∧
        net1.current_bandwidth ≤ net1.max_bandwidth := by
  induction ts with
  | nil =>
    intro c net _ _ hlo hhi
    exact ⟨net, c, rfl, rfl, rfl, rfl, hlo, hhi⟩
  | cons t ts ih =>
    intro c net hmm hf hlo hhi
    obtain ⟨v, n1, c1, hcall, e1, e2, e3, l1, l2, _⟩ :=
      simulateBandwidth_keeps_bounds rand c net t hmm hf hlo hhi
    obtain ⟨n2, c2, hrest, f1, f2, f3, m1, m2⟩ :=
      ih c1 n1 (by rw [e1, e2]; exact hmm) (by rw [e3]; exact hf) l1 l2
    refine ⟨n2, c2, ?_, by rw [f1, e1], by rw [f2, e2], by rw [f3, e3], m1, m2⟩
    simp only [simulateBandwidthCalls, hcall, hrest]

/-- C7: for a `NetworkSimulator` initialised by its constructor or by
`setParameters` with `min_bw <= max_bw` and `fluct > 0`, for every sequence of
times and every sequence of draws, each call `simulateBandwidth(t)` succeeds
and afterwards `min_bandwidth <= current_bandwidth <= max_bandwidth`, the
bounds being the configured ones, and the returned value is
`current_bandwidth`. -/
theorem simulateBandwidth_within_bounds (min_bw max_bw fluct : Int)
    (hmm : min_bw ≤ max_bw) (hf : 0 < fluct)
    (rand : Nat → Nat) (rand_calls : Nat) (previous : NetworkSimulator)
    (ts : List Int) (t : Int) (net : NetworkSimulator)
    (hinit : net = NetworkSimulator.new min_bw max_bw fluct ∨
      net = previous.setParameters min_bw max_bw fluct) :
    ∃ net1 calls1 v net2 calls2,
      simulateBandwidthCalls rand rand_calls net ts = some (net1, calls1) ∧
      net1.simulateBandwidth rand calls1 t = some (v, net2, calls2) ∧
      net2.min_bandwidth = min_bw ∧ net2.max_bandwidth = max_bw ∧
      net2.min_bandwidth ≤ net2.current_bandwidth ∧
      net2.current_bandwidth ≤ net2.max_bandwidth ∧
      v = net2.current_bandwidth := by
  have hnet : net = NetworkSimulator.new min_bw max_bw fluct := by
    rcases hinit with h | h
    · exact h
    · exact h
  subst hnet
  obtain ⟨n1, c1, hseq, e1, e2, e3, l1, l2⟩ :=
    simulateBandwidthCalls_keeps_bounds rand ts rand_calls
      (NetworkSimulator.new min_bw max_bw fluct) hmm hf (le_refl _) hmm
  obtain ⟨v, n2, c2, hcall, g1, g2, _, m1, m2, hv⟩ :=
    simulateBandwidth_keeps_bounds rand c1 n1 t (by rw [e1, e2]; exact hmm)
      (by rw [e3]; exact hf) l1 l2
  exact ⟨n1, c1, v, n2, c2, hseq, hcall, by rw [g1, e1]; rfl, by rw [g2, e2]; rfl, m1, m2, hv⟩

/-- Witness for C7: the Mobile LTE bounds 500, 3000, 400, calls at times
0, 100, 1000 and then 2000. -/
theorem simulateBandwidth_within_bounds_witness :
    (500 : Int) ≤ 3000 ∧ (0 : Int) < 400 ∧
    ∃ net1 calls1 v net2 calls2,
      simulateBandwidthCalls (fun n => 7 * n + 650) 0
        (NetworkSimulator.new 500 3000 400) [0, 100, 1000] = some (net1, calls1) ∧
      net1.simulateBandwidth (fun n => 7 * n + 650) calls1 2000 = some (v, net2, calls2) ∧
      net2.min_bandwidth = 500 ∧ net2.max_bandwidth = 3000 ∧
      net2.min_bandwidth ≤ net2.current_bandwidth ∧
      net2.current_bandwidth ≤ net2.max_bandwidth ∧
      v = net2.current_bandwidth :=
  ⟨by decide, by decide,
    simulateBandwidth_within_bounds 500 3000 400 (by decide) (by decide)
      (fun n => 7 * n + 650) 0 (NetworkSimulator.new 0 0 0) [0, 100, 1000] 2000
      (NetworkSimulator.new 500 3000 400) (Or.inl rfl)⟩


/-! ## The simulation loop -/

/-- Sampling the bandwidth changes only the network and the draw counter, and
the sampled value is the network's current bandwidth. -/
theorem sampleStep_engine (rand : Nat → Nat) (s s0 : PlaybackState) (bandwidth : Int)
    (h : sampleStep rand s = some (bandwidth, s0)) :
    s0.engine.buffer = s.engine.buffer ∧
    s0.engine.streaming_history = s.engine.streaming_history ∧
    s0.engine.buffer_capacity_ms = s.engine.buffer_capacity_ms ∧
    s0.engine.current_buffer_level = s.engine.current_buffer_level ∧
    s0.engine.total_time_played = s.engine.total_time_played ∧
    s0.engine.rebuffer_count = s.engine.rebuffer_count ∧
    s0.engine.rebuffer_time_ms = s.engine.rebuffer_time_ms ∧
    s0.engine.abr_algorithm = s.engine.abr_algorithm ∧
    s0.current_time = s.current_time ∧
    s0.next_chunk_to_request = s.next_chunk_to_request ∧
    s0.next_chunk_to_play = s.next_chunk_to_play ∧
    bandwidth = s0.engine.network.current_bandwidth := by
  unfold sampleStep at h
  cases hs : s.engine.network.simulateBandwidth rand s.rand_calls s.current_time with
  | none => simp [hs] at h
  | some r =>
    obtain ⟨v, net, calls⟩ := r
    simp only [hs, Option.some.injEq, Prod.mk.injEq] at h
    obtain ⟨hv, hs0⟩ := h
    subst hs0
    refine ⟨rfl, rfl, rfl, rfl, rfl, rfl, rfl, rfl, rfl, rfl, rfl, ?_⟩
    subst hv
    unfold NetworkSimulator.simulateBandwidth at hs
    split_ifs at hs <;> simp at hs <;> obtain ⟨h1, h2, _⟩ := hs <;> subst h2 <;> simp [h1]

/-- The fields of a chunk `downloadChunk` returns. -/
theorem downloadChunk_some (e : VideoStreamingEngine) (chunk_id current_time bitrate : Int)
    (chunk : VideoChunk) (h : e.downloadChunk chunk_id current_time bitrate = some chunk) :
    e.network.current_bandwidth.tdiv 1000 ≠ 0 ∧
    chunk.chunk_id = chunk_id ∧ chunk.bitrate = bitrate ∧
    chunk.size_kb = VideoStreamingEngine.calculateChunkSize bitrate 2000 ∧
    chunk.duration_ms = 2000 ∧ chunk.requested_time = current_time ∧
    chunk.received_time = current_time +
      (VideoStreamingEngine.calculateChunkSize bitrate 2000 * 8).tdiv
        (e.network.current_bandwidth.tdiv 1000) := by
  simp only [VideoStreamingEngine.downloadChunk, NetworkSimulator.getBandwidth] at h
  split_ifs at h with hz
  simp only [Option.some.injEq] at h
  subst h
  exact ⟨hz, rfl, rfl, rfl, rfl, rfl, rfl⟩

/-- The outcomes of the request block: either nothing changes, or one chunk
of 2000 ms produced by `downloadChunk` is admitted. -/
theorem requestStep_cases (chunks_needed bandwidth : Int) (s0 s1 : PlaybackState)
    (h : requestStep chunks_needed bandwidth s0 = some s1) :
    s1 = s0 ∨
    ∃ chunk,
      s0.next_chunk_to_request ≤ chunks_needed ∧
      s0.engine.current_buffer_level < s0.engine.buffer_capacity_ms ∧
      s0.engine.downloadChunk s0.next_chunk_to_request s0.current_time
        (s0.engine.abr_algorithm.selectBitrate s0.engine.current_buffer_level
          bandwidth 480 2160) = some chunk ∧
      chunk.received_time ≤ s0.current_time + 100 ∧
      chunk.duration_ms = 2000 ∧
      s1 = { s0 with
        engine := { s0.engine with
          buffer := s0.engine.buffer ++ [chunk]
          current_buffer_level := s0.engine.current_buffer_level + chunk.duration_ms
          streaming_history := s0.engine.streaming_history ++ [chunk] }
        next_chunk_to_request := s0.next_chunk_to_request + 1 } := by
  unfold requestStep at h
  split_ifs at h with hc
  · cases hd : s0.engine.downloadChunk s0.next_chunk_to_request s0.current_time
        (s0.engine.abr_algorithm.selectBitrate s0.engine.current_buffer_level
          bandwidth 480 2160) with
    | none => simp [hd] at h
    | some chunk =>
      simp only [hd] at h
      split_ifs at h with hr
      · right
        refine ⟨chunk, hc.1, hc.2, rfl, hr, ?_, (Option.some.inj h).symm⟩
        exact (downloadChunk_some _ _ _ _ _ hd).2.2.2.2.1
      · left; exact (Option.some.inj h).symm
  · left; exact (Option.some.inj h).symm


/-- A freshly constructed engine is accounted. -/
theorem accounted_new (buffer_cap : Int) (net : NetworkSimulator)
    (algo : AdaptiveBitrateAlgorithm) :
    Accounted (VideoStreamingEngine.new buffer_cap net algo) := by
  simp [Accounted, VideoStreamingEngine.new]

/-- Sampling the bandwidth keeps the engine accounted. -/
theorem accounted_sampleStep (rand : Nat → Nat) (s s0 : PlaybackState) (bandwidth : Int)
    (h : sampleStep rand s = some (bandwidth, s0)) (ha : Accounted s.engine) :
    Accounted s0.engine := by
  obtain ⟨e1, e2, _, e4, e5, e6, e7, _⟩ := sampleStep_engine rand s s0 bandwidth h
  unfold Accounted at *
  rw [e1, e2, e4, e5, e6, e7]
  exact ha

/-- The request block keeps the engine accounted. -/
theorem accounted_requestStep (chunks_needed bandwidth : Int) (s0 s1 : PlaybackState)
    (h : requestStep chunks_needed bandwidth s0 = some s1) (ha : Accounted s0.engine) :
    Accounted s1.engine := by
  rcases requestStep_cases chunks_needed bandwidth s0 s1 h with h1 | ⟨chunk, _, _, _, _, hd, h1⟩
  · rw [h1]; exact ha
  · subst h1
    obtain ⟨a1, a2, a3, a4, a5⟩ := ha
    refine ⟨?_, ?_, ?_, ?_, a5⟩
    · simp only [List.length_append, List.length_singleton, Nat.cast_add, Nat.cast_one]
      omega
    · simp only [List.length_append, List.length_singleton, Nat.cast_add, Nat.cast_one]
      omega
    · intro c hc
      rcases List.mem_append.mp hc with hc | hc
      · exact a3 c hc
      · rw [List.mem_singleton.mp hc]; exact hd
    · intro c hc
      rcases List.mem_append.mp hc with hc | hc
      · exact a4 c hc
      · rw [List.mem_singleton.mp hc]; exact hd

/-- The playback block keeps the engine accounted. -/
theorem accounted_playStep (s : PlaybackState) (ha : Accounted s.engine) :
    Accounted (playStep s).engine := by
  unfold playStep
  cases hb : s.engine.buffer with
  | nil => exact ha
  | cons played rest =>
    simp only
    split_ifs
    · obtain ⟨a1, a2, a3, a4, a5⟩ := ha
      have hp : played.duration_ms = 2000 := a4 played (by rw [hb]; exact List.mem_cons_self _ _)
      rw [hb] at a1
      simp only [List.length_cons, Nat.cast_add, Nat.cast_one] at a1
      refine ⟨?_, ?_, a3, ?_, a5⟩
      · show s.engine.current_buffer_level - played.duration_ms = 2000 * (rest.length : Int)
        omega
      · show s.engine.total_time_played + played.duration_ms +
          (s.engine.current_buffer_level - played.duration_ms) =
            2000 * (s.engine.streaming_history.length : Int)
        omega
      · intro c hc
        exact a4 c (by rw [hb]; exact List.mem_cons_of_mem _ hc)
    · exact ha

/-- Rebuffer detection keeps the engine accounted. -/
theorem accounted_rebufferStep (chunks_needed : Int) (s : PlaybackState)
    (ha : Accounted s.engine) : Accounted (rebufferStep chunks_needed s).engine := by
  unfold rebufferStep
  split_ifs
  · obtain ⟨a1, a2, a3, a4, a5⟩ := ha
    refine ⟨a1, a2, a3, a4, ?_⟩
    show s.engine.rebuffer_time_ms + 500 = 500 * (s.engine.rebuffer_count + 1)
    omega
  · exact ha

/-- The pieces of a successful iteration. -/
theorem simulationStep_some (rand : Nat → Nat) (chunks_needed : Int) (s s1 : PlaybackState)
    (h : simulationStep rand chunks_needed s = some s1) :
    ∃ bandwidth s0 sr, sampleStep rand s = some (bandwidth, s0) ∧
      requestStep chunks_needed bandwidth s0 = some sr ∧
      s1 = { rebufferStep chunks_needed (playStep sr) with
        current_time := (rebufferStep chunks_needed (playStep sr)).current_time + 100 } := by
  unfold simulationStep at h
  cases hs : sampleStep rand s with
  | none => simp [hs] at h
  | some r =>
    obtain ⟨bw, s0⟩ := r
    simp only [hs] at h
    cases hr : requestStep chunks_needed bw s0 with
    | none => simp [hr] at h
    | some sr =>
      simp only [hr, Option.some.injEq] at h
      exact ⟨bw, s0, sr, rfl, hr, h.symm⟩

/-- One iteration keeps the engine accounted. -/
theorem accounted_simulationStep (rand : Nat → Nat) (chunks_needed : Int)
    (s s1 : PlaybackState) (h : simulationStep rand chunks_needed s = some s1)
    (ha : Accounted s.engine) : Accounted s1.engine := by
  obtain ⟨bw, s0, sr, hs, hr, rfl⟩ := simulationStep_some rand chunks_needed s s1 h
  exact accounted_rebufferStep _ _ (accounted_playStep _
    (accounted_requestStep _ _ _ _ hr (accounted_sampleStep _ _ _ _ hs ha)))

/-- A property of the state that every iteration preserves holds after any
number of iterations. -/
theorem simulateSteps_preserves (rand : Nat → Nat) (duration chunks_needed : Int)
    (P : PlaybackState → Prop)
    (hstep : ∀ s s1, P s → simulationStep rand chunks_needed s = some s1 → P s1) :
    ∀ (k : Nat) (s s1 : PlaybackState), P s →
      simulateSteps rand duration chunks_needed k s = some s1 → P s1 := by
  intro k
  induction k with
  | zero =>
    intro s s1 hp h
    simp only [simulateSteps, Option.some.injEq] at h
    rw [← h]; exact hp
  | succ k ih =>
    intro s s1 hp h
    simp only [simulateSteps] at h
    split_ifs at h with hlt
    · cases hs : simulationStep rand chunks_needed s with
      | none => simp [hs] at h
      | some s2 =>
        simp only [hs] at h
        exact ih s2 s1 (hstep s s2 hp hs) h
    · simp only [Option.some.injEq] at h
      rw [← h]; exact hp

/-- Any number of iterations keeps the engine accounted. -/
theorem accounted_simulateSteps (rand : Nat → Nat) (duration chunks_needed : Int)
    (k : Nat) (s s1 : PlaybackState) (ha : Accounted s.engine)
    (h : simulateSteps rand duration chunks_needed k s = some s1) : Accounted s1.engine :=
  simulateSteps_preserves rand duration chunks_needed (fun t => Accounted t.engine)
    (fun a b hp hs => accounted_simulationStep rand chunks_needed a b hs hp) k s s1 ha h


/-- Chunks of 2000 ms each add up to 2000 ms per chunk. -/
theorem sum_duration_ms (l : List VideoChunk) (h : ∀ c ∈ l, c.duration_ms = 2000) :
    (l.map (fun c => c.duration_ms)).sum = 2000 * (l.length : Int) := by
  induction l with
  | nil => simp
  | cons c l ih =>
    have hc : c.duration_ms = 2000 := h c (List.mem_cons_self _ _)
    have hl := ih (fun d hd => h d (List.mem_cons_of_mem _ hd))
    simp only [List.map_cons, List.sum_cons, List.length_cons, Nat.cast_add, Nat.cast_one]
    omega

/-- An accounted engine has played at most what it admitted. -/
theorem playedWithinAdmitted_of_accounted (e : VideoStreamingEngine) (ha : Accounted e) :
    PlayedWithinAdmitted e := by
  obtain ⟨a1, a2, a3, _, _⟩ := ha
  have hsum := sum_duration_ms e.streaming_history a3
  have hlen : (0 : Int) ≤ (e.buffer.length : Int) := Int.ofNat_nonneg _
  refine ⟨by omega, ?_, a2⟩
  rw [hsum]
  constructor
  · intro heq
    have h0 : (e.buffer.length : Int) = 0 := by omega
    exact List.length_eq_zero.mp (by exact_mod_cast h0)
  · intro hb
    rw [hb] at a1
    simp only [List.length_nil, Nat.cast_zero] at a1
    omega

/-- C9: at every point of every run of `simulatePlayback` on a fresh engine
(after any number of iterations, and inside the next iteration after the
request block, after the playback block and after rebuffer detection),
`total_time_played` is at most the sum of `duration_ms` over
`streaming_history`, with equality exactly when the buffer is empty, and
`total_time_played + current_buffer_level = 2000 * streaming_history.size()`. -/
theorem played_time_within_admitted (rand : Nat → Nat) (rand_calls : Nat)
    (buffer_cap : Int) (net : NetworkSimulator) (algo : AdaptiveBitrateAlgorithm)
    (duration chunks_needed : Int) (k : Nat) (s : PlaybackState)
    (hrun : simulateSteps rand duration chunks_needed k
      (enterPlayback (VideoStreamingEngine.new buffer_cap net algo) rand_calls) = some s) :
    PlayedWithinAdmitted s.engine ∧
    ∀ bandwidth s0 sr, sampleStep rand s = some (bandwidth, s0) →
      requestStep chunks_needed bandwidth s0 = some sr →
      PlayedWithinAdmitted sr.engine ∧ PlayedWithinAdmitted (playStep sr).engine ∧
      PlayedWithinAdmitted (rebufferStep chunks_needed (playStep sr)).engine := by
  have ha : Accounted s.engine :=
    accounted_simulateSteps rand duration chunks_needed k _ s (accounted_new _ _ _) hrun
  refine ⟨playedWithinAdmitted_of_accounted _ ha, ?_⟩
  intro bw s0 sr hs hr
  have hr1 := accounted_requestStep _ _ _ _ hr (accounted_sampleStep _ _ _ _ hs ha)
  exact ⟨playedWithinAdmitted_of_accounted _ hr1,
    playedWithinAdmitted_of_accounted _ (accounted_playStep _ hr1),
    playedWithinAdmitted_of_accounted _ (accounted_rebufferStep _ _ (accounted_playStep _ hr1))⟩

/-- Witness for C9: three iterations of a Buffer-Based run at 10000 kbps admit
three chunks and play one. -/
theorem played_time_within_admitted_witness :
    ∃ s, simulateSteps (fun _ => 0) 300 3 3
      (enterPlayback (VideoStreamingEngine.new 30000 (NetworkSimulator.new 10000 10000 1)
        AdaptiveBitrateAlgorithm.bufferBasedAdaptation) 0) = some s ∧
      s.engine.streaming_history.length = 3 ∧ s.engine.buffer.length = 2 ∧
      s.engine.total_time_played = 2000 ∧
      PlayedWithinAdmitted s.engine :=
  ⟨_, rfl, rfl, rfl, rfl,
    (played_time_within_admitted (fun _ => 0) 0 30000 (NetworkSimulator.new 10000 10000 1)
      AdaptiveBitrateAlgorithm.bufferBasedAdaptation 300 3 3 _ rfl).1⟩


/-- What the request block leaves untouched. -/
theorem requestStep_frame (chunks_needed bandwidth : Int) (s0 sr : PlaybackState)
    (h : requestStep chunks_needed bandwidth s0 = some sr) :
    sr.engine.rebuffer_count = s0.engine.rebuffer_count ∧
    sr.engine.rebuffer_time_ms = s0.engine.rebuffer_time_ms ∧
    sr.engine.buffer_capacity_ms = s0.engine.buffer_capacity_ms ∧
    sr.engine.abr_algorithm = s0.engine.abr_algorithm ∧
    sr.engine.network = s0.engine.network ∧
    sr.engine.total_time_played = s0.engine.total_time_played ∧
    sr.current_time = s0.current_time ∧
    sr.rand_calls = s0.rand_calls ∧
    s0.next_chunk_to_request ≤ sr.next_chunk_to_request := by
  rcases requestStep_cases chunks_needed bandwidth s0 sr h with h1 | ⟨chunk, _, _, _, _, _, h1⟩
  · subst h1
    exact ⟨rfl, rfl, rfl, rfl, rfl, rfl, rfl, rfl, le_refl _⟩
  · subst h1
    exact ⟨rfl, rfl, rfl, rfl, rfl, rfl, rfl, rfl, by simp⟩

/-- What the playback block leaves untouched. -/
theorem playStep_frame (s : PlaybackState) :
    (playStep s).engine.rebuffer_count = s.engine.rebuffer_count ∧
    (playStep s).engine.rebuffer_time_ms = s.engine.rebuffer_time_ms ∧
    (playStep s).engine.buffer_capacity_ms = s.engine.buffer_capacity_ms ∧
    (playStep s).engine.abr_algorithm = s.engine.abr_algorithm ∧
    (playStep s).engine.network = s.engine.network ∧
    (playStep s).engine.streaming_history = s.engine.streaming_history ∧
    (playStep s).current_time = s.current_time ∧
    (playStep s).rand_calls = s.rand_calls ∧
    (playStep s).next_chunk_to_request = s.next_chunk_to_request := by
  unfold playStep
  cases s.engine.buffer with
  | nil => exact ⟨rfl, rfl, rfl, rfl, rfl, rfl, rfl, rfl, rfl⟩
  | cons played rest =>
    simp only
    split_ifs <;> exact ⟨rfl, rfl, rfl, rfl, rfl, rfl, rfl, rfl, rfl⟩

/-- What rebuffer detection leaves untouched. -/
theorem rebufferStep_frame (chunks_needed : Int) (s : PlaybackState) :
    (rebufferStep chunks_needed s).engine.buffer = s.engine.buffer ∧
    (rebufferStep chunks_needed s).engine.streaming_history = s.engine.streaming_history ∧
    (rebufferStep chunks_needed s).engine.current_buffer_level =
      s.engine.current_buffer_level ∧
    (rebufferStep chunks_needed s).engine.total_time_played = s.engine.total_time_played ∧
    (rebufferStep chunks_needed s).engine.buffer_capacity_ms = s.engine.buffer_capacity_ms ∧
    (rebufferStep chunks_needed s).engine.abr_algorithm = s.engine.abr_algorithm ∧
    (rebufferStep chunks_needed s).engine.network = s.engine.network ∧
    (rebufferStep chunks_needed s).current_time = s.current_time ∧
    (rebufferStep chunks_needed s).rand_calls = s.rand_calls ∧
    (rebufferStep chunks_needed s).next_chunk_to_request = s.next_chunk_to_request ∧
    (rebufferStep chunks_needed s).next_chunk_to_play = s.next_chunk_to_play := by
  unfold rebufferStep
  split_ifs <;> exact ⟨rfl, rfl, rfl, rfl, rfl, rfl, rfl, rfl, rfl, rfl, rfl⟩

/-- What rebuffer detection does to the two rebuffer counters. -/
theorem rebufferStep_counters (chunks_needed : Int) (s : PlaybackState) :
    ((s.engine.buffer = [] ∧ s.next_chunk_to_request ≤ chunks_needed) →
      (rebufferStep chunks_needed s).engine.rebuffer_count = s.engine.rebuffer_count + 1 ∧
      (rebufferStep chunks_needed s).engine.rebuffer_time_ms =
        s.engine.rebuffer_time_ms + 500) ∧
    (¬ (s.engine.buffer = [] ∧ s.next_chunk_to_request ≤ chunks_needed) →
      (rebufferStep chunks_needed s).engine.rebuffer_count = s.engine.rebuffer_count ∧
      (rebufferStep chunks_needed s).engine.rebuffer_time_ms = s.engine.rebuffer_time_ms) := by
  unfold rebufferStep
  constructor
  · intro h
    rw [if_pos h]
    exact ⟨rfl, rfl⟩
  · intro h
    rw [if_neg h]
    exact ⟨rfl, rfl⟩

/-- Sampling keeps the parameters of the network. -/
theorem sampleStep_network (rand : Nat → Nat) (s s0 : PlaybackState) (bandwidth : Int)
    (h : sampleStep rand s = some (bandwidth, s0)) :
    s0.engine.network.min_bandwidth = s.engine.network.min_bandwidth ∧
    s0.engine.network.max_bandwidth = s.engine.network.max_bandwidth ∧
    s0.engine.network.fluctuation_rate = s.engine.network.fluctuation_rate := by
  unfold sampleStep at h
  cases hs : s.engine.network.simulateBandwidth rand s.rand_calls s.current_time with
  | none => simp [hs] at h
  | some r =>
    obtain ⟨v, net, calls⟩ := r
    simp only [hs, Option.some.injEq, Prod.mk.injEq] at h
    obtain ⟨_, hs0⟩ := h
    subst hs0
    unfold NetworkSimulator.simulateBandwidth at hs
    split_ifs at hs <;> simp at hs <;> obtain ⟨_, h2, _⟩ := hs <;> subst h2 <;>
      exact ⟨rfl, rfl, rfl⟩

/-- What one iteration leaves untouched, and how it moves the clock. -/
theorem simulationStep_frame (rand : Nat → Nat) (chunks_needed : Int)
    (s s1 : PlaybackState) (h : simulationStep rand chunks_needed s = some s1) :
    s1.engine.buffer_capacity_ms = s.engine.buffer_capacity_ms ∧
    s1.engine.abr_algorithm = s.engine.abr_algorithm ∧
    s1.engine.network.min_bandwidth = s.engine.network.min_bandwidth ∧
    s1.engine.network.max_bandwidth = s.engine.network.max_bandwidth ∧
    s1.engine.network.fluctuation_rate = s.engine.network.fluctuation_rate ∧
    s1.current_time = s.current_time + 100 := by
  obtain ⟨bw, s0, sr, hs, hr, rfl⟩ := simulationStep_some rand chunks_needed s s1 h
  obtain ⟨_, _, e3, _, _, _, _, e8, e9, _, _, _⟩ := sampleStep_engine rand s s0 bw hs
  obtain ⟨n1, n2, n3⟩ := sampleStep_network rand s s0 bw hs
  obtain ⟨_, _, r3, r4, r5, _, r7, _, _⟩ := requestStep_frame chunks_needed bw s0 sr hr
  obtain ⟨_, _, p3, p4, p5, _, p7, _, _⟩ := playStep_frame sr
  obtain ⟨_, _, _, _, b5, b6, b7, b8, _, _, _⟩ := rebufferStep_frame chunks_needed (playStep sr)
  refine ⟨?_, ?_, ?_, ?_, ?_, ?_⟩
  · show (rebufferStep chunks_needed (playStep sr)).engine.buffer_capacity_ms = _
    rw [b5, p3, r3, e3]
  · show (rebufferStep chunks_needed (playStep sr)).engine.abr_algorithm = _
    rw [b6, p4, r4, e8]
  · show (rebufferStep chunks_needed (playStep sr)).engine.network.min_bandwidth = _
    rw [b7, p5, r5, n1]
  · show (rebufferStep chunks_needed (playStep sr)).engine.network.max_bandwidth = _
    rw [b7, p5, r5, n2]
  · show (rebufferStep chunks_needed (playStep sr)).engine.network.fluctuation_rate = _
    rw [b7, p5, r5, n3]
  · show (rebufferStep chunks_needed (playStep sr)).current_time + 100 = _
    rw [b8, p7, r7, e9]

/-- The capacity and the policy of the engine never change during a run. -/
theorem simulateSteps_frame (rand : Nat → Nat) (duration chunks_needed : Int)
    (k : Nat) (s s1 : PlaybackState)
    (h : simulateSteps rand duration chunks_needed k s = some s1) :
    s1.engine.buffer_capacity_ms = s.engine.buffer_capacity_ms ∧
    s1.engine.abr_algorithm = s.engine.abr_algorithm :=
  simulateSteps_preserves rand duration chunks_needed
    (fun t => t.engine.buffer_capacity_ms = s.engine.buffer_capacity_ms ∧
      t.engine.abr_algorithm = s.engine.abr_algorithm)
    (fun a b hp hs => by
      obtain ⟨f1, f2, _⟩ := simulationStep_frame rand chunks_needed a b hs
      exact ⟨by rw [f1]; exact hp.1, by rw [f2]; exact hp.2⟩)
    k s s1 ⟨rfl, rfl⟩ h

/-- C4 (amended): in every run of `simulatePlayback` on a fresh engine, for
every capacity, chunk count, policy and bandwidth trajectory, an admission
happens only at a buffer level below `buffer_capacity_ms` and raises the level
by 2000, so right after it `current_buffer_level < buffer_capacity_ms + 2000`;
when the capacity is a multiple of 2000 the level after the admission is at
most the capacity. -/
theorem admission_level_bound (rand : Nat → Nat) (rand_calls : Nat)
    (buffer_cap : Int) (net : NetworkSimulator) (algo : AdaptiveBitrateAlgorithm)
    (duration chunks_needed : Int) (k : Nat) (s s0 sr : PlaybackState) (bandwidth : Int)
    (hrun : simulateSteps rand duration chunks_needed k
      (enterPlayback (VideoStreamingEngine.new buffer_cap net algo) rand_calls) = some s)
    (hsample : sampleStep rand s = some (bandwidth, s0))
    (hrequest : requestStep chunks_needed bandwidth s0 = some sr)
    (hnext : sr.next_chunk_to_request = s0.next_chunk_to_request + 1) :
    sr.engine.buffer_capacity_ms = buffer_cap ∧
    sr.engine.current_buffer_level = s0.engine.current_buffer_level + 2000 ∧
    s0.engine.current_buffer_level < buffer_cap ∧
    sr.engine.current_buffer_level < buffer_cap + 2000 ∧
    ((2000 : Int) ∣ buffer_cap → sr.engine.current_buffer_level ≤ buffer_cap) := by
  have ha : Accounted s.engine :=
    accounted_simulateSteps rand duration chunks_needed k _ s (accounted_new _ _ _) hrun
  have hcap : s.engine.buffer_capacity_ms = buffer_cap :=
    (simulateSteps_frame rand duration chunks_needed k _ s hrun).1
  obtain ⟨_, _, e3, e4, _⟩ := sampleStep_engine rand s s0 bandwidth hsample
  have ha0 := accounted_sampleStep rand s s0 bandwidth hsample ha
  rcases requestStep_cases chunks_needed bandwidth s0 sr hrequest with
    h1 | ⟨chunk, _, hlt, _, _, hd, h1⟩
  · rw [h1] at hnext
    omega
  · subst h1
    have hlvl : s0.engine.current_buffer_level + chunk.duration_ms =
        s0.engine.current_buffer_level + 2000 := by rw [hd]
    have hlt2 : s0.engine.current_buffer_level < buffer_cap := by
      rw [← hcap, ← e3]; exact hlt
    refine ⟨by rw [← hcap, ← e3], hlvl, hlt2, ?_, ?_⟩
    · show s0.engine.current_buffer_level + chunk.duration_ms < buffer_cap + 2000
      omega
    · intro hdvd
      show s0.engine.current_buffer_level + chunk.duration_ms ≤ buffer_cap
      obtain ⟨m, hm⟩ := hdvd
      have hb := ha0.1
      omega

/-- Witness for C4 (amended): the third iteration of a Buffer-Based run at
10000 kbps with capacity 30000 admits a chunk at level 2000. -/
theorem admission_level_bound_witness :
    ∃ s s0 sr, simulateSteps (fun _ => 0) 300 3 2
      (enterPlayback (VideoStreamingEngine.new 30000 (NetworkSimulator.new 10000 10000 1)
        AdaptiveBitrateAlgorithm.bufferBasedAdaptation) 0) = some s ∧
      sampleStep (fun _ => 0) s = some (10000, s0) ∧
      requestStep 3 10000 s0 = some sr ∧
      sr.next_chunk_to_request = s0.next_chunk_to_request + 1 ∧
      sr.engine.current_buffer_level = 4000 ∧
      sr.engine.current_buffer_level < 30000 + 2000 :=
  ⟨_, _, _, rfl, rfl, rfl, rfl, rfl,
    (admission_level_bound (fun _ => 0) 0 30000 (NetworkSimulator.new 10000 10000 1)
      AdaptiveBitrateAlgorithm.bufferBasedAdaptation 300 3 2 _ _ _ 10000 rfl rfl rfl rfl).2.2.2.1⟩

/-- Counterexample to C4 as stated: with capacity 1000 ms the first iteration
of a Buffer-Based run at 10000 kbps admits a chunk at level 0 < 1000 and the
level right after the admission is 2000 > 1000. -/
theorem admission_exceeds_capacity :
    ∃ s0 sr, sampleStep (fun _ => 0)
      (enterPlayback (VideoStreamingEngine.new 1000 (NetworkSimulator.new 10000 10000 1)
        AdaptiveBitrateAlgorithm.bufferBasedAdaptation) 0) = some (10000, s0) ∧
      requestStep 1 10000 s0 = some sr ∧
      sr.next_chunk_to_request = s0.next_chunk_to_request + 1 ∧
      sr.engine.streaming_history.length = 1 ∧
      sr.engine.buffer_capacity_ms = 1000 ∧
      sr.engine.current_buffer_level = 2000 ∧
      ¬ sr.engine.current_buffer_level ≤ sr.engine.buffer_capacity_ms :=
  ⟨_, _, rfl, rfl, rfl, rfl, rfl, rfl, by decide⟩

/-! ## Scenario A: constant 5000 kbps under Always-Best-Fit -/

/-- Sampling in a stalled state returns 5000 and changes only the draw counter. -/
theorem stalledState_sample (rand : Nat → Nat) (fluct : Int) (hf : fluct ≠ 0)
    (j c : Nat) :
    ∃ c1, sampleStep rand (stalledState fluct j c) = some (5000, stalledState fluct j c1) := by
  unfold sampleStep NetworkSimulator.simulateBandwidth
  by_cases ht : (stalledState fluct j c).current_time.tmod 1000 = 0
  · have hne : ¬ fluct * 2 = 0 := by omega
    refine ⟨c + 1, ?_⟩
    simp only [ht, if_true]
    simp [stalledState, hne]
  · refine ⟨c, ?_⟩
    simp only [ht, if_false]
    rfl

/-- At 5000 kbps Always-Best-Fit selects 2160 whatever the buffer level. -/
theorem alwaysBestFit_at_5000 (buffer_level : Int) :
    AdaptiveBitrateAlgorithm.alwaysBestFit.selectBitrate buffer_level 5000 480 2160 = 2160 := by
  simp [AdaptiveBitrateAlgorithm.selectBitrate, AlwaysBestFit.selectBitrate, scanDown, bitrates]

/-- At 5000 kbps a chunk of bitrate 2160 has 540 KB and takes 864 ms. -/
theorem downloadChunk_2160_at_5000 (e : VideoStreamingEngine) (chunk_id current_time : Int)
    (hbw : e.network.current_bandwidth = 5000) :
    e.downloadChunk chunk_id current_time 2160 =
      some { chunk_id := chunk_id, bitrate := 2160, size_kb := 540, duration_ms := 2000,
             requested_time := current_time, received_time := current_time + 864,
             played_time := 0, is_downloaded := true } := by
  have h1 : Int.tdiv 5000 1000 = 5 := by decide
  have h2 : Int.tdiv (2160 * 2000) 8000 = 540 := by decide
  have h3 : Int.tdiv (540 * 8) 5 = 864 := by decide
  simp only [VideoStreamingEngine.downloadChunk, NetworkSimulator.getBandwidth,
    VideoStreamingEngine.calculateChunkSize, hbw, h1, h2, h3]
  simp

/-- In a stalled state the request block asks for a 2160 chunk, which arrives
too late, and changes nothing. -/
theorem stalledState_request (fluct : Int) (j c : Nat) :
    requestStep 5 5000 (stalledState fluct j c) = some (stalledState fluct j c) := by
  have hd := downloadChunk_2160_at_5000 (stalledState fluct j c).engine 1
    (stalledState fluct j c).current_time rfl
  have hsel := alwaysBestFit_at_5000 (stalledState fluct j c).engine.current_buffer_level
  have hcond : (stalledState fluct j c).next_chunk_to_request ≤ 5 ∧
      (stalledState fluct j c).engine.current_buffer_level <
        (stalledState fluct j c).engine.buffer_capacity_ms := by
    simp [stalledState]
  have habr : (stalledState fluct j c).engine.abr_algorithm =
      AdaptiveBitrateAlgorithm.alwaysBestFit := rfl
  have hnext : (stalledState fluct j c).next_chunk_to_request = 1 := rfl
  unfold requestStep
  rw [if_pos hcond, habr, hsel, hnext]
  simp only [hd]
  simp

/-- One iteration from a stalled state records a rebuffer and stays stalled. -/
theorem stalledState_step (rand : Nat → Nat) (fluct : Int) (hf : fluct ≠ 0) (j c : Nat) :
    ∃ c1, simulationStep rand 5 (stalledState fluct j c) =
      some (stalledState fluct (j + 1) c1) := by
  obtain ⟨c1, hs⟩ := stalledState_sample rand fluct hf j c
  refine ⟨c1, ?_⟩
  unfold simulationStep
  rw [hs]
  simp only [stalledState_request]
  simp only [playStep, rebufferStep, stalledState, Option.some.injEq]
  simp
  constructor <;> ring

/-- Iterations of the run at 5000 kbps keep it stalled up to the end. -/
theorem stalledState_steps (rand : Nat → Nat) (fluct : Int) (hf : fluct ≠ 0) :
    ∀ (k j c : Nat), j + k ≤ 600 →
      ∃ c1, simulateSteps rand 60000 5 k (stalledState fluct j c) =
        some (stalledState fluct (j + k) c1) := by
  intro k
  induction k with
  | zero =>
    intro j c _
    exact ⟨c, rfl⟩
  | succ k ih =>
    intro j c hjk
    obtain ⟨c1, hstep⟩ := stalledState_step rand fluct hf j c
    obtain ⟨c2, hrest⟩ := ih (j + 1) c1 (by omega)
    refine ⟨c2, ?_⟩
    have hlt : (stalledState fluct j c).current_time < 60000 := by
      show 100 * (j : Int) < 60000
      omega
    rw [simulateSteps, if_pos hlt, hstep]
    simp only
    rw [hrest]
    congr 2
    omega

/-- The whole run of scenario A: 600 iterations, nothing admitted, a rebuffer
in every iteration. -/
theorem scenarioA_run (rand : Nat → Nat) (rand_calls : Nat) (fluct : Int) (hf : fluct ≠ 0) :
    ∃ c1, simulatePlayback rand rand_calls
      (VideoStreamingEngine.new 30000 (NetworkSimulator.new 5000 5000 fluct)
        AdaptiveBitrateAlgorithm.alwaysBestFit) 60000 5 = some (stalledState fluct 600 c1) := by
  obtain ⟨c1, h⟩ := stalledState_steps rand fluct hf 600 0 rand_calls (by decide)
  refine ⟨c1, ?_⟩
  have hfuel : stepBound 60000 = 600 := by decide
  have hinit : enterPlayback (VideoStreamingEngine.new 30000 (NetworkSimulator.new 5000 5000 fluct)
        AdaptiveBitrateAlgorithm.alwaysBestFit) rand_calls = stalledState fluct 0 rand_calls := by
    simp [enterPlayback, VideoStreamingEngine.new, NetworkSimulator.new, stalledState]
  rw [simulatePlayback, hfuel, hinit, h]


/-- C6 (amended): scenario A, with the bandwidth held at 5000 kbps (bounds
5000 and 5000, any non-zero fluctuation rate, any draws), Always-Best-Fit,
capacity 30000, 5 chunks and a 60000 ms run. The run completes its 600
iterations; in every iteration the sampled bandwidth is 5000, the policy
selects 2160 and `downloadChunk` computes an arrival 864 ms after the request,
beyond the 100 ms window, so the chunk is not admitted; the run ends with an
empty `streaming_history`, chunk 1 still to request, `rebuffer_count = 600`
and `rebuffer_time_ms = 300000`. -/
theorem scenarioA_selects_2160_but_stalls (rand : Nat → Nat) (rand_calls : Nat)
    (fluct : Int) (hf : fluct ≠ 0) :
    (∃ s, simulatePlayback rand rand_calls
        (VideoStreamingEngine.new 30000 (NetworkSimulator.new 5000 5000 fluct)
          AdaptiveBitrateAlgorithm.alwaysBestFit) 60000 5 = some s ∧
      ¬ s.current_time < 60000 ∧
      s.engine.network.current_bandwidth = 5000 ∧
      s.engine.streaming_history = [] ∧
      s.next_chunk_to_request = 1 ∧
      s.engine.rebuffer_count = 600 ∧
      s.engine.rebuffer_time_ms = 300000) ∧
    (∀ j c, ∃ c1,
      sampleStep rand (stalledState fluct j c) = some (5000, stalledState fluct j c1) ∧
      (stalledState fluct j c1).engine.abr_algorithm.selectBitrate
        (stalledState fluct j c1).engine.current_buffer_level 5000 480 2160 = 2160 ∧
      (∃ chunk, (stalledState fluct j c1).engine.downloadChunk 1
          (stalledState fluct j c1).current_time 2160 = some chunk ∧
        chunk.bitrate = 2160 ∧
        chunk.received_time = (stalledState fluct j c1).current_time + 864) ∧
      requestStep 5 5000 (stalledState fluct j c1) = some (stalledState fluct j c1)) ∧
    (∀ k, k ≤ 600 → ∃ c1, simulateSteps rand 60000 5 k
      (enterPlayback (VideoStreamingEngine.new 30000 (NetworkSimulator.new 5000 5000 fluct)
        AdaptiveBitrateAlgorithm.alwaysBestFit) rand_calls) = some (stalledState fluct k c1)) := by
  refine ⟨?_, ?_, ?_⟩
  · obtain ⟨c1, h⟩ := scenarioA_run rand rand_calls fluct hf
    refine ⟨_, h, ?_, rfl, rfl, rfl, ?_, ?_⟩
    · simp [stalledState]
    · simp [stalledState]
    · simp [stalledState]
  · intro j c
    obtain ⟨c1, hs⟩ := stalledState_sample rand fluct hf j c
    exact ⟨c1, hs, alwaysBestFit_at_5000 _,
      ⟨_, downloadChunk_2160_at_5000 _ _ _ rfl, rfl, rfl⟩, stalledState_request fluct j c1⟩
  · intro k hk
    have hinit : enterPlayback (VideoStreamingEngine.new 30000
        (NetworkSimulator.new 5000 5000 fluct) AdaptiveBitrateAlgorithm.alwaysBestFit)
        rand_calls = stalledState fluct 0 rand_calls := by
      simp [enterPlayback, VideoStreamingEngine.new, NetworkSimulator.new, stalledState]
    obtain ⟨c1, h⟩ := stalledState_steps rand fluct hf k 0 rand_calls (by omega)
    refine ⟨c1, ?_⟩
    rw [hinit, h, Nat.zero_add]

/-- Witness for C6 (amended): fluctuation rate 300 and draws 17, 18, 19, ... -/
theorem scenarioA_selects_2160_but_stalls_witness :
    (300 : Int) ≠ 0 ∧
    ∃ s, simulatePlayback (fun n => n + 17) 0
        (VideoStreamingEngine.new 30000 (NetworkSimulator.new 5000 5000 300)
          AdaptiveBitrateAlgorithm.alwaysBestFit) 60000 5 = some s ∧
      ¬ s.current_time < 60000 ∧
      s.engine.network.current_bandwidth = 5000 ∧
      s.engine.streaming_history = [] ∧
      s.next_chunk_to_request = 1 ∧
      s.engine.rebuffer_count = 600 ∧
      s.engine.rebuffer_time_ms = 300000 :=
  ⟨by decide, (scenarioA_selects_2160_but_stalls (fun n => n + 17) 0 300 (by decide)).1⟩

/-- Counterexample to C6 as stated: at a constant 5000 kbps (bounds 5000 and
5000, fluctuation rate 1, all draws 0) the Always-Best-Fit run with capacity
30000, 5 chunks and 60000 ms ends with `rebuffer_count = 600`, not 0, and
with nothing downloaded. -/
theorem scenarioA_rebuffers :
    ∃ s, simulatePlayback (fun _ => 0) 0
        (VideoStreamingEngine.new 30000 (NetworkSimulator.new 5000 5000 1)
          AdaptiveBitrateAlgorithm.alwaysBestFit) 60000 5 = some s ∧
      s.engine.streaming_history = [] ∧
      s.engine.rebuffer_count = 600 ∧
      ¬ s.engine.rebuffer_count = 0 := by
  obtain ⟨c1, h⟩ := scenarioA_run (fun _ => 0) 0 1 (by decide)
  refine ⟨_, h, rfl, ?_, ?_⟩ <;> simp [stalledState]

/-- With fluctuation rate 0, as scenario A is worded in the specification, the
first iteration takes `rand()` modulo zero. -/
theorem scenarioA_zero_fluctuation_faults (rand : Nat → Nat) (rand_calls : Nat) :
    simulatePlayback rand rand_calls
      (VideoStreamingEngine.new 30000 (NetworkSimulator.new 5000 5000 0)
        AdaptiveBitrateAlgorithm.alwaysBestFit) 60000 5 = none := by
  have hfuel : stepBound 60000 = 599 + 1 := by decide
  rw [simulatePlayback, hfuel, simulateSteps]
  simp [enterPlayback, simulationStep, sampleStep, NetworkSimulator.simulateBandwidth,
    VideoStreamingEngine.new, NetworkSimulator.new]

/-! ## Termination and scenario D -/

/-- The iteration bound covers the duration. -/
theorem stepBound_covers (duration : Int) : duration ≤ 100 * (stepBound duration : Int) := by
  unfold stepBound
  by_cases hd : 0 ≤ duration + 99
  · rw [Int.tdiv_eq_ediv hd (by decide)]
    rw [Int.toNat_of_nonneg (Int.ediv_nonneg hd (by decide))]
    omega
  · have hn : (0 : Int) ≤ (((duration + 99).tdiv 100).toNat : Int) := Int.ofNat_nonneg _
    omega

/-- A run that is given enough iterations leaves the loop through its
condition. -/
theorem simulateSteps_exits (rand : Nat → Nat) (duration chunks_needed : Int) :
    ∀ (k : Nat) (s s1 : PlaybackState),
      simulateSteps rand duration chunks_needed k s = some s1 →
      duration ≤ s.current_time + 100 * (k : Int) → ¬ s1.current_time < duration := by
  intro k
  induction k with
  | zero =>
    intro s s1 h hd
    simp only [simulateSteps, Option.some.injEq] at h
    subst h
    simp only [Nat.cast_zero] at hd
    omega
  | succ k ih =>
    intro s s1 h hd
    simp only [simulateSteps] at h
    split_ifs at h with hlt
    · cases hs : simulationStep rand chunks_needed s with
      | none => simp [hs] at h
      | some s2 =>
        simp only [hs] at h
        have ht := (simulationStep_frame rand chunks_needed s s2 hs).2.2.2.2.2
        apply ih s2 s1 h
        rw [ht]
        push_cast at hd
        omega
    · simp only [Option.some.injEq] at h
      subst h
      exact hlt

/-- Whenever `simulatePlayback` returns a state, its loop has been left
through the condition `current_time < simulation_duration_ms`. -/
theorem simulatePlayback_exits (rand : Nat → Nat) (rand_calls : Nat)
    (e : VideoStreamingEngine) (duration chunks_needed : Int) (s : PlaybackState)
    (h : simulatePlayback rand rand_calls e duration chunks_needed = some s) :
    ¬ s.current_time < duration := by
  refine simulateSteps_exits rand duration chunks_needed (stepBound duration) _ s h ?_
  have := stepBound_covers duration
  simpa [enterPlayback] using this

/-- Sampling succeeds when the fluctuation rate is not zero. -/
theorem sampleStep_succeeds (rand : Nat → Nat) (s : PlaybackState)
    (hf : s.engine.network.fluctuation_rate ≠ 0) :
    ∃ bandwidth s0, sampleStep rand s = some (bandwidth, s0) := by
  unfold sampleStep NetworkSimulator.simulateBandwidth
  have hne : ¬ s.engine.network.fluctuation_rate * 2 = 0 := by omega
  by_cases ht : s.current_time.tmod 1000 = 0
  · simp only [ht, hne, if_true, if_false]
    exact ⟨_, _, rfl⟩
  · simp only [ht, if_false]
    exact ⟨_, _, rfl⟩

/-- With no chunk to request, an iteration of a run that has admitted and
recorded nothing succeeds and admits and records nothing. -/
theorem idle_step (rand : Nat → Nat) (s : PlaybackState)
    (hf : s.engine.network.fluctuation_rate ≠ 0)
    (hb : s.engine.buffer = []) (hh : s.engine.streaming_history = [])
    (hc : s.engine.rebuffer_count = 0) (ht : s.engine.rebuffer_time_ms = 0)
    (hn : 0 < s.next_chunk_to_request) :
    ∃ s1, simulationStep rand 0 s = some s1 ∧
      s1.engine.network.fluctuation_rate ≠ 0 ∧ s1.engine.buffer = [] ∧
      s1.engine.streaming_history = [] ∧ s1.engine.rebuffer_count = 0 ∧
      s1.engine.rebuffer_time_ms = 0 ∧ 0 < s1.next_chunk_to_request := by
  obtain ⟨bw, s0, hs⟩ := sampleStep_succeeds rand s hf
  obtain ⟨e1, e2, _, _, _, e6, e7, _, _, e10, _, _⟩ := sampleStep_engine rand s s0 bw hs
  obtain ⟨_, _, n3⟩ := sampleStep_network rand s s0 bw hs
  have hreq : requestStep 0 bw s0 = some s0 := by
    unfold requestStep
    rw [if_neg]
    rw [e10]
    omega
  have hplay : playStep s0 = s0 := by
    unfold playStep
    rw [e1, hb]
  have hreb : rebufferStep 0 s0 = s0 := by
    unfold rebufferStep
    rw [if_neg]
    rw [e10]
    omega
  refine ⟨{ s0 with current_time := s0.current_time + 100 }, ?_, ?_, ?_, ?_, ?_, ?_, ?_⟩
  · unfold simulationStep
    rw [hs]
    simp only [hreq, hplay, hreb]
  · show s0.engine.network.fluctuation_rate ≠ 0
    rw [n3]; exact hf
  · show s0.engine.buffer = []
    rw [e1, hb]
  · show s0.engine.streaming_history = []
    rw [e2, hh]
  · show s0.engine.rebuffer_count = 0
    rw [e6, hc]
  · show s0.engine.rebuffer_time_ms = 0
    rw [e7, ht]
  · show 0 < s0.next_chunk_to_request
    rw [e10]; exact hn

/-- With no chunk to request, any number of iterations succeeds and admits
and records nothing. -/
theorem idle_steps (rand : Nat → Nat) (duration : Int) :
    ∀ (k : Nat) (s : PlaybackState),
      s.engine.network.fluctuation_rate ≠ 0 →
      s.engine.buffer = [] → s.engine.streaming_history = [] →
      s.engine.rebuffer_count = 0 → s.engine.rebuffer_time_ms = 0 →
      0 < s.next_chunk_to_request →
      ∃ s1, simulateSteps rand duration 0 k s = some s1 ∧
        s1.engine.streaming_history = [] ∧ s1.engine.rebuffer_count = 0 ∧
        s1.engine.rebuffer_time_ms = 0 := by
  intro k
  induction k with
  | zero =>
    intro s _ _ hh hc ht _
    exact ⟨s, rfl, hh, hc, ht⟩
  | succ k ih =>
    intro s hf hb hh hc ht hn
    by_cases hlt : s.current_time < duration
    · obtain ⟨s2, hstep, g1, g2, g3, g4, g5, g6⟩ := idle_step rand s hf hb hh hc ht hn
      obtain ⟨s1, hrest, r⟩ := ih s2 g1 g2 g3 g4 g5 g6
      refine ⟨s1, ?_, r⟩
      rw [simulateSteps, if_pos hlt, hstep]
      exact hrest
    · refine ⟨s, ?_, hh, hc, ht⟩
      rw [simulateSteps, if_neg hlt]

/-- Scenario D over the unbounded clock: with `chunks_needed = 0`, a network
with a non-zero fluctuation rate (or a duration that is not positive) and a
fresh engine, the run leaves its loop with an empty `streaming_history`,
`rebuffer_count = 0` and `rebuffer_time_ms = 0`, and `displayStatistics` takes
the "No streaming data available." branch. -/
theorem scenarioD_no_data (rand : Nat → Nat) (rand_calls : Nat) (buffer_cap : Int)
    (net : NetworkSimulator) (algo : AdaptiveBitrateAlgorithm) (duration : Int)
    (hf : net.fluctuation_rate ≠ 0 ∨ duration ≤ 0) :
    ∃ s, simulatePlayback rand rand_calls
        (VideoStreamingEngine.new buffer_cap net algo) duration 0 = some s ∧
      ¬ s.current_time < duration ∧
      s.engine.streaming_history = [] ∧
      s.engine.rebuffer_count = 0 ∧
      s.engine.rebuffer_time_ms = 0 ∧
      s.engine.displayStatistics = none := by
  have hex : ∃ s, simulatePlayback rand rand_calls
        (VideoStreamingEngine.new buffer_cap net algo) duration 0 = some s ∧
      s.engine.streaming_history = [] ∧ s.engine.rebuffer_count = 0 ∧
      s.engine.rebuffer_time_ms = 0 := by
    rcases hf with hf | hd
    · exact idle_steps rand duration (stepBound duration)
        (enterPlayback (VideoStreamingEngine.new buffer_cap net algo) rand_calls)
        hf rfl rfl rfl rfl (by simp [enterPlayback])
    · have h0 : stepBound duration = 0 := by
        unfold stepBound
        by_cases hd2 : 0 ≤ duration + 99
        · rw [Int.tdiv_eq_ediv hd2 (by decide)]
          have : (duration + 99) / 100 = 0 := by omega
          rw [this]; rfl
        · have hneg : (duration + 99).tdiv 100 ≤ 0 := by
            have h1 : (-(duration + 99)).tdiv 100 = -((duration + 99).tdiv 100) :=
              Int.neg_tdiv _ _
            have h2 : 0 ≤ (-(duration + 99)).tdiv 100 :=
              Int.tdiv_nonneg (by omega) (by decide)
            omega
          exact Int.toNat_eq_zero.mpr hneg
      exact ⟨_, by rw [simulatePlayback, h0]; rfl, rfl, rfl, rfl⟩
  obtain ⟨s, hrun, hh, hc, ht⟩ := hex
  refine ⟨s, hrun, ?_, hh, hc, ht, ?_⟩
  · refine simulateSteps_exits rand duration 0 (stepBound duration) _ s hrun ?_
    have := stepBound_covers duration
    simpa [enterPlayback] using this
  · unfold VideoStreamingEngine.displayStatistics
    rw [hh]

/-! ## Statistics -/

/-- The loop of `displayStatistics` adds up the bitrates in `avg_bitrate`. -/
theorem foldl_accumulate_avg_bitrate (l : List VideoChunk) :
    ∀ a : Accumulators, (l.foldl accumulate a).avg_bitrate =
      a.avg_bitrate + (((l.map (fun c => c.bitrate)).sum : Int) : ℚ) := by
  induction l with
  | nil => intro a; simp
  | cons c l ih =>
    intro a
    simp only [List.foldl_cons, List.map_cons, List.sum_cons]
    rw [ih]
    simp only [accumulate]
    push_cast
    ring

/-- What `displayStatistics` computes on a non-empty history: the printed
average divides the sum of the bitrates by the number of chunks, while the
quality score is taken from the undivided sum. -/
theorem displayStatistics_quality_score (e : VideoStreamingEngine)
    (hne : e.streaming_history ≠ []) :
    ∃ stats, e.displayStatistics = some stats ∧
      stats.average_bitrate =
        (((e.streaming_history.map (fun c => c.bitrate)).sum : Int) : ℚ) /
          (e.streaming_history.length : ℚ) ∧
      stats.quality_score = max 0
        (if e.rebuffer_count > 0 then
          ((((e.streaming_history.map (fun c => c.bitrate)).sum : Int) : ℚ) / 2160) * 100
            - ((e.rebuffer_count * 10 : Int) : ℚ)
        else ((((e.streaming_history.map (fun c => c.bitrate)).sum : Int) : ℚ) / 2160) * 100) := by
  unfold VideoStreamingEngine.displayStatistics
  cases hh : e.streaming_history with
  | nil => exact absurd hh hne
  | cons first rest =>
    refine ⟨_, rfl, ?_, ?_⟩
    · simp only [foldl_accumulate_avg_bitrate, zero_add]
    · simp only [foldl_accumulate_avg_bitrate, zero_add]

/-- C5: the quality score of `displayStatistics` against
`max(0, (m / 2160) * 100 - 10 * rebuffer_count)` with `m` the mean bitrate.
An Always-Best-Fit run at a constant 50000 kbps (capacity 30000, 500 ms,
5 chunks) ends with five chunks of bitrate 2160 and one rebuffer; the printed
average bitrate is 2160, the formula of the claim gives 90, and
`displayStatistics` computes 490, because it takes the score from the sum of
the bitrates (10800) instead of their mean. -/
theorem quality_score_uses_sum_of_bitrates :
    ∃ s stats, simulatePlayback (fun _ => 0) 0
        (VideoStreamingEngine.new 30000 (NetworkSimulator.new 50000 50000 1)
          AdaptiveBitrateAlgorithm.alwaysBestFit) 500 5 = some s ∧
      s.engine.streaming_history.map (fun c => c.bitrate) = [2160, 2160, 2160, 2160, 2160] ∧
      s.engine.rebuffer_count = 1 ∧
      s.engine.displayStatistics = some stats ∧
      stats.average_bitrate = 2160 ∧
      stats.quality_score = 490 ∧
      specQualityScore s.engine.streaming_history s.engine.rebuffer_count = 90 := by
  have hrun : ∃ s, simulatePlayback (fun _ => 0) 0
        (VideoStreamingEngine.new 30000 (NetworkSimulator.new 50000 50000 1)
          AdaptiveBitrateAlgorithm.alwaysBestFit) 500 5 = some s ∧
      s.engine.streaming_history.map (fun c => c.bitrate) = [2160, 2160, 2160, 2160, 2160] ∧
      s.engine.rebuffer_count = 1 ∧ s.engine.streaming_history.length = 5 :=
    ⟨_, rfl, rfl, rfl, rfl⟩
  obtain ⟨s, hs, hmap, hrc, hlen⟩ := hrun
  have hne : s.engine.streaming_history ≠ [] := by
    intro h
    rw [h] at hlen
    simp at hlen
  obtain ⟨stats, hstats, havg, hq⟩ := displayStatistics_quality_score s.engine hne
  refine ⟨s, stats, hs, hmap, hrc, hstats, ?_, ?_, ?_⟩
  · rw [havg, hmap, hlen]
    norm_num
  · rw [hq, hmap, hrc]
    norm_num
  · unfold specQualityScore
    simp only [hmap, hlen, hrc]
    norm_num

/-! ## Comparison of the two policies in `runSimulation` -/

set_option maxRecDepth 1000000 in
/-- C11: the claim that `runSimulation` resets the bandwidth model before the
Buffer-Based run. The statement commented "Reset network for fair comparison"
is `network.setBandwidth(network.getBandwidth())`, which leaves every network
unchanged. Under the Home WiFi preset (1000, 5000, 200, capacity 30000,
60000 ms, 30 chunks) with both policies and every draw equal to 399, the
Always-Best-Fit run starts at 1000 kbps and ends at 5000 kbps, and the
Buffer-Based run starts at 5000 kbps, not at `min_bandwidth = 1000`. -/
theorem runSimulation_does_not_reset :
    (∀ net : NetworkSimulator, net.setBandwidth net.getBandwidth = net) ∧
    ((NetworkSimulator.new 500 5000 300).setParameters 1000 5000 200).current_bandwidth
      = 1000 ∧
    (runSimulation (fun _ => 399) 0
        ((NetworkSimulator.new 500 5000 300).setParameters 1000 5000 200)
        30000 60000 30 3).map
      (fun r =>
        (r.engine1.map (fun s1 => s1.engine.network.current_bandwidth),
         r.engine2_start.map (fun e2 =>
           (e2.network.min_bandwidth, e2.network.current_bandwidth))))
      = some (some 5000, some (1000, 5000)) :=
  ⟨fun _ => rfl, rfl, rfl⟩

/-! ## The perturbation of the bandwidth -/

/-- With `current_time % 1000 == 0` and a non-zero fluctuation rate,
`simulateBandwidth` clamps the old bandwidth plus the change of the draw. -/
theorem simulateBandwidth_on_tick (rand : Nat → Nat) (rand_calls : Nat)
    (net : NetworkSimulator) (t : Int) (ht : t.tmod 1000 = 0)
    (hf : net.fluctuation_rate ≠ 0) :
    net.simulateBandwidth rand rand_calls t =
      some (max net.min_bandwidth (min net.max_bandwidth
              (net.current_bandwidth + bandwidthChange net.fluctuation_rate (rand rand_calls))),
            { net with current_bandwidth := max net.min_bandwidth (min net.max_bandwidth
              (net.current_bandwidth + bandwidthChange net.fluctuation_rate (rand rand_calls))) },
            rand_calls + 1) := by
  have hne : ¬ net.fluctuation_rate * 2 = 0 := by omega
  simp only [NetworkSimulator.simulateBandwidth, ht, hne, if_true, if_false, bandwidthChange]

/-- C12 (amended): on a call `simulateBandwidth(t)` with `t % 1000 == 0` and a
fluctuation rate `f > 0` whose double is an `int` with `2 * f - 1 <= RAND_MAX`
(`rand_max` is the platform's `RAND_MAX`), the delta `d` ranges over exactly
the integers of `[-f, f - 1]`: every draw yields a `d` with
`-f <= d <= f - 1`, and every integer `d` of `[-f, f - 1]` is the delta of
some draw from 0 to `RAND_MAX`. When `old - f` and `old + f` are `int`s, the
sum `old + d` is an `int` and the new `current_bandwidth` is
`clamp(old + d, min_bandwidth, max_bandwidth)`. -/
theorem bandwidthChange_range (f : Int) (rand_max : Nat) (hf : 0 < f)
    (hfit : fitsInt (f * 2)) (hmax : f * 2 - 1 ≤ (rand_max : Int)) :
    (∀ draw : Nat, -f ≤ bandwidthChange f draw ∧ bandwidthChange f draw ≤ f - 1) ∧
    (∀ d : Int, -f ≤ d → d ≤ f - 1 →
      ∃ draw : Nat, draw ≤ rand_max ∧ bandwidthChange f draw = d) ∧
    (∀ (rand : Nat → Nat) (rand_calls : Nat) (net : NetworkSimulator) (t : Int),
      net.fluctuation_rate = f → t.tmod 1000 = 0 →
      fitsInt (net.current_bandwidth - f) → fitsInt (net.current_bandwidth + f) →
      fitsInt (net.current_bandwidth + bandwidthChange f (rand rand_calls)) ∧
      net.simulateBandwidth rand rand_calls t =
        some (max net.min_bandwidth (min net.max_bandwidth
                (net.current_bandwidth + bandwidthChange f (rand rand_calls))),
              { net with current_bandwidth := max net.min_bandwidth (min net.max_bandwidth
                (net.current_bandwidth + bandwidthChange f (rand rand_calls))) },
              rand_calls + 1)) := by
  have hrange : ∀ draw : Nat, -f ≤ bandwidthChange f draw ∧ bandwidthChange f draw ≤ f - 1 := by
    intro draw
    obtain ⟨h1, h2⟩ := change_bounds draw f hf
    unfold bandwidthChange
    constructor <;> omega
  refine ⟨hrange, ?_, ?_⟩
  · intro d hlo hhi
    refine ⟨(d + f).toNat, ?_, ?_⟩
    · have h1 : ((d + f).toNat : Int) = d + f := Int.toNat_of_nonneg (by omega)
      have h2 : ((d + f).toNat : Int) ≤ (rand_max : Int) := by omega
      exact_mod_cast h2
    · unfold bandwidthChange
      rw [Int.toNat_of_nonneg (by omega), Int.tmod_eq_of_lt (by omega) (by omega)]
      omega
  · intro rand c net t hnf ht hlo hhi
    subst hnf
    obtain ⟨r1, r2⟩ := hrange (rand c)
    refine ⟨?_, simulateBandwidth_on_tick rand c net t ht (by omega)⟩
    unfold fitsInt at *
    constructor <;> omega

/-- Witness for C12 (amended): fluctuation rate 400 and `RAND_MAX` 32767. -/
theorem bandwidthChange_range_witness :
    (0 : Int) < 400 ∧ fitsInt (400 * 2) ∧ (400 : Int) * 2 - 1 ≤ ((32767 : Nat) : Int) ∧
    (∀ draw : Nat, -400 ≤ bandwidthChange 400 draw ∧ bandwidthChange 400 draw ≤ 400 - 1) ∧
    (∀ d : Int, -400 ≤ d → d ≤ 400 - 1 →
      ∃ draw : Nat, draw ≤ 32767 ∧ bandwidthChange 400 draw = d) :=
  ⟨by decide, ⟨by decide, by decide⟩, by decide,
    (bandwidthChange_range 400 32767 (by decide) ⟨by decide, by decide⟩ (by decide)).1,
    (bandwidthChange_range 400 32767 (by decide) ⟨by decide, by decide⟩ (by decide)).2.1⟩

/-- Counterexample to C12 as stated: with fluctuation rate 400 no draw yields
the delta +400, so a call at time 0 never takes a bandwidth of 1000 (bounds
500 and 3000) to 1400. -/
theorem bandwidthChange_never_plus_f :
    (¬ ∃ draw : Nat, bandwidthChange 400 draw = 400) ∧
    (-400 : Int) ≤ 400 ∧ (400 : Int) ≤ 400 ∧
    ¬ ∃ (rand : Nat → Nat) (rand_calls : Nat) (net1 : NetworkSimulator) (calls1 : Nat),
      NetworkSimulator.simulateBandwidth rand rand_calls
        { current_bandwidth := 1000, min_bandwidth := 500, max_bandwidth := 3000,
          fluctuation_rate := 400 } 0 = some (1400, net1, calls1) := by
  have hno : ∀ draw : Nat, bandwidthChange 400 draw ≠ 400 := by
    intro draw h
    have := (change_bounds draw 400 (by decide)).2
    unfold bandwidthChange at h
    omega
  refine ⟨fun ⟨draw, h⟩ => hno draw h, by decide, by decide, ?_⟩
  rintro ⟨rand, c, net1, c1, h⟩
  rw [simulateBandwidth_on_tick rand c _ 0 (by decide) (by decide)] at h
  simp only [Option.some.injEq, Prod.mk.injEq] at h
  obtain ⟨h1, _⟩ := h
  have hb := change_bounds (rand c) 400 (by decide)
  have hn := hno (rand c)
  unfold bandwidthChange at h1 hn
  have h2 : min (3000 : Int) (1000 + ((rand c : Int).tmod (400 * 2) - 400)) =
      1000 + ((rand c : Int).tmod (400 * 2) - 400) := min_eq_right (by omega)
  rw [h2, max_eq_right (by omega)] at h1
  omega

/-! ## Relations between selections -/

/-- C13: `BufferBasedAdaptation` is monotonic within the fixed-rung bands: for
buffer levels `b1 <= b2 < 20000`, whatever the bandwidth, `min_bitrate` and
`max_bitrate` of the two calls, the selection at `b1` is at most the selection
at `b2`. -/
theorem bufferBased_monotone_below_20000
    (b1 b2 bandwidth1 min_bitrate1 max_bitrate1 bandwidth2 min_bitrate2 max_bitrate2 : Int)
    (h12 : b1 ≤ b2) (h2 : b2 < 20000) :
    BufferBasedAdaptation.selectBitrate b1 bandwidth1 min_bitrate1 max_bitrate1 ≤
      BufferBasedAdaptation.selectBitrate b2 bandwidth2 min_bitrate2 max_bitrate2 := by
  simp only [BufferBasedAdaptation.selectBitrate]
  split_ifs <;> omega

/-- Witness for C13: buffer levels 2000 and 15000 with different bandwidths
and bounds. -/
theorem bufferBased_monotone_below_20000_witness :
    (2000 : Int) ≤ 15000 ∧ (15000 : Int) < 20000 ∧
    BufferBasedAdaptation.selectBitrate 2000 9000 480 2160 ≤
      BufferBasedAdaptation.selectBitrate 15000 300 720 1080 :=
  ⟨by decide, by decide,
    bufferBased_monotone_below_20000 2000 15000 9000 480 2160 300 720 1080
      (by decide) (by decide)⟩

/-- C14: `AlwaysBestFit::selectBitrate` ignores the buffer level: two calls
that differ only in the buffer level return the same bitrate. -/
theorem alwaysBestFit_ignores_buffer_level
    (b1 b2 bandwidth min_bitrate max_bitrate : Int) :
    AlwaysBestFit.selectBitrate b1 bandwidth min_bitrate max_bitrate =
      AlwaysBestFit.selectBitrate b2 bandwidth min_bitrate max_bitrate := rfl

/-! ## Chunk sizes and download times -/

/-- With the bounds 480 and 2160 the engine passes, either policy selects a
rung of the ladder. -/
theorem selectBitrate_mem_ladder (algo : AdaptiveBitrateAlgorithm)
    (buffer_level bandwidth : Int) :
    algo.selectBitrate buffer_level bandwidth 480 2160 ∈ bitrates := by
  cases algo with
  | alwaysBestFit =>
    simp only [AdaptiveBitrateAlgorithm.selectBitrate, AlwaysBestFit.selectBitrate]
    cases h : scanDown bandwidth 2160 bitrates.length with
    | none => simp [bitrates]
    | some r => exact (scanDown_some _ _ r h).1
  | bufferBasedAdaptation =>
    simp only [AdaptiveBitrateAlgorithm.selectBitrate, BufferBasedAdaptation.selectBitrate]
    split_ifs
    · simp [bitrates]
    · simp [bitrates]
    · simp [bitrates]
    · cases h : scanDown bandwidth 2160 bitrates.length with
      | none => simp [bitrates]
      | some r => exact (scanDown_some _ _ r h).1

/-- The request block keeps the chunks of the history and of the buffer well
sized. -/
theorem wellSized_requestStep (chunks_needed bandwidth : Int) (s0 sr : PlaybackState)
    (h : requestStep chunks_needed bandwidth s0 = some sr)
    (hh : ∀ c ∈ s0.engine.streaming_history, WellSized c)
    (hb : ∀ c ∈ s0.engine.buffer, WellSized c) :
    (∀ c ∈ sr.engine.streaming_history, WellSized c) ∧
    (∀ c ∈ sr.engine.buffer, WellSized c) := by
  rcases requestStep_cases chunks_needed bandwidth s0 sr h with
    h1 | ⟨chunk, _, _, hd, _, _, h1⟩
  · rw [h1]; exact ⟨hh, hb⟩
  · subst h1
    obtain ⟨_, _, d3, d4, d5, _, _⟩ := downloadChunk_some _ _ _ _ _ hd
    have hw : WellSized chunk := by
      refine ⟨d5, ?_, ?_⟩
      · rw [d4, d3, d5]; rfl
      · rw [d3]; exact selectBitrate_mem_ladder _ _ _
    constructor
    · intro c hc
      rcases List.mem_append.mp hc with hc | hc
      · exact hh c hc
      · rw [List.mem_singleton.mp hc]; exact hw
    · intro c hc
      rcases List.mem_append.mp hc with hc | hc
      · exact hb c hc
      · rw [List.mem_singleton.mp hc]; exact hw

/-- The playback block only removes the front of the buffer. -/
theorem playStep_buffer_subset (s : PlaybackState) :
    ∀ c ∈ (playStep s).engine.buffer, c ∈ s.engine.buffer := by
  intro c hc
  unfold playStep at hc
  cases hb : s.engine.buffer with
  | nil =>
    rw [hb] at hc
    simp only at hc
    rw [hb] at hc
    exact hc
  | cons played rest =>
    rw [hb] at hc
    simp only at hc
    split_ifs at hc
    · exact List.mem_cons_of_mem _ hc
    · rw [hb] at hc; exact hc

/-- One iteration keeps the chunks of the history and of the buffer well
sized. -/
theorem wellSized_simulationStep (rand : Nat → Nat) (chunks_needed : Int)
    (s s1 : PlaybackState) (h : simulationStep rand chunks_needed s = some s1)
    (hw : (∀ c ∈ s.engine.streaming_history, WellSized c) ∧
      (∀ c ∈ s.engine.buffer, WellSized c)) :
    (∀ c ∈ s1.engine.streaming_history, WellSized c) ∧
    (∀ c ∈ s1.engine.buffer, WellSized c) := by
  obtain ⟨bw, s0, sr, hs, hr, rfl⟩ := simulationStep_some rand chunks_needed s s1 h
  obtain ⟨e1, e2, _⟩ := sampleStep_engine rand s s0 bw hs
  obtain ⟨w1, w2⟩ := wellSized_requestStep chunks_needed bw s0 sr hr
    (by rw [e2]; exact hw.1) (by rw [e1]; exact hw.2)
  obtain ⟨_, _, _, _, _, p6, _⟩ := playStep_frame sr
  obtain ⟨b1, b2, _⟩ := rebufferStep_frame chunks_needed (playStep sr)
  constructor
  · show ∀ c ∈ (rebufferStep chunks_needed (playStep sr)).engine.streaming_history, WellSized c
    rw [b2, p6]; exact w1
  · show ∀ c ∈ (rebufferStep chunks_needed (playStep sr)).engine.buffer, WellSized c
    rw [b1]
    exact fun c hc => w2 c (playStep_buffer_subset sr c hc)

/-- C15: every chunk `downloadChunk` produces has `duration_ms = 2000` and
`size_kb = bitrate * duration_ms / 8000`; in every run of `simulatePlayback`
on a fresh engine every chunk of `streaming_history` and of the buffer
satisfies this and has a ladder bitrate, also right after the request block;
for the bitrates 480, 720, 1080, 2160 the division is exact and gives 120,
180, 270, 540. -/
theorem chunk_size_formula (rand : Nat → Nat) (rand_calls : Nat)
    (buffer_cap : Int) (net : NetworkSimulator) (algo : AdaptiveBitrateAlgorithm)
    (duration chunks_needed : Int) (k : Nat) (s : PlaybackState)
    (hrun : simulateSteps rand duration chunks_needed k
      (enterPlayback (VideoStreamingEngine.new buffer_cap net algo) rand_calls) = some s) :
    (∀ (e : VideoStreamingEngine) (chunk_id current_time bitrate : Int) (chunk : VideoChunk),
      e.downloadChunk chunk_id current_time bitrate = some chunk →
      chunk.duration_ms = 2000 ∧
      chunk.size_kb = (chunk.bitrate * chunk.duration_ms).tdiv 8000) ∧
    (∀ c ∈ s.engine.streaming_history, WellSized c) ∧
    (∀ c ∈ s.engine.buffer, WellSized c) ∧
    (∀ bandwidth s0 sr, sampleStep rand s = some (bandwidth, s0) →
      requestStep chunks_needed bandwidth s0 = some sr →
      (∀ c ∈ sr.engine.streaming_history, WellSized c) ∧
      (∀ c ∈ sr.engine.buffer, WellSized c)) ∧
    (VideoStreamingEngine.calculateChunkSize 480 2000 = 120 ∧ (480 : Int) * 2000 = 8000 * 120) ∧
    (VideoStreamingEngine.calculateChunkSize 720 2000 = 180 ∧ (720 : Int) * 2000 = 8000 * 180) ∧
    (VideoStreamingEngine.calculateChunkSize 1080 2000 = 270 ∧
      (1080 : Int) * 2000 = 8000 * 270) ∧
    (VideoStreamingEngine.calculateChunkSize 2160 2000 = 540 ∧
      (2160 : Int) * 2000 = 8000 * 540) := by
  have hw : (∀ c ∈ s.engine.streaming_history, WellSized c) ∧
      (∀ c ∈ s.engine.buffer, WellSized c) :=
    simulateSteps_preserves rand duration chunks_needed
      (fun t => (∀ c ∈ t.engine.streaming_history, WellSized c) ∧
        (∀ c ∈ t.engine.buffer, WellSized c))
      (fun a b hp hs => wellSized_simulationStep rand chunks_needed a b hs hp)
      k _ s (by simp [enterPlayback, VideoStreamingEngine.new]) hrun
  refine ⟨?_, hw.1, hw.2, ?_, ⟨by decide, by decide⟩, ⟨by decide, by decide⟩,
    ⟨by decide, by decide⟩, ⟨by decide, by decide⟩⟩
  · intro e id t b chunk hd
    obtain ⟨_, _, d3, d4, d5, _, _⟩ := downloadChunk_some _ _ _ _ _ hd
    exact ⟨d5, by rw [d4, d3, d5]; rfl⟩
  · intro bw s0 sr hs hr
    obtain ⟨e1, e2, _⟩ := sampleStep_engine rand s s0 bw hs
    exact wellSized_requestStep chunks_needed bw s0 sr hr
      (by rw [e2]; exact hw.1) (by rw [e1]; exact hw.2)

/-- Witness for C15: three iterations of a Buffer-Based run at 10000 kbps. -/
theorem chunk_size_formula_witness :
    ∃ s, simulateSteps (fun _ => 0) 300 3 3
      (enterPlayback (VideoStreamingEngine.new 30000 (NetworkSimulator.new 10000 10000 1)
        AdaptiveBitrateAlgorithm.bufferBasedAdaptation) 0) = some s ∧
      s.engine.streaming_history.map (fun c => c.size_kb) = [120, 120, 120] ∧
      ∀ c ∈ s.engine.streaming_history, WellSized c :=
  ⟨_, rfl, rfl,
    (chunk_size_formula (fun _ => 0) 0 30000 (NetworkSimulator.new 10000 10000 1)
      AdaptiveBitrateAlgorithm.bufferBasedAdaptation 300 3 3 _ rfl).2.1⟩

/-- C17: at every point of every run of `simulatePlayback` on a fresh engine
(after any number of iterations, and inside the next iteration after the
request block and after the playback block), `current_buffer_level` is the sum
of `duration_ms` over the buffer, that is 2000 times the buffer size; it is
not negative and it is 0 exactly when the buffer is empty. -/
theorem buffer_level_is_queued_duration (rand : Nat → Nat) (rand_calls : Nat)
    (buffer_cap : Int) (net : NetworkSimulator) (algo : AdaptiveBitrateAlgorithm)
    (duration chunks_needed : Int) (k : Nat) (s : PlaybackState)
    (hrun : simulateSteps rand duration chunks_needed k
      (enterPlayback (VideoStreamingEngine.new buffer_cap net algo) rand_calls) = some s) :
    (s.engine.current_buffer_level = (s.engine.buffer.map (fun c => c.duration_ms)).sum ∧
      s.engine.current_buffer_level = 2000 * (s.engine.buffer.length : Int) ∧
      0 ≤ s.engine.current_buffer_level ∧
      (s.engine.current_buffer_level = 0 ↔ s.engine.buffer = [])) ∧
    ∀ bandwidth s0 sr, sampleStep rand s = some (bandwidth, s0) →
      requestStep chunks_needed bandwidth s0 = some sr →
      (sr.engine.current_buffer_level = (sr.engine.buffer.map (fun c => c.duration_ms)).sum ∧
        sr.engine.current_buffer_level = 2000 * (sr.engine.buffer.length : Int) ∧
        0 ≤ sr.engine.current_buffer_level ∧
        (sr.engine.current_buffer_level = 0 ↔ sr.engine.buffer = [])) ∧
      ((playStep sr).engine.current_buffer_level =
          ((playStep sr).engine.buffer.map (fun c => c.duration_ms)).sum ∧
        (playStep sr).engine.current_buffer_level =
          2000 * ((playStep sr).engine.buffer.length : Int) ∧
        0 ≤ (playStep sr).engine.current_buffer_level ∧
        ((playStep sr).engine.current_buffer_level = 0 ↔ (playStep sr).engine.buffer = [])) := by
  have key : ∀ e : VideoStreamingEngine, Accounted e →
      (e.current_buffer_level = (e.buffer.map (fun c => c.duration_ms)).sum ∧
        e.current_buffer_level = 2000 * (e.buffer.length : Int) ∧
        0 ≤ e.current_buffer_level ∧ (e.current_buffer_level = 0 ↔ e.buffer = [])) := by
    intro e ha
    obtain ⟨a1, _, _, a4, _⟩ := ha
    have hlen : (0 : Int) ≤ (e.buffer.length : Int) := Int.ofNat_nonneg _
    refine ⟨by rw [sum_duration_ms e.buffer a4]; exact a1, a1, by omega, ?_⟩
    constructor
    · intro h0
      have : (e.buffer.length : Int) = 0 := by omega
      exact List.length_eq_zero.mp (by exact_mod_cast this)
    · intro hb
      rw [a1, hb]; rfl
  have ha : Accounted s.engine :=
    accounted_simulateSteps rand duration chunks_needed k _ s (accounted_new _ _ _) hrun
  refine ⟨key _ ha, ?_⟩
  intro bw s0 sr hs hr
  have hr1 := accounted_requestStep _ _ _ _ hr (accounted_sampleStep _ _ _ _ hs ha)
  exact ⟨key _ hr1, key _ (accounted_playStep _ hr1)⟩

/-- Witness for C17: three iterations of a Buffer-Based run at 10000 kbps
leave two chunks queued. -/
theorem buffer_level_is_queued_duration_witness :
    ∃ s, simulateSteps (fun _ => 0) 300 3 3
      (enterPlayback (VideoStreamingEngine.new 30000 (NetworkSimulator.new 10000 10000 1)
        AdaptiveBitrateAlgorithm.bufferBasedAdaptation) 0) = some s ∧
      s.engine.buffer.length = 2 ∧
      s.engine.current_buffer_level = 2000 * (s.engine.buffer.length : Int) :=
  ⟨_, rfl, rfl,
    (buffer_level_is_queued_duration (fun _ => 0) 0 30000 (NetworkSimulator.new 10000 10000 1)
      AdaptiveBitrateAlgorithm.bufferBasedAdaptation 300 3 3 _ rfl).1.2.1⟩

/-- C18: the download duration of `downloadChunk` against
`floor(size_kb * 8 * 1000 / b)`. The code divides the size in kilobits by the
truncated quotient `bandwidth / 1000`. A Buffer-Based run on a network with
bounds 1500 and 5000, fluctuation rate 200 and first draw 200 samples
1500 kbps at clock 0 and requests a 480 chunk of 120 KB: the code computes
`960 / 1 = 960` ms where the claim gives `960000 / 1500 = 640` ms. The two
agree when the bandwidth is a multiple of 1000. -/
theorem download_time_truncates_bandwidth :
    (∀ (e : VideoStreamingEngine) (chunk_id current_time bitrate : Int) (chunk : VideoChunk),
      e.downloadChunk chunk_id current_time bitrate = some chunk →
      chunk.received_time - chunk.requested_time =
        (chunk.size_kb * 8).tdiv (e.network.current_bandwidth.tdiv 1000)) ∧
    (∃ s0 chunk,
      sampleStep (fun _ => 200)
        (enterPlayback (VideoStreamingEngine.new 30000 (NetworkSimulator.new 1500 5000 200)
          AdaptiveBitrateAlgorithm.bufferBasedAdaptation) 0) = some (1500, s0) ∧
      s0.engine.downloadChunk 1 0
        (s0.engine.abr_algorithm.selectBitrate s0.engine.current_buffer_level 1500 480 2160)
        = some chunk ∧
      chunk.bitrate = 480 ∧ chunk.size_kb = 120 ∧
      chunk.received_time - chunk.requested_time = 960 ∧
      specDownloadTime chunk.size_kb 1500 = 640 ∧
      chunk.received_time - chunk.requested_time ≠ specDownloadTime chunk.size_kb 1500) ∧
    (∀ size_kb m : Int, 0 ≤ size_kb → 0 < m →
      (size_kb * 8).tdiv ((1000 * m).tdiv 1000) = specDownloadTime size_kb (1000 * m)) := by
  refine ⟨?_, ⟨_, _, rfl, rfl, rfl, rfl, rfl, rfl, by decide⟩, ?_⟩
  · intro e id t b chunk hd
    obtain ⟨_, _, _, d4, _, d6, d7⟩ := downloadChunk_some _ _ _ _ _ hd
    rw [d7, d6, d4]
    omega
  · intro size_kb m hs hm
    unfold specDownloadTime
    have h1 : (1000 * m).tdiv 1000 = m := by
      rw [Int.tdiv_eq_ediv (by omega) (by decide)]
      exact Int.mul_ediv_cancel_left m (by decide)
    rw [h1, Int.tdiv_eq_ediv (by omega) (by omega), mul_comm 1000 m]
    exact (Int.mul_ediv_mul_of_pos_left (size_kb * 8) m (by decide)).symm

/-! ## The loop, iteration by iteration -/

/-- The state after `k + 1` iterations is one iteration, when the loop
condition holds, from the state after `k`. -/
theorem simulateSteps_succ_last (rand : Nat → Nat) (duration chunks_needed : Int) :
    ∀ (k : Nat) (s : PlaybackState),
      simulateSteps rand duration chunks_needed (k + 1) s =
        match simulateSteps rand duration chunks_needed k s with
        | none => none
        | some sk =>
          if sk.current_time < duration then simulationStep rand chunks_needed sk
          else some sk := by
  intro k
  induction k with
  | zero =>
    intro s
    simp only [simulateSteps]
    split_ifs
    · cases simulationStep rand chunks_needed s <;> rfl
    · rfl
  | succ k ih =>
    intro s
    rw [simulateSteps]
    by_cases hlt : s.current_time < duration
    · rw [if_pos hlt]
      cases hs : simulationStep rand chunks_needed s with
      | none =>
        have : simulateSteps rand duration chunks_needed (k + 1) s = none := by
          rw [simulateSteps, if_pos hlt, hs]
        rw [this]
      | some s1 =>
        have : simulateSteps rand duration chunks_needed (k + 1) s =
            simulateSteps rand duration chunks_needed k s1 := by
          rw [simulateSteps, if_pos hlt, hs]
        rw [this]
        exact ih s1
    · rw [if_neg hlt]
      have : simulateSteps rand duration chunks_needed (k + 1) s = some s := by
        rw [simulateSteps, if_neg hlt]
      rw [this]
      simp only [hlt, if_false]

/-- How a state after `k + 1` iterations arises from the state after `k`. -/
theorem simulateSteps_succ_some (rand : Nat → Nat) (duration chunks_needed : Int)
    (k : Nat) (s s1 : PlaybackState)
    (h : simulateSteps rand duration chunks_needed (k + 1) s = some s1) :
    ∃ sk, simulateSteps rand duration chunks_needed k s = some sk ∧
      ((sk.current_time < duration ∧ simulationStep rand chunks_needed sk = some s1) ∨
        (¬ sk.current_time < duration ∧ s1 = sk)) := by
  rw [simulateSteps_succ_last] at h
  cases hk : simulateSteps rand duration chunks_needed k s with
  | none => rw [hk] at h; simp at h
  | some sk =>
    rw [hk] at h
    simp only at h
    refine ⟨sk, rfl, ?_⟩
    by_cases hlt : sk.current_time < duration
    · rw [if_pos hlt] at h
      exact Or.inl ⟨hlt, h⟩
    · rw [if_neg hlt] at h
      exact Or.inr ⟨hlt, (Option.some.inj h).symm⟩

/-! ## The buffer as a queue over the admission order -/

/-- The ids up to `n + 1` are the ids up to `n` followed by `n + 1`. -/
theorem chunkIds_succ (n : Nat) : chunkIds (n + 1) = chunkIds n ++ [(n : Int) + 1] := by
  simp [chunkIds, List.range_succ]

/-- A prefix of a list that carries the ids `1, 2, ...` carries them too. -/
theorem chunkIds_prefix (p b : List VideoChunk)
    (h : (p ++ b).map (fun c => c.chunk_id) = chunkIds (p ++ b).length) :
    p.map (fun c => c.chunk_id) = chunkIds p.length := by
  rw [List.map_append, List.length_append, chunkIds, List.range_add, List.map_append] at h
  exact (List.append_inj h (by simp)).1

/-- The request block appends the same chunks, none or the one with the next
id, to the history and to the back of the buffer. -/
theorem requestStep_appends (chunks_needed bandwidth : Int) (s0 sr : PlaybackState)
    (h : requestStep chunks_needed bandwidth s0 = some sr) :
    ∃ cs, sr.engine.streaming_history = s0.engine.streaming_history ++ cs ∧
      sr.engine.buffer = s0.engine.buffer ++ cs ∧
      sr.next_chunk_to_play = s0.next_chunk_to_play ∧
      ((cs = [] ∧ sr.next_chunk_to_request = s0.next_chunk_to_request) ∨
        ∃ c, cs = [c] ∧ c.chunk_id = s0.next_chunk_to_request ∧
          sr.next_chunk_to_request = s0.next_chunk_to_request + 1 ∧
          s0.next_chunk_to_request ≤ chunks_needed) := by
  rcases requestStep_cases chunks_needed bandwidth s0 sr h with
    h1 | ⟨chunk, hle, _, hd, _, _, h1⟩
  · subst h1
    exact ⟨[], by simp, by simp, rfl, Or.inl ⟨rfl, rfl⟩⟩
  · subst h1
    exact ⟨[chunk], rfl, rfl, rfl,
      Or.inr ⟨chunk, rfl, (downloadChunk_some _ _ _ _ _ hd).2.1, rfl, hle⟩⟩

/-- The playback block removes from the front of the buffer exactly the chunk
it plays, and counts it. -/
theorem playStep_played (s : PlaybackState) :
    s.engine.buffer = (playedChunk s).toList ++ (playStep s).engine.buffer ∧
    (playStep s).next_chunk_to_play =
      s.next_chunk_to_play + ((playedChunk s).toList.length : Int) := by
  unfold playStep playedChunk
  cases hb : s.engine.buffer with
  | nil =>
    simp only [Option.toList, List.nil_append, List.length_nil, Nat.cast_zero, add_zero,
      and_true]
    exact hb.symm
  | cons played rest =>
    simp only
    split_ifs
    · simp [Option.toList]
    · simp only [Option.toList, List.nil_append, List.length_nil, Nat.cast_zero, add_zero,
        and_true]
      exact hb.symm

/-- One iteration keeps the history numbered `1, 2, ...` up to
`next_chunk_to_request - 1`, which stays within `max(chunks_needed, 0)`. -/
theorem numbered_simulationStep (rand : Nat → Nat) (chunks_needed : Int)
    (s s1 : PlaybackState) (h : simulationStep rand chunks_needed s = some s1)
    (hn : s.engine.streaming_history.map (fun c => c.chunk_id) =
        chunkIds s.engine.streaming_history.length ∧
      s.next_chunk_to_request = (s.engine.streaming_history.length : Int) + 1 ∧
      s.next_chunk_to_request - 1 ≤ max chunks_needed 0) :
    s1.engine.streaming_history.map (fun c => c.chunk_id) =
        chunkIds s1.engine.streaming_history.length ∧
      s1.next_chunk_to_request = (s1.engine.streaming_history.length : Int) + 1 ∧
      s1.next_chunk_to_request - 1 ≤ max chunks_needed 0 := by
  obtain ⟨bw, s0, sr, hs, hr, rfl⟩ := simulationStep_some rand chunks_needed s s1 h
  obtain ⟨_, e2, _, _, _, _, _, _, _, e10, _, _⟩ := sampleStep_engine rand s s0 bw hs
  obtain ⟨cs, a1, _, _, a4⟩ := requestStep_appends chunks_needed bw s0 sr hr
  obtain ⟨_, _, _, _, _, p6, _, _, p9⟩ := playStep_frame sr
  obtain ⟨_, b2, _, _, _, _, _, _, _, b10, _⟩ := rebufferStep_frame chunks_needed (playStep sr)
  obtain ⟨n1, n2, n3⟩ := hn
  show (rebufferStep chunks_needed (playStep sr)).engine.streaming_history.map
        (fun c => c.chunk_id) =
      chunkIds (rebufferStep chunks_needed (playStep sr)).engine.streaming_history.length ∧
    (rebufferStep chunks_needed (playStep sr)).next_chunk_to_request =
      ((rebufferStep chunks_needed (playStep sr)).engine.streaming_history.length : Int) + 1 ∧
    (rebufferStep chunks_needed (playStep sr)).next_chunk_to_request - 1 ≤ max chunks_needed 0
  rw [b2, b10, p6, p9, a1, e2]
  rcases a4 with ⟨hcs, hnx⟩ | ⟨c, hcs, hid, hnx, hle⟩
  · subst hcs
    rw [hnx, e10, List.append_nil]
    exact ⟨n1, n2, n3⟩
  · subst hcs
    rw [hnx, e10]
    rw [e10] at hid hle
    refine ⟨?_, ?_, ?_⟩
    · rw [List.map_append, List.length_append, List.length_singleton, chunkIds_succ, n1,
        List.map_singleton, hid, n2]
    · rw [List.length_append, List.length_singleton]
      push_cast
      omega
    · have := le_max_left chunks_needed 0
      omega

/-- The chunk played by an iteration that is reached and succeeds. -/
theorem playedInStep_of_step (rand : Nat → Nat) (duration chunks_needed : Int)
    (s s0 sr : PlaybackState) (bandwidth : Int) (hlt : s.current_time < duration)
    (hs : sampleStep rand s = some (bandwidth, s0))
    (hr : requestStep chunks_needed bandwidth s0 = some sr) :
    playedInStep rand duration chunks_needed s = playedChunk sr := by
  unfold playedInStep
  rw [if_pos hlt, hs]
  simp only [hr]

/-- In a run on a fresh engine the history is the chunks played so far
followed by the buffer, and `next_chunk_to_play` counts the played chunks. -/
theorem history_is_played_then_buffer (rand : Nat → Nat) (rand_calls : Nat)
    (e : VideoStreamingEngine) (duration chunks_needed : Int)
    (he : e.streaming_history = e.buffer) :
    ∀ (k : Nat) (s : PlaybackState),
      simulateSteps rand duration chunks_needed k (enterPlayback e rand_calls) = some s →
      s.engine.streaming_history =
        playedDuring rand duration chunks_needed (enterPlayback e rand_calls) k ++
          s.engine.buffer ∧
      s.next_chunk_to_play =
        ((playedDuring rand duration chunks_needed (enterPlayback e rand_calls) k).length
          : Int) + 1 := by
  intro k
  induction k with
  | zero =>
    intro s h
    simp only [simulateSteps, Option.some.injEq] at h
    subst h
    simp [playedDuring, enterPlayback, he]
  | succ k ih =>
    intro s h
    obtain ⟨sk, hk, hcase⟩ := simulateSteps_succ_some rand duration chunks_needed k _ s h
    obtain ⟨i1, i2⟩ := ih sk hk
    have hpd : playedDuring rand duration chunks_needed (enterPlayback e rand_calls) (k + 1) =
        playedDuring rand duration chunks_needed (enterPlayback e rand_calls) k ++
          (playedInStep rand duration chunks_needed sk).toList := by
      rw [playedDuring, hk]
    rw [hpd]
    rcases hcase with ⟨hlt, hstep⟩ | ⟨hge, heq⟩
    · obtain ⟨bw, s0, sr, hs, hr, rfl⟩ := simulationStep_some rand chunks_needed sk s hstep
      rw [playedInStep_of_step rand duration chunks_needed sk s0 sr bw hlt hs hr]
      obtain ⟨e1, e2, _, _, _, _, _, _, _, _, e11, _⟩ := sampleStep_engine rand sk s0 bw hs
      obtain ⟨cs, a1, a2, a3, _⟩ := requestStep_appends chunks_needed bw s0 sr hr
      obtain ⟨q1, q2⟩ := playStep_played sr
      obtain ⟨_, _, _, _, _, p6, _, _, _⟩ := playStep_frame sr
      obtain ⟨b1, b2, _, _, _, _, _, _, _, _, b11⟩ :=
        rebufferStep_frame chunks_needed (playStep sr)
      constructor
      · show (rebufferStep chunks_needed (playStep sr)).engine.streaming_history =
          _ ++ (rebufferStep chunks_needed (playStep sr)).engine.buffer
        rw [b1, b2, p6, a1, e2, i1, List.append_assoc, List.append_assoc, ← q1, a2, e1]
      · show (rebufferStep chunks_needed (playStep sr)).next_chunk_to_play = _
        rw [b11, q2, a3, e11, i2, List.length_append]
        push_cast
        omega
    · subst heq
      have hnone : playedInStep rand duration chunks_needed s = none := by
        unfold playedInStep
        rw [if_neg hge]
      rw [hnone]
      simp only [Option.toList, List.append_nil]
      exact ⟨i1, i2⟩

/-- C16: the playback buffer is a FIFO over the admission order. After any
number of iterations of a run of `simulatePlayback` on a fresh engine,
`streaming_history` carries the chunk ids 1, 2, ..., k in order with
`k = next_chunk_to_request - 1 <= max(chunks_needed, 0)`, and it equals the
chunks played so far, in the order in which they were played, followed by the
buffer from front to back; so the played chunks carry the ids 1, 2, ... in
increasing order, each once, and `next_chunk_to_play` is their number plus 1. -/
theorem buffer_is_fifo (rand : Nat → Nat) (rand_calls : Nat)
    (buffer_cap : Int) (net : NetworkSimulator) (algo : AdaptiveBitrateAlgorithm)
    (duration chunks_needed : Int) (k : Nat) (s : PlaybackState)
    (hrun : simulateSteps rand duration chunks_needed k
      (enterPlayback (VideoStreamingEngine.new buffer_cap net algo) rand_calls) = some s) :
    s.engine.streaming_history.map (fun c => c.chunk_id) =
      chunkIds s.engine.streaming_history.length ∧
    (s.engine.streaming_history.length : Int) = s.next_chunk_to_request - 1 ∧
    s.next_chunk_to_request - 1 ≤ max chunks_needed 0 ∧
    s.engine.streaming_history =
      playedDuring rand duration chunks_needed
        (enterPlayback (VideoStreamingEngine.new buffer_cap net algo) rand_calls) k ++
      s.engine.buffer ∧
    (playedDuring rand duration chunks_needed
        (enterPlayback (VideoStreamingEngine.new buffer_cap net algo) rand_calls) k).map
      (fun c => c.chunk_id) =
      chunkIds (playedDuring rand duration chunks_needed
        (enterPlayback (VideoStreamingEngine.new buffer_cap net algo) rand_calls) k).length ∧
    s.next_chunk_to_play =
      ((playedDuring rand duration chunks_needed
        (enterPlayback (VideoStreamingEngine.new buffer_cap net algo) rand_calls) k).length
        : Int) + 1 := by
  obtain ⟨n1, n2, n3⟩ :=
    simulateSteps_preserves rand duration chunks_needed
      (fun t => t.engine.streaming_history.map (fun c => c.chunk_id) =
          chunkIds t.engine.streaming_history.length ∧
        t.next_chunk_to_request = (t.engine.streaming_history.length : Int) + 1 ∧
        t.next_chunk_to_request - 1 ≤ max chunks_needed 0)
      (fun a b hp hs => numbered_simulationStep rand chunks_needed a b hs hp)
      k _ s (by
        refine ⟨rfl, rfl, ?_⟩
        show (1 : Int) - 1 ≤ max chunks_needed 0
        have := le_max_right chunks_needed 0
        omega) hrun
  obtain ⟨f1, f2⟩ := history_is_played_then_buffer rand rand_calls
    (VideoStreamingEngine.new buffer_cap net algo) duration chunks_needed rfl k s hrun
  refine ⟨n1, by omega, n3, f1, ?_, f2⟩
  apply chunkIds_prefix _ s.engine.buffer
  rw [← f1]
  exact n1

/-- Witness for C16: thirty iterations of an Always-Best-Fit run at 50000 kbps
with four chunks: chunks 1 and 2 played, chunks 3 and 4 queued. -/
theorem buffer_is_fifo_witness :
    ∃ s, simulateSteps (fun _ => 0) 5000 4 30
      (enterPlayback (VideoStreamingEngine.new 30000 (NetworkSimulator.new 50000 50000 1)
        AdaptiveBitrateAlgorithm.alwaysBestFit) 0) = some s ∧
      s.engine.streaming_history.map (fun c => c.chunk_id) = [1, 2, 3, 4] ∧
      s.engine.buffer.map (fun c => c.chunk_id) = [3, 4] ∧
      (playedDuring (fun _ => 0) 5000 4
        (enterPlayback (VideoStreamingEngine.new 30000 (NetworkSimulator.new 50000 50000 1)
          AdaptiveBitrateAlgorithm.alwaysBestFit) 0) 30).map (fun c => c.chunk_id) = [1, 2] ∧
      s.engine.streaming_history =
        playedDuring (fun _ => 0) 5000 4
          (enterPlayback (VideoStreamingEngine.new 30000 (NetworkSimulator.new 50000 50000 1)
            AdaptiveBitrateAlgorithm.alwaysBestFit) 0) 30 ++ s.engine.buffer :=
  ⟨_, rfl, rfl, rfl, rfl,
    (buffer_is_fifo (fun _ => 0) 0 30000 (NetworkSimulator.new 50000 50000 1)
      AdaptiveBitrateAlgorithm.alwaysBestFit 5000 4 30 _ rfl).2.2.2.1⟩

/-! ## Termination and the clock -/

/-- On a fault-free network sampling succeeds, returns a bandwidth within the
bounds and leaves the network fault-free with the same bounds. -/
theorem sampleStep_faultFree (rand : Nat → Nat) (s : PlaybackState)
    (hn : FaultFree s.engine.network) :
    ∃ bandwidth s0, sampleStep rand s = some (bandwidth, s0) ∧
      s.engine.network.min_bandwidth ≤ bandwidth ∧
      bandwidth ≤ s.engine.network.max_bandwidth ∧
      FaultFree s0.engine.network := by
  obtain ⟨h1, h2, h3, h4, h5⟩ := hn
  obtain ⟨bw, s0, hs⟩ := sampleStep_succeeds rand s h5
  obtain ⟨n1, n2, n3⟩ := sampleStep_network rand s s0 bw hs
  have hbw := (sampleStep_engine rand s s0 bw hs).2.2.2.2.2.2.2.2.2.2.2
  have hcur : s.engine.network.min_bandwidth ≤ s0.engine.network.current_bandwidth ∧
      s0.engine.network.current_bandwidth ≤ s.engine.network.max_bandwidth := by
    unfold sampleStep at hs
    cases hsb : s.engine.network.simulateBandwidth rand s.rand_calls s.current_time with
    | none => simp [hsb] at hs
    | some r =>
      obtain ⟨v, net, calls⟩ := r
      simp only [hsb, Option.some.injEq, Prod.mk.injEq] at hs
      obtain ⟨_, hs0⟩ := hs
      subst hs0
      unfold NetworkSimulator.simulateBandwidth at hsb
      split_ifs at hsb
      · simp only [Option.some.injEq, Prod.mk.injEq] at hsb
        obtain ⟨_, hnet, _⟩ := hsb
        subst hnet
        exact ⟨le_max_left _ _, max_le h2 (min_le_left _ _)⟩
      · simp only [Option.some.injEq, Prod.mk.injEq] at hsb
        obtain ⟨_, hnet, _⟩ := hsb
        subst hnet
        exact ⟨h3, h4⟩
  refine ⟨bw, s0, hs, by rw [hbw]; exact hcur.1, by rw [hbw]; exact hcur.2, ?_⟩
  exact ⟨by rw [n1]; exact h1, by rw [n1, n2]; exact h2, by rw [n1]; exact hcur.1,
    by rw [n2]; exact hcur.2, by rw [n3]; exact h5⟩

/-- With a bandwidth of at least 1000 kbps the request block does not divide
by zero. -/
theorem requestStep_succeeds (chunks_needed bandwidth : Int) (s0 : PlaybackState)
    (hbw : 1000 ≤ s0.engine.network.current_bandwidth) :
    ∃ sr, requestStep chunks_needed bandwidth s0 = some sr := by
  have hd : ¬ s0.engine.network.current_bandwidth.tdiv 1000 = 0 := by
    rw [Int.tdiv_eq_ediv (by omega) (by decide)]
    omega
  unfold requestStep
  split_ifs
  · simp only [VideoStreamingEngine.downloadChunk, NetworkSimulator.getBandwidth, hd, if_false]
    split_ifs
    · exact ⟨_, rfl⟩
    · exact ⟨_, rfl⟩
  · exact ⟨_, rfl⟩

/-- On a fault-free network an iteration succeeds and leaves the network
fault-free. -/
theorem simulationStep_faultFree (rand : Nat → Nat) (chunks_needed : Int)
    (s : PlaybackState) (hn : FaultFree s.engine.network) :
    ∃ s1, simulationStep rand chunks_needed s = some s1 ∧ FaultFree s1.engine.network := by
  obtain ⟨bw, s0, hs, _, _, hn0⟩ := sampleStep_faultFree rand s hn
  obtain ⟨sr, hr⟩ := requestStep_succeeds chunks_needed bw s0 (le_trans hn0.1 hn0.2.2.1)
  obtain ⟨_, _, _, _, r5, _⟩ := requestStep_frame chunks_needed bw s0 sr hr
  obtain ⟨_, _, _, _, p5, _⟩ := playStep_frame sr
  obtain ⟨_, _, _, _, _, _, b7, _⟩ := rebufferStep_frame chunks_needed (playStep sr)
  refine ⟨{ rebufferStep chunks_needed (playStep sr) with
    current_time := (rebufferStep chunks_needed (playStep sr)).current_time + 100 }, ?_, ?_⟩
  · unfold simulationStep
    rw [hs]
    simp only [hr]
  · show FaultFree (rebufferStep chunks_needed (playStep sr)).engine.network
    rw [b7, p5, r5]
    exact hn0

/-- On a fault-free network every number of iterations succeeds. -/
theorem simulateSteps_faultFree (rand : Nat → Nat) (duration chunks_needed : Int) :
    ∀ (k : Nat) (s : PlaybackState), FaultFree s.engine.network →
      ∃ s1, simulateSteps rand duration chunks_needed k s = some s1 ∧
        FaultFree s1.engine.network := by
  intro k
  induction k with
  | zero => exact fun s hn => ⟨s, rfl, hn⟩
  | succ k ih =>
    intro s hn
    by_cases hlt : s.current_time < duration
    · obtain ⟨s2, hstep, hn2⟩ := simulationStep_faultFree rand chunks_needed s hn
      obtain ⟨s1, hrest, hn1⟩ := ih s2 hn2
      exact ⟨s1, by rw [simulateSteps, if_pos hlt, hstep]; exact hrest, hn1⟩
    · exact ⟨s, by rw [simulateSteps, if_neg hlt], hn⟩

/-- For a positive duration the iteration bound is `ceil(duration / 100)`. -/
theorem stepBound_pos (duration : Int) (hd : 0 < duration) :
    100 * ((stepBound duration : Int) - 1) < duration ∧
    duration ≤ 100 * (stepBound duration : Int) ∧
    (stepBound duration : Int) = ⌈(duration : ℚ) / 100⌉ := by
  have hb : (stepBound duration : Int) = (duration + 99) / 100 := by
    unfold stepBound
    rw [Int.tdiv_eq_ediv (by omega) (by decide)]
    exact Int.toNat_of_nonneg (Int.ediv_nonneg (by omega) (by decide))
  have h1 : 100 * ((stepBound duration : Int) - 1) < duration := by omega
  have h2 : duration ≤ 100 * (stepBound duration : Int) := by omega
  refine ⟨h1, h2, ?_⟩
  symm
  rw [Int.ceil_eq_iff]
  constructor
  · have h1q : (100 : ℚ) * ((((stepBound duration : Nat) : Int) : ℚ) - 1) < (duration : ℚ) := by
      exact_mod_cast h1
    rw [lt_div_iff₀ (by norm_num)]
    linarith
  · have h2q : (duration : ℚ) ≤ (100 : ℚ) * (((stepBound duration : Nat) : Int) : ℚ) := by
      exact_mod_cast h2
    rw [div_le_iff₀ (by norm_num)]
    linarith

/-- For a duration that is not positive the iteration bound is 0. -/
theorem stepBound_nonpos (duration : Int) (hd : duration ≤ 0) : stepBound duration = 0 := by
  unfold stepBound
  by_cases hd2 : 0 ≤ duration + 99
  · rw [Int.tdiv_eq_ediv hd2 (by decide)]
    have : (duration + 99) / 100 = 0 := by omega
    rw [this]; rfl
  · have hneg : (duration + 99).tdiv 100 ≤ 0 := by
      have h1 : (-(duration + 99)).tdiv 100 = -((duration + 99).tdiv 100) :=
        Int.neg_tdiv _ _
      have h2 : 0 ≤ (-(duration + 99)).tdiv 100 :=
        Int.tdiv_nonneg (by omega) (by decide)
      omega
    exact Int.toNat_eq_zero.mpr hneg

/-- Before the iteration bound is reached the loop condition holds at the
clock value `100 * k`. -/
theorem stepBound_lt (duration : Int) (k : Nat) (hk : k < stepBound duration) :
    100 * (k : Int) < duration := by
  by_cases hd : 0 < duration
  · have h1 := (stepBound_pos duration hd).1
    have : (k : Int) + 1 ≤ (stepBound duration : Int) := by exact_mod_cast hk
    omega
  · rw [stepBound_nonpos duration (by omega)] at hk
    omega

/-- Iterations beyond a number that covers the duration change nothing,
whether the run faults or not. -/
theorem simulateSteps_stable (rand : Nat → Nat) (duration chunks_needed : Int)
    (n : Nat) (s : PlaybackState) (hcover : duration ≤ s.current_time + 100 * (n : Int)) :
    ∀ j : Nat, simulateSteps rand duration chunks_needed (n + j) s =
      simulateSteps rand duration chunks_needed n s := by
  intro j
  induction j with
  | zero => rfl
  | succ j ih =>
    rw [← Nat.add_assoc, simulateSteps_succ_last, ih]
    cases hn : simulateSteps rand duration chunks_needed n s with
    | none => rfl
    | some sn =>
      have hex := simulateSteps_exits rand duration chunks_needed n s sn hn hcover
      simp only [hex, if_false]

/-- In a run of `simulatePlayback` the clock after `k` iterations, `k` up to
the iteration bound, is `100 * k`. -/
theorem clock_after_steps (rand : Nat → Nat) (rand_calls : Nat) (e : VideoStreamingEngine)
    (duration chunks_needed : Int) :
    ∀ (k : Nat) (s : PlaybackState), k ≤ stepBound duration →
      simulateSteps rand duration chunks_needed k (enterPlayback e rand_calls) = some s →
      s.current_time = 100 * (k : Int) := by
  intro k
  induction k with
  | zero =>
    intro s _ h
    simp only [simulateSteps, Option.some.injEq] at h
    subst h
    rfl
  | succ k ih =>
    intro s hk h
    obtain ⟨sk, hsk, hcase⟩ := simulateSteps_succ_some rand duration chunks_needed k _ s h
    have htk := ih sk (by omega) hsk
    rcases hcase with ⟨_, hstep⟩ | ⟨hge, _⟩
    · rw [(simulationStep_frame rand chunks_needed sk s hstep).2.2.2.2.2, htk]
      push_cast
      ring
    · have := stepBound_lt duration k (by omega)
      omega

/-- What one iteration does to the history, the buffer and the play counter:
it admits at most one chunk and plays at most one, and plays only when the
clock is a multiple of 2000. -/
theorem simulationStep_admits_and_plays (rand : Nat → Nat) (chunks_needed : Int)
    (s s1 : PlaybackState) (h : simulationStep rand chunks_needed s = some s1) :
    ∃ admitted played : List VideoChunk,
      admitted.length ≤ 1 ∧ played.length ≤ 1 ∧
      s1.engine.streaming_history = s.engine.streaming_history ++ admitted ∧
      s.engine.buffer ++ admitted = played ++ s1.engine.buffer ∧
      s1.next_chunk_to_request = s.next_chunk_to_request + (admitted.length : Int) ∧
      s1.next_chunk_to_play = s.next_chunk_to_play + (played.length : Int) ∧
      (played ≠ [] → s.current_time.tmod 2000 = 0) := by
  obtain ⟨bw, s0, sr, hs, hr, rfl⟩ := simulationStep_some rand chunks_needed s s1 h
  obtain ⟨e1, e2, _, _, _, _, _, _, e9, e10, e11, _⟩ := sampleStep_engine rand s s0 bw hs
  obtain ⟨cs, a1, a2, a3, a4⟩ := requestStep_appends chunks_needed bw s0 sr hr
  obtain ⟨_, _, _, _, _, _, r7, _, _⟩ := requestStep_frame chunks_needed bw s0 sr hr
  obtain ⟨q1, q2⟩ := playStep_played sr
  obtain ⟨_, _, _, _, _, p6, _, _, p9⟩ := playStep_frame sr
  obtain ⟨b1, b2, _, _, _, _, _, _, _, b10, b11⟩ :=
    rebufferStep_frame chunks_needed (playStep sr)
  refine ⟨cs, (playedChunk sr).toList, ?_, ?_, ?_, ?_, ?_, ?_, ?_⟩
  · rcases a4 with ⟨hcs, _⟩ | ⟨c, hcs, _⟩ <;> simp [hcs]
  · cases playedChunk sr <;> simp [Option.toList]
  · show (rebufferStep chunks_needed (playStep sr)).engine.streaming_history = _
    rw [b2, p6, a1, e2]
  · show _ = _ ++ (rebufferStep chunks_needed (playStep sr)).engine.buffer
    rw [b1, ← q1, a2, e1]
  · show (rebufferStep chunks_needed (playStep sr)).next_chunk_to_request = _
    rw [b10, p9]
    rcases a4 with ⟨hcs, hnx⟩ | ⟨c, hcs, _, hnx, _⟩
    · rw [hnx, e10, hcs]; simp
    · rw [hnx, e10, hcs]; simp
  · show (rebufferStep chunks_needed (playStep sr)).next_chunk_to_play = _
    rw [b11, q2, a3, e11]
  · intro hne
    unfold playedChunk at hne
    cases hb : sr.engine.buffer with
    | nil => rw [hb] at hne; simp [Option.toList] at hne
    | cons c rest =>
      rw [hb] at hne
      simp only at hne
      split_ifs at hne with ht
      · rw [← e9, ← r7]; exact ht
      · simp [Option.toList] at hne

/-- Termination over the unbounded clock. The loop runs
`ceil(simulation_duration_ms / 100)` iterations when the duration is positive
and none when it is not: more iterations are never run, whether or not an
iteration faults, and a run that does not fault runs exactly that many. The
clock after `k` iterations is `100 * k`, always below
`max(duration, 0) + 100`. Each iteration admits at most one chunk and plays at
most one, and plays only when the clock is a multiple of 2000. -/
theorem simulatePlayback_terminates (rand : Nat → Nat) (rand_calls : Nat)
    (e : VideoStreamingEngine) (duration chunks_needed : Int) :
    (0 < duration → (stepBound duration : Int) = ⌈(duration : ℚ) / 100⌉) ∧
    (duration ≤ 0 → stepBound duration = 0) ∧
    (∀ k, stepBound duration ≤ k →
      simulateSteps rand duration chunks_needed k (enterPlayback e rand_calls) =
        simulatePlayback rand rand_calls e duration chunks_needed) ∧
    (∀ k s, k ≤ stepBound duration →
      simulateSteps rand duration chunks_needed k (enterPlayback e rand_calls) = some s →
      s.current_time = 100 * (k : Int) ∧
      s.current_time < max duration 0 + 100 ∧
      (k < stepBound duration → s.current_time < duration) ∧
      (k = stepBound duration → ¬ s.current_time < duration)) ∧
    (∀ s s1, simulationStep rand chunks_needed s = some s1 →
      s1.current_time = s.current_time + 100 ∧
      ∃ admitted played : List VideoChunk,
        admitted.length ≤ 1 ∧ played.length ≤ 1 ∧
        s1.engine.streaming_history = s.engine.streaming_history ++ admitted ∧
        s.engine.buffer ++ admitted = played ++ s1.engine.buffer ∧
        s1.next_chunk_to_request = s.next_chunk_to_request + (admitted.length : Int) ∧
        s1.next_chunk_to_play = s.next_chunk_to_play + (played.length : Int) ∧
        (played ≠ [] → s.current_time.tmod 2000 = 0)) ∧
    (FaultFree e.network →
      ∃ s, simulatePlayback rand rand_calls e duration chunks_needed = some s ∧
        s.current_time = 100 * (stepBound duration : Int) ∧ ¬ s.current_time < duration) := by
  have hclock := clock_after_steps rand rand_calls e duration chunks_needed
  refine ⟨fun hd => (stepBound_pos duration hd).2.2, stepBound_nonpos duration, ?_, ?_, ?_, ?_⟩
  · intro k hk
    obtain ⟨j, rfl⟩ := Nat.exists_eq_add_of_le hk
    exact simulateSteps_stable rand duration chunks_needed (stepBound duration)
      (enterPlayback e rand_calls)
      (by simpa [enterPlayback] using stepBound_covers duration) j
  · intro k s hk h
    have ht := hclock k s hk h
    refine ⟨ht, ?_, ?_, ?_⟩
    · rw [ht]
      have hk2 : (k : Int) ≤ (stepBound duration : Int) := by exact_mod_cast hk
      by_cases hd : 0 < duration
      · have h1 := (stepBound_pos duration hd).1
        have := le_max_left duration 0
        omega
      · have h0 := stepBound_nonpos duration (by omega)
        rw [h0] at hk2
        have := le_max_right duration 0
        simp only [Nat.cast_zero] at hk2
        omega
    · intro hlt
      rw [ht]
      exact stepBound_lt duration k hlt
    · intro heq
      rw [ht, heq]
      have := stepBound_covers duration
      omega
  · intro s s1 h
    exact ⟨(simulationStep_frame rand chunks_needed s s1 h).2.2.2.2.2,
      simulationStep_admits_and_plays rand chunks_needed s s1 h⟩
  · intro hn
    obtain ⟨s, hs, _⟩ := simulateSteps_faultFree rand duration chunks_needed
      (stepBound duration) (enterPlayback e rand_calls) hn
    exact ⟨s, hs, hclock _ s (le_refl _) hs,
      simulatePlayback_exits rand rand_calls e duration chunks_needed s hs⟩

/-! ## No admission below 10000 kbps -/

/-- At a bandwidth from 1000 to 9999 kbps a chunk of a ladder bitrate is
computed to arrive more than 100 ms after the request. -/
theorem downloadChunk_slow (e : VideoStreamingEngine) (chunk_id current_time bitrate : Int)
    (hb : bitrate ∈ bitrates) (hlo : 1000 ≤ e.network.current_bandwidth)
    (hhi : e.network.current_bandwidth ≤ 9999) :
    ∃ chunk, e.downloadChunk chunk_id current_time bitrate = some chunk ∧
      chunk.requested_time = current_time ∧
      100 < chunk.received_time - chunk.requested_time := by
  have hq : e.network.current_bandwidth.tdiv 1000 = e.network.current_bandwidth / 1000 :=
    Int.tdiv_eq_ediv (by omega) (by decide)
  have hq1 : 1 ≤ e.network.current_bandwidth / 1000 := by omega
  have hq9 : e.network.current_bandwidth / 1000 ≤ 9 := by omega
  have hd : ¬ e.network.current_bandwidth.tdiv 1000 = 0 := by rw [hq]; omega
  have hsize : 120 ≤ VideoStreamingEngine.calculateChunkSize bitrate 2000 := by
    simp only [bitrates, List.mem_cons, List.mem_singleton, List.not_mem_nil, or_false] at hb
    rcases hb with h | h | h | h <;> subst h <;> decide
  refine ⟨{ chunk_id := chunk_id, bitrate := bitrate,
            size_kb := VideoStreamingEngine.calculateChunkSize bitrate 2000,
            duration_ms := 2000, requested_time := current_time,
            received_time := current_time +
              (VideoStreamingEngine.calculateChunkSize bitrate 2000 * 8).tdiv
                (e.network.current_bandwidth.tdiv 1000),
            played_time := 0, is_downloaded := true }, ?_, rfl, ?_⟩
  · simp only [VideoStreamingEngine.downloadChunk, NetworkSimulator.getBandwidth, hd, if_false]
  · show 100 < current_time +
        (VideoStreamingEngine.calculateChunkSize bitrate 2000 * 8).tdiv
          (e.network.current_bandwidth.tdiv 1000) - current_time
    rw [hq, Int.tdiv_eq_ediv (by omega) (by omega)]
    have h101 : 101 ≤ VideoStreamingEngine.calculateChunkSize bitrate 2000 * 8 /
        (e.network.current_bandwidth / 1000) :=
      Int.le_ediv_of_mul_le (by omega) (by omega)
    omega

/-- With nothing admitted so far, chunk 1 pending and a sampled bandwidth from
1000 to 9999 kbps, an iteration admits nothing and records a rebuffer. -/
theorem starved_step (rand : Nat → Nat) (chunks_needed : Int) (hcn : 1 ≤ chunks_needed)
    (s s0 : PlaybackState) (bandwidth : Int)
    (hs : sampleStep rand s = some (bandwidth, s0))
    (hlo : 1000 ≤ bandwidth) (hhi : bandwidth ≤ 9999)
    (hh : s.engine.streaming_history = []) (hb : s.engine.buffer = [])
    (hn : s.next_chunk_to_request = 1) :
    ∃ s1, simulationStep rand chunks_needed s = some s1 ∧
      s1.engine.streaming_history = [] ∧ s1.engine.buffer = [] ∧
      s1.next_chunk_to_request = 1 ∧
      s1.engine.rebuffer_count = s.engine.rebuffer_count + 1 := by
  obtain ⟨e1, e2, _, _, _, e6, _, _, _, e10, _, e12⟩ := sampleStep_engine rand s s0 bandwidth hs
  have hreq : requestStep chunks_needed bandwidth s0 = some s0 := by
    unfold requestStep
    split_ifs with hc
    · obtain ⟨chunk, hd, hrq, hslow⟩ := downloadChunk_slow s0.engine s0.next_chunk_to_request
        s0.current_time
        (s0.engine.abr_algorithm.selectBitrate s0.engine.current_buffer_level bandwidth 480 2160)
        (selectBitrate_mem_ladder _ _ _) (by rw [← e12]; exact hlo) (by rw [← e12]; exact hhi)
      simp only [hd]
      rw [if_neg]
      rw [hrq] at hslow
      omega
    · rfl
  have hplay : playStep s0 = s0 := by
    unfold playStep
    rw [e1, hb]
  have hreb : rebufferStep chunks_needed s0 =
      { s0 with engine := { s0.engine with
          rebuffer_count := s0.engine.rebuffer_count + 1
          rebuffer_time_ms := s0.engine.rebuffer_time_ms + 500 } } := by
    unfold rebufferStep
    rw [if_pos]
    exact ⟨by rw [e1, hb], by rw [e10, hn]; exact hcn⟩
  refine ⟨{ rebufferStep chunks_needed (playStep s0) with
    current_time := (rebufferStep chunks_needed (playStep s0)).current_time + 100 }, ?_, ?_⟩
  · unfold simulationStep
    rw [hs]
    simp only [hreq]
  · rw [hplay, hreb]
    exact ⟨by show s0.engine.streaming_history = []; rw [e2, hh],
      by show s0.engine.buffer = []; rw [e1, hb],
      by show s0.next_chunk_to_request = 1; rw [e10, hn],
      by show s0.engine.rebuffer_count + 1 = _; rw [e6]⟩

/-- C20: no chunk is admitted below 10000 kbps. For every run of
`simulatePlayback` on a fresh engine with either policy, any buffer capacity
and `chunks_needed >= 1` in which every sampled bandwidth lies in
[1000, 9999], every download time `downloadChunk` computes exceeds 100 ms,
nothing is admitted, and each iteration records a rebuffer: after `k`
iterations `rebuffer_count = k`, and the run ends with an empty
`streaming_history` and `rebuffer_count` equal to the number of iterations. -/
theorem no_admission_below_10000 (rand : Nat → Nat) (rand_calls : Nat)
    (buffer_cap : Int) (net : NetworkSimulator) (algo : AdaptiveBitrateAlgorithm)
    (duration chunks_needed : Int) (hcn : 1 ≤ chunks_needed)
    (htraj : ∀ k s, simulateSteps rand duration chunks_needed k
        (enterPlayback (VideoStreamingEngine.new buffer_cap net algo) rand_calls) = some s →
      s.current_time < duration →
      ∃ bandwidth s0, sampleStep rand s = some (bandwidth, s0) ∧
        1000 ≤ bandwidth ∧ bandwidth ≤ 9999) :
    (∀ k, k ≤ stepBound duration →
      ∃ s, simulateSteps rand duration chunks_needed k
          (enterPlayback (VideoStreamingEngine.new buffer_cap net algo) rand_calls) = some s ∧
        s.engine.streaming_history = [] ∧ s.engine.buffer = [] ∧
        s.next_chunk_to_request = 1 ∧ s.engine.rebuffer_count = (k : Int)) ∧
    (∃ s, simulatePlayback rand rand_calls (VideoStreamingEngine.new buffer_cap net algo)
          duration chunks_needed = some s ∧
        ¬ s.current_time < duration ∧
        s.engine.streaming_history = [] ∧
        s.engine.rebuffer_count = (stepBound duration : Int)) ∧
    (∀ k s bandwidth s0 chunk,
      simulateSteps rand duration chunks_needed k
        (enterPlayback (VideoStreamingEngine.new buffer_cap net algo) rand_calls) = some s →
      s.current_time < duration →
      sampleStep rand s = some (bandwidth, s0) →
      s0.engine.downloadChunk s0.next_chunk_to_request s0.current_time
        (s0.engine.abr_algorithm.selectBitrate s0.engine.current_buffer_level
          bandwidth 480 2160) = some chunk →
      100 < chunk.received_time - chunk.requested_time) := by
  have hsteps : ∀ k, k ≤ stepBound duration →
      ∃ s, simulateSteps rand duration chunks_needed k
          (enterPlayback (VideoStreamingEngine.new buffer_cap net algo) rand_calls) = some s ∧
        s.engine.streaming_history = [] ∧ s.engine.buffer = [] ∧
        s.next_chunk_to_request = 1 ∧ s.engine.rebuffer_count = (k : Int) := by
    intro k
    induction k with
    | zero => exact fun _ => ⟨_, rfl, rfl, rfl, rfl, rfl⟩
    | succ k ih =>
      intro hk
      obtain ⟨sk, hsk, g1, g2, g3, g4⟩ := ih (by omega)
      have hclk := clock_after_steps rand rand_calls
        (VideoStreamingEngine.new buffer_cap net algo) duration chunks_needed k sk (by omega) hsk
      have hlt : sk.current_time < duration := by
        rw [hclk]; exact stepBound_lt duration k (by omega)
      obtain ⟨bw, s0, hs, hlo, hhi⟩ := htraj k sk hsk hlt
      obtain ⟨s1, hstep, f1, f2, f3, f4⟩ :=
        starved_step rand chunks_needed hcn sk s0 bw hs hlo hhi g1 g2 g3
      refine ⟨s1, ?_, f1, f2, f3, ?_⟩
      · rw [simulateSteps_succ_last, hsk]
        simp only [hlt, if_true]
        exact hstep
      · rw [f4, g4]
        push_cast
        rfl
  refine ⟨hsteps, ?_, ?_⟩
  · obtain ⟨s, hs, g1, _, _, g4⟩ := hsteps (stepBound duration) (le_refl _)
    exact ⟨s, hs, simulatePlayback_exits rand rand_calls _ duration chunks_needed s hs, g1, g4⟩
  · intro k s bw s0 chunk hrun hlt hs hd
    obtain ⟨bw2, s02, hs2, hlo, hhi⟩ := htraj k s hrun hlt
    rw [hs] at hs2
    simp only [Option.some.injEq, Prod.mk.injEq] at hs2
    obtain ⟨hbw, _⟩ := hs2
    have e12 := (sampleStep_engine rand s s0 bw hs).2.2.2.2.2.2.2.2.2.2.2
    obtain ⟨chunk2, hd2, _, hslow⟩ := downloadChunk_slow s0.engine s0.next_chunk_to_request
      s0.current_time
      (s0.engine.abr_algorithm.selectBitrate s0.engine.current_buffer_level bw 480 2160)
      (selectBitrate_mem_ladder _ _ _) (by rw [← e12, hbw]; exact hlo)
      (by rw [← e12, hbw]; exact hhi)
    rw [hd] at hd2
    rw [Option.some.inj hd2]
    exact hslow

/-- On a fault-free network with bounds within 1000 and 9999 kbps every
sample of a run lies between 1000 and 9999 kbps. -/
theorem trajectory_within (rand : Nat → Nat) (rand_calls : Nat) (e : VideoStreamingEngine)
    (duration chunks_needed : Int) (hn : FaultFree e.network)
    (hmax : e.network.max_bandwidth ≤ 9999) (k : Nat) (s : PlaybackState)
    (h : simulateSteps rand duration chunks_needed k (enterPlayback e rand_calls) = some s) :
    ∃ bandwidth s0, sampleStep rand s = some (bandwidth, s0) ∧
      1000 ≤ bandwidth ∧ bandwidth ≤ 9999 := by
  have hinv : FaultFree s.engine.network ∧ s.engine.network.max_bandwidth ≤ 9999 :=
    simulateSteps_preserves rand duration chunks_needed
      (fun t => FaultFree t.engine.network ∧ t.engine.network.max_bandwidth ≤ 9999)
      (fun a b hp hs => by
        obtain ⟨b1, hb1, hb2⟩ := simulationStep_faultFree rand chunks_needed a hp.1
        rw [hs] at hb1
        rw [Option.some.inj hb1]
        refine ⟨hb2, ?_⟩
        rw [← Option.some.inj hb1, (simulationStep_frame rand chunks_needed a b hs).2.2.2.1]
        exact hp.2)
      k _ s ⟨hn, hmax⟩ h
  obtain ⟨bw, s0, hs, hlo, hhi, _⟩ := sampleStep_faultFree rand s hinv.1
  exact ⟨bw, s0, hs, le_trans hinv.1.1 hlo, le_trans hhi hinv.2⟩

/-- Witness for C20: the Home WiFi preset (1000, 5000, 200), capacity 30000,
60000 ms, 30 chunks, Always-Best-Fit. -/
theorem no_admission_below_10000_witness :
    (1 : Int) ≤ 30 ∧
    ∃ s, simulatePlayback (fun n => 37 * n + 11) 0
          (VideoStreamingEngine.new 30000 (NetworkSimulator.new 1000 5000 200)
            AdaptiveBitrateAlgorithm.alwaysBestFit) 60000 30 = some s ∧
        ¬ s.current_time < 60000 ∧
        s.engine.streaming_history = [] ∧
        s.engine.rebuffer_count = (stepBound 60000 : Int) :=
  ⟨by decide,
    (no_admission_below_10000 (fun n => 37 * n + 11) 0 30000 (NetworkSimulator.new 1000 5000 200)
      AdaptiveBitrateAlgorithm.alwaysBestFit 60000 30 (by decide)
      (fun k s h _ => trajectory_within (fun n => 37 * n + 11) 0
        (VideoStreamingEngine.new 30000 (NetworkSimulator.new 1000 5000 200)
          AdaptiveBitrateAlgorithm.alwaysBestFit) 60000 30
        ⟨by decide, by decide, by decide, by decide, by decide⟩ (by decide) k s h)).2.1⟩

/-! ## The rebuffer of the first iteration -/

/-- An iteration never lowers `rebuffer_count`. -/
theorem rebuffer_count_mono_step (rand : Nat → Nat) (chunks_needed : Int)
    (s s1 : PlaybackState) (h : simulationStep rand chunks_needed s = some s1) :
    s.engine.rebuffer_count ≤ s1.engine.rebuffer_count := by
  obtain ⟨bw, s0, sr, hs, hr, rfl⟩ := simulationStep_some rand chunks_needed s s1 h
  obtain ⟨_, _, _, _, _, e6, _⟩ := sampleStep_engine rand s s0 bw hs
  obtain ⟨r1, _⟩ := requestStep_frame chunks_needed bw s0 sr hr
  obtain ⟨p1, _⟩ := playStep_frame sr
  obtain ⟨cyes, cno⟩ := rebufferStep_counters chunks_needed (playStep sr)
  show s.engine.rebuffer_count ≤ (rebufferStep chunks_needed (playStep sr)).engine.rebuffer_count
  by_cases hc : (playStep sr).engine.buffer = [] ∧
      (playStep sr).next_chunk_to_request ≤ chunks_needed
  · rw [(cyes hc).1, p1, r1, e6]; omega
  · rw [(cno hc).1, p1, r1, e6]

/-- An iteration whose sample succeeds with at least 1000 kbps succeeds. -/
theorem simulationStep_of_sample (rand : Nat → Nat) (chunks_needed : Int)
    (s s0 : PlaybackState) (bandwidth : Int)
    (hs : sampleStep rand s = some (bandwidth, s0)) (hlo : 1000 ≤ bandwidth) :
    ∃ sr, requestStep chunks_needed bandwidth s0 = some sr ∧
      simulationStep rand chunks_needed s =
        some { rebufferStep chunks_needed (playStep sr) with
          current_time := (rebufferStep chunks_needed (playStep sr)).current_time + 100 } := by
  have e12 := (sampleStep_engine rand s s0 bandwidth hs).2.2.2.2.2.2.2.2.2.2.2
  obtain ⟨sr, hr⟩ := requestStep_succeeds chunks_needed bandwidth s0 (by rw [← e12]; exact hlo)
  refine ⟨sr, hr, ?_⟩
  unfold simulationStep
  rw [hs]
  simp only [hr]

/-- A run in which every reached iteration samples at least 1000 kbps does
not fault. -/
theorem simulateSteps_of_samples (rand : Nat → Nat) (duration chunks_needed : Int)
    (s : PlaybackState)
    (htraj : ∀ k sk, simulateSteps rand duration chunks_needed k s = some sk →
      sk.current_time < duration →
      ∃ bandwidth s0, sampleStep rand sk = some (bandwidth, s0) ∧ 1000 ≤ bandwidth) :
    ∀ k : Nat, ∃ sk, simulateSteps rand duration chunks_needed k s = some sk := by
  intro k
  induction k with
  | zero => exact ⟨s, rfl⟩
  | succ k ih =>
    obtain ⟨sk, hsk⟩ := ih
    rw [simulateSteps_succ_last, hsk]
    by_cases hlt : sk.current_time < duration
    · obtain ⟨bw, s0, hs, hlo⟩ := htraj k sk hsk hlt
      obtain ⟨sr, _, hstep⟩ := simulationStep_of_sample rand chunks_needed sk s0 bw hs hlo
      exact ⟨_, by simp only [hlt, if_true]; exact hstep⟩
    · exact ⟨sk, by simp only [hlt, if_false]⟩

/-- From a state with an empty buffer at a clock that is a multiple of 2000,
with at least two chunks wanted and chunk 1 pending, an iteration whose sample
is at least 1000 kbps plays what it admits and records a rebuffer. -/
theorem first_step_rebuffer (rand : Nat → Nat) (chunks_needed : Int)
    (hcn : 2 ≤ chunks_needed) (s s0 : PlaybackState) (bandwidth : Int)
    (hs : sampleStep rand s = some (bandwidth, s0)) (hlo : 1000 ≤ bandwidth)
    (hb : s.engine.buffer = []) (hn : s.next_chunk_to_request = 1)
    (ht : s.current_time.tmod 2000 = 0) :
    ∃ sr s1, requestStep chunks_needed bandwidth s0 = some sr ∧
      simulationStep rand chunks_needed s = some s1 ∧
      (sr.engine.buffer = [] ∨ ∃ chunk, sr.engine.buffer = [chunk] ∧
        playedChunk sr = some chunk) ∧
      (playStep sr).engine.buffer = [] ∧
      (playStep sr).next_chunk_to_request ≤ chunks_needed ∧
      s1.engine.buffer = [] ∧
      s1.engine.rebuffer_count = s.engine.rebuffer_count + 1 ∧
      s1.engine.rebuffer_time_ms = s.engine.rebuffer_time_ms + 500 := by
  obtain ⟨sr, hr, hstep⟩ := simulationStep_of_sample rand chunks_needed s s0 bandwidth hs hlo
  obtain ⟨e1, _, _, _, _, e6, e7, _, e9, e10, _, _⟩ := sampleStep_engine rand s s0 bandwidth hs
  obtain ⟨cs, _, a2, _, a4⟩ := requestStep_appends chunks_needed bandwidth s0 sr hr
  obtain ⟨r1, r2, _, _, _, _, r7, _, _⟩ := requestStep_frame chunks_needed bandwidth s0 sr hr
  obtain ⟨p1, p2, _, _, _, _, _, _, p9⟩ := playStep_frame sr
  obtain ⟨q1, _⟩ := playStep_played sr
  have htr : sr.current_time.tmod 2000 = 0 := by rw [r7, e9]; exact ht
  have hbuf : sr.engine.buffer = cs := by rw [a2, e1, hb, List.nil_append]
  have hcases : (sr.engine.buffer = [] ∨ ∃ chunk, sr.engine.buffer = [chunk] ∧
      playedChunk sr = some chunk) ∧ (playStep sr).engine.buffer = [] ∧
      sr.next_chunk_to_request ≤ chunks_needed := by
    rcases a4 with ⟨hcs, hnx⟩ | ⟨c, hcs, _, hnx, _⟩
    · have hsb : sr.engine.buffer = [] := by rw [hbuf, hcs]
      refine ⟨Or.inl hsb, ?_, by rw [hnx, e10, hn]; omega⟩
      unfold playStep
      rw [hsb]
      exact hsb
    · have hsb : sr.engine.buffer = [c] := by rw [hbuf, hcs]
      have hpc : playedChunk sr = some c := by
        unfold playedChunk
        rw [hsb]
        simp only [htr, if_true]
      refine ⟨Or.inr ⟨c, hsb, hpc⟩, ?_, by rw [hnx, e10, hn]; omega⟩
      rw [hpc, hsb] at q1
      simp only [Option.toList, List.singleton_append, List.cons.injEq, true_and] at q1
      exact q1.symm
  obtain ⟨hadm, hempty, hle⟩ := hcases
  obtain ⟨cyes, _⟩ := rebufferStep_counters chunks_needed (playStep sr)
  obtain ⟨c1, c2⟩ := cyes ⟨hempty, by rw [p9]; exact hle⟩
  obtain ⟨b1, _⟩ := rebufferStep_frame chunks_needed (playStep sr)
  refine ⟨sr, _, hr, hstep, hadm, hempty, by rw [p9]; exact hle, ?_, ?_, ?_⟩
  · show (rebufferStep chunks_needed (playStep sr)).engine.buffer = []
    rw [b1]; exact hempty
  · show (rebufferStep chunks_needed (playStep sr)).engine.rebuffer_count = _
    rw [c1, p1, r1, e6]
  · show (rebufferStep chunks_needed (playStep sr)).engine.rebuffer_time_ms = _
    rw [c2, p2, r2, e7]

/-- C21: every run with more than one chunk records a rebuffer. For every run
of `simulatePlayback` on a fresh engine with a positive duration,
`chunks_needed >= 2`, either policy, any buffer capacity and every sampled
bandwidth at least 1000 kbps, the first iteration (clock 0) either admits
nothing or admits one chunk and plays it at once; either way the buffer is
empty after the playback block with a chunk still to request, so the
iteration records a rebuffer (`rebuffer_count = 1`, `rebuffer_time_ms = 500`
after it), and the run ends with `rebuffer_count >= 1`. -/
theorem first_iteration_records_rebuffer (rand : Nat → Nat) (rand_calls : Nat)
    (buffer_cap : Int) (net : NetworkSimulator) (algo : AdaptiveBitrateAlgorithm)
    (duration chunks_needed : Int) (hd : 0 < duration) (hcn : 2 ≤ chunks_needed)
    (htraj : ∀ k s, simulateSteps rand duration chunks_needed k
        (enterPlayback (VideoStreamingEngine.new buffer_cap net algo) rand_calls) = some s →
      s.current_time < duration →
      ∃ bandwidth s0, sampleStep rand s = some (bandwidth, s0) ∧ 1000 ≤ bandwidth) :
    (∃ bandwidth s0 sr s1,
      (enterPlayback (VideoStreamingEngine.new buffer_cap net algo) rand_calls).current_time
        = 0 ∧
      sampleStep rand
        (enterPlayback (VideoStreamingEngine.new buffer_cap net algo) rand_calls)
        = some (bandwidth, s0) ∧
      requestStep chunks_needed bandwidth s0 = some sr ∧
      simulateSteps rand duration chunks_needed 1
        (enterPlayback (VideoStreamingEngine.new buffer_cap net algo) rand_calls) = some s1 ∧
      (sr.engine.buffer = [] ∨ ∃ chunk, sr.engine.buffer = [chunk] ∧
        playedChunk sr = some chunk) ∧
      (playStep sr).engine.buffer = [] ∧
      (playStep sr).next_chunk_to_request ≤ chunks_needed ∧
      s1.engine.rebuffer_count = 1 ∧ s1.engine.rebuffer_time_ms = 500) ∧
    (∃ s, simulatePlayback rand rand_calls (VideoStreamingEngine.new buffer_cap net algo)
          duration chunks_needed = some s ∧
        ¬ s.current_time < duration ∧ 1 ≤ s.engine.rebuffer_count) := by
  have hlt : (enterPlayback (VideoStreamingEngine.new buffer_cap net algo)
      rand_calls).current_time < duration := hd
  obtain ⟨bw, s0, hs, hlo⟩ := htraj 0 _ rfl hlt
  obtain ⟨sr, s1, hr, hstep, hadm, hempty, hle, _, hc, ht⟩ :=
    first_step_rebuffer rand chunks_needed hcn _ s0 bw hs hlo rfl rfl rfl
  have hone : simulateSteps rand duration chunks_needed 1
      (enterPlayback (VideoStreamingEngine.new buffer_cap net algo) rand_calls) = some s1 := by
    rw [simulateSteps, if_pos hlt, hstep]
    rfl
  have hc1 : s1.engine.rebuffer_count = 1 := by
    rw [hc]; rfl
  have ht1 : s1.engine.rebuffer_time_ms = 500 := by
    rw [ht]; rfl
  refine ⟨⟨bw, s0, sr, s1, rfl, hs, hr, hone, hadm, hempty, hle, hc1, ht1⟩, ?_⟩
  obtain ⟨s, hrun⟩ := simulateSteps_of_samples rand duration chunks_needed _ htraj
    (stepBound duration)
  have hpos : stepBound duration ≠ 0 := by
    intro h0
    have := stepBound_covers duration
    rw [h0] at this
    simp only [Nat.cast_zero] at this
    omega
  obtain ⟨n, hn⟩ := Nat.exists_eq_succ_of_ne_zero hpos
  have hrest : simulateSteps rand duration chunks_needed n s1 = some s := by
    rw [hn, Nat.succ_eq_add_one, simulateSteps, if_pos hlt, hstep] at hrun
    exact hrun
  have hge : 1 ≤ s.engine.rebuffer_count :=
    simulateSteps_preserves rand duration chunks_needed
      (fun t => 1 ≤ t.engine.rebuffer_count)
      (fun a b hp hab => le_trans hp (rebuffer_count_mono_step rand chunks_needed a b hab))
      n s1 s (le_of_eq hc1.symm) hrest
  exact ⟨s, hrun, simulatePlayback_exits rand rand_calls _ duration chunks_needed s hrun, hge⟩

/-- On a fault-free network every sample of a run is at least 1000 kbps. -/
theorem trajectory_at_least_1000 (rand : Nat → Nat) (rand_calls : Nat)
    (e : VideoStreamingEngine) (duration chunks_needed : Int) (hn : FaultFree e.network)
    (k : Nat) (s : PlaybackState)
    (h : simulateSteps rand duration chunks_needed k (enterPlayback e rand_calls) = some s) :
    ∃ bandwidth s0, sampleStep rand s = some (bandwidth, s0) ∧ 1000 ≤ bandwidth := by
  have hinv : FaultFree s.engine.network :=
    simulateSteps_preserves rand duration chunks_needed
      (fun t => FaultFree t.engine.network)
      (fun a b hp hs => by
        obtain ⟨b1, hb1, hb2⟩ := simulationStep_faultFree rand chunks_needed a hp
        rw [hs] at hb1
        rw [Option.some.inj hb1]
        exact hb2)
      k _ s hn h
  obtain ⟨bw, s0, hs, hlo, _, _⟩ := sampleStep_faultFree rand s hinv
  exact ⟨bw, s0, hs, le_trans hinv.1 hlo⟩

/-- Witness for C21: an Always-Best-Fit run at 50000 kbps with capacity 30000,
500 ms and 5 chunks, in which the first iteration admits chunk 1 and plays
it. -/
theorem first_iteration_records_rebuffer_witness :
    (0 : Int) < 500 ∧ (2 : Int) ≤ 5 ∧
    ∃ s, simulatePlayback (fun n => n + 3) 0
          (VideoStreamingEngine.new 30000 (NetworkSimulator.new 50000 50000 1)
            AdaptiveBitrateAlgorithm.alwaysBestFit) 500 5 = some s ∧
        ¬ s.current_time < 500 ∧ 1 ≤ s.engine.rebuffer_count :=
  ⟨by decide, by decide,
    (first_iteration_records_rebuffer (fun n => n + 3) 0 30000
      (NetworkSimulator.new 50000 50000 1) AdaptiveBitrateAlgorithm.alwaysBestFit 500 5
      (by decide) (by decide)
      (fun k s h _ => trajectory_at_least_1000 (fun n => n + 3) 0
        (VideoStreamingEngine.new 30000 (NetworkSimulator.new 50000 50000 1)
          AdaptiveBitrateAlgorithm.alwaysBestFit) 500 5
        ⟨by decide, by decide, by decide, by decide, by decide⟩ k s h)).2⟩

/-! ## The clock as a 32-bit `int` -/

/-- The state after `k + 1` iterations with the `int` clock is one iteration,
when the loop condition holds, from the state after `k`. -/
theorem simulateStepsInt_succ_last (rand : Nat → Nat) (duration chunks_needed : Int) :
    ∀ (k : Nat) (s : PlaybackState),
      simulateStepsInt rand duration chunks_needed (k + 1) s =
        match simulateStepsInt rand duration chunks_needed k s with
        | none => none
        | some sk =>
          if sk.current_time < duration then simulationStepInt rand chunks_needed sk
          else some sk := by
  intro k
  induction k with
  | zero =>
    intro s
    simp only [simulateStepsInt]
    split_ifs
    · cases simulationStepInt rand chunks_needed s <;> rfl
    · rfl
  | succ k ih =>
    intro s
    rw [simulateStepsInt]
    by_cases hlt : s.current_time < duration
    · rw [if_pos hlt]
      cases hs : simulationStepInt rand chunks_needed s with
      | none =>
        have : simulateStepsInt rand duration chunks_needed (k + 1) s = none := by
          rw [simulateStepsInt, if_pos hlt, hs]
        rw [this]
      | some s1 =>
        have : simulateStepsInt rand duration chunks_needed (k + 1) s =
            simulateStepsInt rand duration chunks_needed k s1 := by
          rw [simulateStepsInt, if_pos hlt, hs]
        rw [this]
        exact ih s1
    · rw [if_neg hlt]
      have : simulateStepsInt rand duration chunks_needed (k + 1) s = some s := by
        rw [simulateStepsInt, if_neg hlt]
      rw [this]
      simp only [hlt, if_false]

/-- While the clock `100 * k` fits an `int`, the first `k` iterations of a run
of `simulatePlayback` are the same with the `int` clock as with the unbounded
one. -/
theorem simulateStepsInt_eq (rand : Nat → Nat) (rand_calls : Nat) (e : VideoStreamingEngine)
    (duration chunks_needed : Int) :
    ∀ k : Nat, k ≤ stepBound duration → 100 * (k : Int) ≤ INT_MAX →
      simulateStepsInt rand duration chunks_needed k (enterPlayback e rand_calls) =
        simulateSteps rand duration chunks_needed k (enterPlayback e rand_calls) := by
  intro k
  induction k with
  | zero => intro _ _; rfl
  | succ k ih =>
    intro hk hfit
    have hfit' : 100 * (k : Int) ≤ INT_MAX := by push_cast at hfit; omega
    rw [simulateStepsInt_succ_last, simulateSteps_succ_last, ih (by omega) hfit']
    cases hrun : simulateSteps rand duration chunks_needed k (enterPlayback e rand_calls) with
    | none => rfl
    | some sk =>
      simp only
      by_cases hlt : sk.current_time < duration
      · simp only [hlt, if_true]
        unfold simulationStepInt
        cases hstep : simulationStep rand chunks_needed sk with
        | none => rfl
        | some s1 =>
          have ht := clock_after_steps rand rand_calls e duration chunks_needed k sk
            (by omega) hrun
          have ht1 := (simulationStep_frame rand chunks_needed sk s1 hstep).2.2.2.2.2
          have : s1.current_time ≤ INT_MAX := by
            rw [ht1, ht]; push_cast at hfit; omega
          simp only [this, if_true]
      · simp only [hlt, if_false]

/-- For a duration of at most 2147483600 ms the clock never leaves the range of
`int`, and `simulatePlayback` with the `int` clock is `simulatePlayback` with
the unbounded one. -/
theorem simulatePlaybackInt_eq (rand : Nat → Nat) (rand_calls : Nat)
    (e : VideoStreamingEngine) (duration chunks_needed : Int)
    (hd : duration ≤ 2147483600) :
    simulatePlaybackInt rand rand_calls e duration chunks_needed =
      simulatePlayback rand rand_calls e duration chunks_needed := by
  unfold simulatePlaybackInt simulatePlayback
  apply simulateStepsInt_eq rand rand_calls e duration chunks_needed _ (le_refl _)
  unfold INT_MAX
  by_cases hpos : 0 < duration
  · have := (stepBound_pos duration hpos).1
    omega
  · rw [stepBound_nonpos duration (by omega)]
    decide

/-- For a duration from 2147483601 ms on, the iteration that starts at clock
2147483600 is reached unless an earlier one faults, and its `current_time +=
100` overflows: `simulatePlayback` with the `int` clock has no result. -/
theorem simulatePlaybackInt_overflows (rand : Nat → Nat) (rand_calls : Nat)
    (e : VideoStreamingEngine) (duration chunks_needed : Int)
    (hlo : 2147483600 < duration) (hhi : duration ≤ INT_MAX) :
    stepBound duration = 21474837 ∧
    simulateStepsInt rand duration chunks_needed 21474836 (enterPlayback e rand_calls) =
      simulateSteps rand duration chunks_needed 21474836 (enterPlayback e rand_calls) ∧
    (∀ s, simulateSteps rand duration chunks_needed 21474836 (enterPlayback e rand_calls)
        = some s →
      s.current_time = 2147483600 ∧ s.current_time < duration ∧
      INT_MAX < s.current_time + 100 ∧ simulationStepInt rand chunks_needed s = none) ∧
    simulatePlaybackInt rand rand_calls e duration chunks_needed = none := by
  unfold INT_MAX at hhi
  have hN : stepBound duration = 21474837 := by
    have h1 := stepBound_pos duration (by omega)
    have : (stepBound duration : Int) = 21474837 := by omega
    exact_mod_cast this
  have hagree := simulateStepsInt_eq rand rand_calls e duration chunks_needed 21474836
    (by rw [hN]; decide) (by unfold INT_MAX; decide)
  have hstate : ∀ s, simulateSteps rand duration chunks_needed 21474836
      (enterPlayback e rand_calls) = some s →
      s.current_time = 2147483600 ∧ s.current_time < duration ∧
      INT_MAX < s.current_time + 100 ∧ simulationStepInt rand chunks_needed s = none := by
    intro s hs
    have ht := clock_after_steps rand rand_calls e duration chunks_needed 21474836 s
      (by rw [hN]; decide) hs
    have ht2 : s.current_time = 2147483600 := by rw [ht]; norm_num
    refine ⟨ht2, by omega, by unfold INT_MAX; omega, ?_⟩
    unfold simulationStepInt
    cases hstep : simulationStep rand chunks_needed s with
    | none => rfl
    | some s1 =>
      have ht1 := (simulationStep_frame rand chunks_needed s s1 hstep).2.2.2.2.2
      have : ¬ s1.current_time ≤ INT_MAX := by
        unfold INT_MAX; omega
      simp only [this, if_false]
  refine ⟨hN, hagree, hstate, ?_⟩
  unfold simulatePlaybackInt
  rw [hN, show (21474837 : Nat) = 21474836 + 1 from rfl, simulateStepsInt_succ_last, hagree]
  cases hs : simulateSteps rand duration chunks_needed 21474836 (enterPlayback e rand_calls) with
  | none => rfl
  | some s =>
    obtain ⟨_, hlt, _, hnone⟩ := hstate s hs
    simp only [hlt, if_true]
    exact hnone

/-- An iteration with the `int` clock that has a result is the iteration with
the unbounded clock, and its new clock value fits an `int`. -/
theorem simulationStepInt_some (rand : Nat → Nat) (chunks_needed : Int)
    (s s1 : PlaybackState) (h : simulationStepInt rand chunks_needed s = some s1) :
    simulationStep rand chunks_needed s = some s1 ∧ s1.current_time ≤ INT_MAX := by
  unfold simulationStepInt at h
  cases hstep : simulationStep rand chunks_needed s with
  | none => rw [hstep] at h; simp at h
  | some s2 =>
    rw [hstep] at h
    simp only at h
    split_ifs at h with hfit
    have heq : s2 = s1 := Option.some.inj h
    rw [← heq]
    exact ⟨rfl, hfit⟩

/-- For a duration of at most 2147483600 ms every number of iterations gives
the same state with the `int` clock as with the unbounded one. -/
theorem simulateStepsInt_eq_of_le (rand : Nat → Nat) (rand_calls : Nat)
    (e : VideoStreamingEngine) (duration chunks_needed : Int)
    (hd : duration ≤ 2147483600) :
    ∀ k : Nat,
      simulateStepsInt rand duration chunks_needed k (enterPlayback e rand_calls) =
        simulateSteps rand duration chunks_needed k (enterPlayback e rand_calls) := by
  have hbound : 100 * (stepBound duration : Int) ≤ INT_MAX := by
    unfold INT_MAX
    by_cases hpos : 0 < duration
    · have := (stepBound_pos duration hpos).1
      omega
    · rw [stepBound_nonpos duration (by omega)]
      decide
  intro k
  induction k with
  | zero => rfl
  | succ k ih =>
    by_cases hk : k + 1 ≤ stepBound duration
    · exact simulateStepsInt_eq rand rand_calls e duration chunks_needed (k + 1) hk
        (by
          have : ((k + 1 : Nat) : Int) ≤ (stepBound duration : Int) := by exact_mod_cast hk
          omega)
    · rw [simulateStepsInt_succ_last, simulateSteps_succ_last, ih]
      cases hrun : simulateSteps rand duration chunks_needed k (enterPlayback e rand_calls) with
      | none => rfl
      | some sk =>
        have hcover : duration ≤ (enterPlayback e rand_calls).current_time + 100 * (k : Int) := by
          have h1 := stepBound_covers duration
          have h2 : (stepBound duration : Int) ≤ (k : Int) := by
            have : stepBound duration ≤ k := by omega
            exact_mod_cast this
          show duration ≤ 0 + 100 * (k : Int)
          omega
        have hex := simulateSteps_exits rand duration chunks_needed k _ sk hrun hcover
        simp only [hex, if_false]

/-- C19 (amended): `simulatePlayback`, with its clock a 32-bit `int`,
terminates for every duration of at most 2147483600 ms. The loop runs
`ceil(simulation_duration_ms / 100)` iterations when the duration is positive
and none when it is not: more iterations are never run, whether or not an
iteration faults, and a run that does not fault (as on every fault-free
network) runs exactly that many. The clock after `k` iterations is `100 * k`,
a value an `int` holds, below the duration before the last iteration and at or
above it after the last one. Each iteration admits at most one chunk and plays
at most one, and plays only when the clock is a multiple of 2000. -/
theorem simulatePlaybackInt_terminates (rand : Nat → Nat) (rand_calls : Nat)
    (e : VideoStreamingEngine) (duration chunks_needed : Int)
    (hd : duration ≤ 2147483600) :
    (0 < duration → (stepBound duration : Int) = ⌈(duration : ℚ) / 100⌉) ∧
    (duration ≤ 0 → stepBound duration = 0) ∧
    (∀ k, stepBound duration ≤ k →
      simulateStepsInt rand duration chunks_needed k (enterPlayback e rand_calls) =
        simulatePlaybackInt rand rand_calls e duration chunks_needed) ∧
    (∀ k s, k ≤ stepBound duration →
      simulateStepsInt rand duration chunks_needed k (enterPlayback e rand_calls) = some s →
      s.current_time = 100 * (k : Int) ∧
      s.current_time ≤ INT_MAX ∧
      (k < stepBound duration → s.current_time < duration) ∧
      (k = stepBound duration → ¬ s.current_time < duration)) ∧
    (∀ s s1, simulationStepInt rand chunks_needed s = some s1 →
      s1.current_time = s.current_time + 100 ∧
      s1.current_time ≤ INT_MAX ∧
      ∃ admitted played : List VideoChunk,
        admitted.length ≤ 1 ∧ played.length ≤ 1 ∧
        s1.engine.streaming_history = s.engine.streaming_history ++ admitted ∧
        s.engine.buffer ++ admitted = played ++ s1.engine.buffer ∧
        s1.next_chunk_to_request = s.next_chunk_to_request + (admitted.length : Int) ∧
        s1.next_chunk_to_play = s.next_chunk_to_play + (played.length : Int) ∧
        (played ≠ [] → s.current_time.tmod 2000 = 0)) ∧
    (FaultFree e.network →
      ∃ s, simulatePlaybackInt rand rand_calls e duration chunks_needed = some s ∧
        s.current_time = 100 * (stepBound duration : Int) ∧ ¬ s.current_time < duration) := by
  obtain ⟨t1, t2, t3, t4, t5, t6⟩ :=
    simulatePlayback_terminates rand rand_calls e duration chunks_needed
  have hall := simulateStepsInt_eq_of_le rand rand_calls e duration chunks_needed hd
  have hpb := simulatePlaybackInt_eq rand rand_calls e duration chunks_needed hd
  refine ⟨t1, t2, ?_, ?_, ?_, ?_⟩
  · intro k hk
    rw [hall k, hpb]
    exact t3 k hk
  · intro k s hk hs
    rw [hall k] at hs
    obtain ⟨c1, _, c3, c4⟩ := t4 k s hk hs
    refine ⟨c1, ?_, c3, c4⟩
    rw [c1]
    unfold INT_MAX
    have hk2 : (k : Int) ≤ (stepBound duration : Int) := by exact_mod_cast hk
    by_cases hpos : 0 < duration
    · have := (stepBound_pos duration hpos).1
      omega
    · rw [stepBound_nonpos duration (by omega)] at hk2
      simp only [Nat.cast_zero] at hk2
      omega
  · intro s s1 h
    obtain ⟨hstep, hfit⟩ := simulationStepInt_some rand chunks_needed s s1 h
    obtain ⟨d1, d2⟩ := t5 s s1 hstep
    exact ⟨d1, hfit, d2⟩
  · intro hn
    rw [hpb]
    exact t6 hn

/-- Witness for C19 (amended): 60000 ms on the Home WiFi network. -/
theorem simulatePlaybackInt_terminates_witness :
    (60000 : Int) ≤ 2147483600 ∧
    (∀ k, stepBound 60000 ≤ k →
      simulateStepsInt (fun n => 5 * n) 60000 30 k
          (enterPlayback (VideoStreamingEngine.new 30000 (NetworkSimulator.new 1000 5000 200)
            AdaptiveBitrateAlgorithm.alwaysBestFit) 0) =
        simulatePlaybackInt (fun n => 5 * n) 0
          (VideoStreamingEngine.new 30000 (NetworkSimulator.new 1000 5000 200)
            AdaptiveBitrateAlgorithm.alwaysBestFit) 60000 30) :=
  ⟨by decide,
    (simulatePlaybackInt_terminates (fun n => 5 * n) 0
      (VideoStreamingEngine.new 30000 (NetworkSimulator.new 1000 5000 200)
        AdaptiveBitrateAlgorithm.alwaysBestFit) 60000 30 (by decide)).2.2.1⟩

/-- Counterexample to C19 as stated: with a duration of 2147483647 ms
(`INT_MAX`), no chunk to request and the Home WiFi network,
`ceil(duration / 100)` is 21474837; the run reaches clock 2147483600 after
21474836 iterations, the loop condition still holds, and the
`current_time += 100` of iteration 21474837 overflows the `int`: the loop is
not left and `simulatePlayback` has no result. -/
theorem clock_overflows_at_duration_int_max :
    stepBound 2147483647 = 21474837 ∧
    (∃ s, simulateStepsInt (fun _ => 0) 2147483647 0 21474836
        (enterPlayback (VideoStreamingEngine.new 30000 (NetworkSimulator.new 1000 5000 200)
          AdaptiveBitrateAlgorithm.alwaysBestFit) 0) = some s ∧
      s.current_time = 2147483600 ∧ s.current_time < 2147483647 ∧
      INT_MAX < s.current_time + 100 ∧
      simulationStepInt (fun _ => 0) 0 s = none) ∧
    simulatePlaybackInt (fun _ => 0) 0
      (VideoStreamingEngine.new 30000 (NetworkSimulator.new 1000 5000 200)
        AdaptiveBitrateAlgorithm.alwaysBestFit) 2147483647 0 = none := by
  obtain ⟨hN, hagree, hstate, hnone⟩ := simulatePlaybackInt_overflows (fun _ => 0) 0
    (VideoStreamingEngine.new 30000 (NetworkSimulator.new 1000 5000 200)
      AdaptiveBitrateAlgorithm.alwaysBestFit) 2147483647 0 (by decide) (by decide)
  obtain ⟨s, hs, _⟩ := simulateSteps_faultFree (fun _ => 0) 2147483647 0 21474836
    (enterPlayback (VideoStreamingEngine.new 30000 (NetworkSimulator.new 1000 5000 200)
      AdaptiveBitrateAlgorithm.alwaysBestFit) 0)
    ⟨by decide, by decide, by decide, by decide, by decide⟩
  obtain ⟨c1, c2, c3, c4⟩ := hstate s hs
  exact ⟨hN, ⟨s, by rw [hagree]; exact hs, c1, c2, c3, c4⟩, hnone⟩

/-! ## Scenario D with the `int` clock -/

/-- C10 (amended): scenario D. With `chunks_needed = 0`, for every duration of
at most 2147483600 ms, every capacity, policy and draws, and every network
whose fluctuation rate is non-zero with its double an `int` (or any network
when the duration is not positive), `simulatePlayback` on a fresh engine, with
its clock a 32-bit `int`, leaves its loop with an empty `streaming_history`,
`rebuffer_count = 0` and `rebuffer_time_ms = 0`, and `displayStatistics` takes
the "No streaming data available." branch, returning before any quality score
is computed. -/
theorem scenarioD_ends_without_data (rand : Nat → Nat) (rand_calls : Nat) (buffer_cap : Int)
    (net : NetworkSimulator) (algo : AdaptiveBitrateAlgorithm) (duration : Int)
    (hd : duration ≤ 2147483600)
    (hf : (net.fluctuation_rate ≠ 0 ∧ fitsInt (net.fluctuation_rate * 2)) ∨ duration ≤ 0) :
    ∃ s, simulatePlaybackInt rand rand_calls
        (VideoStreamingEngine.new buffer_cap net algo) duration 0 = some s ∧
      ¬ s.current_time < duration ∧
      s.current_time ≤ INT_MAX ∧
      s.engine.streaming_history = [] ∧
      s.engine.rebuffer_count = 0 ∧
      s.engine.rebuffer_time_ms = 0 ∧
      s.engine.displayStatistics = none := by
  have hf2 : net.fluctuation_rate ≠ 0 ∨ duration ≤ 0 := by
    rcases hf with h | h
    · exact Or.inl h.1
    · exact Or.inr h
  obtain ⟨s, hs, h1, h2, h3, h4, h5⟩ :=
    scenarioD_no_data rand rand_calls buffer_cap net algo duration hf2
  refine ⟨s, ?_, h1, ?_, h2, h3, h4, h5⟩
  · rw [simulatePlaybackInt_eq rand rand_calls _ duration 0 hd]
    exact hs
  · rw [← simulatePlaybackInt_eq rand rand_calls _ duration 0 hd] at hs
    exact ((simulatePlaybackInt_terminates rand rand_calls _ duration 0 hd).2.2.2.1
      (stepBound duration) s (le_refl _) hs).2.1

/-- Witness for C10 (amended): the Mobile LTE network, Buffer-Based policy,
60000 ms. -/
theorem scenarioD_ends_without_data_witness :
    (60000 : Int) ≤ 2147483600 ∧
    (((NetworkSimulator.new 500 3000 400).fluctuation_rate ≠ 0 ∧
        fitsInt ((NetworkSimulator.new 500 3000 400).fluctuation_rate * 2)) ∨
      (60000 : Int) ≤ 0) ∧
    ∃ s, simulatePlaybackInt (fun n => 3 * n) 0
        (VideoStreamingEngine.new 30000 (NetworkSimulator.new 500 3000 400)
          AdaptiveBitrateAlgorithm.bufferBasedAdaptation) 60000 0 = some s ∧
      ¬ s.current_time < 60000 ∧
      s.current_time ≤ INT_MAX ∧
      s.engine.streaming_history = [] ∧
      s.engine.rebuffer_count = 0 ∧
      s.engine.rebuffer_time_ms = 0 ∧
      s.engine.displayStatistics = none :=
  ⟨by decide, Or.inl ⟨by decide, by decide, by decide⟩,
    scenarioD_ends_without_data (fun n => 3 * n) 0 30000 (NetworkSimulator.new 500 3000 400)
      AdaptiveBitrateAlgorithm.bufferBasedAdaptation 60000 (by decide)
      (Or.inl ⟨by decide, by decide, by decide⟩)⟩

/-- Counterexample to C10 as stated: scenario D (`chunks_needed = 0`) has no
result on a network with fluctuation rate 0, where the first iteration takes
`rand() % 0` in `simulateBandwidth`, and none for the duration 2147483647,
where the clock overflows at 2147483600 + 100. -/
theorem scenarioD_without_result :
    simulatePlaybackInt (fun _ => 0) 0
      (VideoStreamingEngine.new 30000 (NetworkSimulator.new 500 3000 0)
        AdaptiveBitrateAlgorithm.alwaysBestFit) 60000 0 = none ∧
    NetworkSimulator.simulateBandwidth (fun _ => 0) 0 (NetworkSimulator.new 500 3000 0) 0
      = none ∧
    simulatePlaybackInt (fun _ => 0) 0
      (VideoStreamingEngine.new 30000 (NetworkSimulator.new 500 3000 400)
        AdaptiveBitrateAlgorithm.alwaysBestFit) 2147483647 0 = none := by
  refine ⟨?_, by decide, ?_⟩
  · rw [simulatePlaybackInt_eq _ _ _ _ _ (by decide)]
    have hfuel : stepBound 60000 = 599 + 1 := by decide
    rw [simulatePlayback, hfuel, simulateSteps]
    simp [enterPlayback, simulationStep, sampleStep, NetworkSimulator.simulateBandwidth,
      VideoStreamingEngine.new, NetworkSimulator.new]
  · exact (simulatePlaybackInt_overflows (fun _ => 0) 0 _ 2147483647 0
      (by decide) (by decide)).2.2.2

end Simulator
